import Mathlib

/-!
# Event-log ingestion of the tracking service

A shallow embedding of the ingestion path of the tracking service:

* `internal/errors/errors.go`        : `WrapGormError`, `isUniqueViolation`
* `internal/utils/helper.go`         : `WithRetry`, `ChunkArray`, `min`, `ParseTime`
* `internal/services/event.go`       : `EventService.CreateEventLog`, `createKafkaMessage`
* `internal/handlers/tenant.go`      : `TenantHandler.CreateEventLog`
* `internal/handlers/base.go`        : `BaseHandler.ErrorResponse`, `InvalidInputErrorResponse`
* `internal/middlewares/tenant_auth.go` : `TenantAuthMiddleware`
* `internal/routes/tenant.go`        : `TenantRoutes.RegisterRoutes`

The collaborators of the service (repository, identifier generator, wall clock,
JSON encoder, Kafka producer, the calling context) are oracles of an environment;
every call to one of them is appended to a trace carried by the world state.
-/

namespace Tracking

/-! ## Go errors -/

/-- Package-level error values that the code compares by identity. -/
inductive Sentinel where
  | gormErrRecordNotFound
  | contextCanceled
  | contextDeadlineExceeded
  | ErrorNotFound
  | ErrorInvalidRequest
  | ErrorUnauthorized
  | ErrorForbidden
  | ErrorInternalError
  | ErrorDuplicateKey
  deriving DecidableEq, Repr

/-- The text given to `errors.New` for each sentinel. -/
def Sentinel.message : Sentinel → String
  | .gormErrRecordNotFound => "record not found"
  | .contextCanceled => "context canceled"
  | .contextDeadlineExceeded => "context deadline exceeded"
  | .ErrorNotFound => "not found"
  | .ErrorInvalidRequest => "invalid request"
  | .ErrorUnauthorized => "unauthorized"
  | .ErrorForbidden => "forbidden"
  | .ErrorInternalError => "internal error"
  | .ErrorDuplicateKey => "duplicate key"

/-- A non-nil Go `error`: a sentinel, an error that is only a message (driver
errors), or `fmt.Errorf(pre ++ "%w", inner)`.  A nil error is `none : Option GoError`. -/
inductive GoError where
  | sentinel (s : Sentinel)
  | plain (msg : String)
  | wrap (pre : String) (inner : GoError)
  deriving DecidableEq, Repr

/-- The method `err.Error()`. -/
def GoError.Error : GoError → String
  | .sentinel s => s.message
  | .plain msg => msg
  | .wrap pre inner => pre ++ inner.Error

/-- The function `errors.Is(err, target)` for a sentinel target: walks the `%w` chain. -/
def errorsIs : GoError → Sentinel → Bool
  | .sentinel s, t => decide (s = t)
  | .plain _, _ => false
  | .wrap _ inner, t => errorsIs inner t

/-- The function `strings.Contains(s, substr)`. -/
def stringsContains (s substr : String) : Bool :=
  s.toList.tails.any (fun t => substr.toList.isPrefixOf t)

namespace errdefs

/-- From `errors.go`: `isUniqueViolation`. -/
def isUniqueViolation (err : GoError) : Bool :=
  stringsContains err.Error "duplicate key value violates unique constraint"

/-- From `errors.go`: `WrapGormError`. -/
def WrapGormError (err : Option GoError) : Option GoError :=
  match err with
  | none => none
  | some e =>
    if errorsIs e .gormErrRecordNotFound then
      some (.sentinel .ErrorNotFound)
    else if isUniqueViolation e then
      some (.sentinel .ErrorDuplicateKey)
    else
      some (.sentinel .ErrorInternalError)

end errdefs

/-! ## Data model

`V` is the type of the dynamic values (`interface{}`) held in a property map.
A Go map is an association list, `none` being the nil map. Times are integers
(nanoseconds since the epoch). -/

/-- The property map `map[string]interface{}` (the underlying type of `model.JSONB`). -/
abbrev JSONB (V : Type) := Option (List (String × V))

namespace model

/-- From `models/event_field.go`. -/
structure EventField where
  ID : String
  EventID : String
  Name : String
  DataType : String
  IsRequired : Bool
  Description : String
  CreatedAt : Int
  UpdatedAt : Int
  DeletedAt : Option Int
  deriving DecidableEq, Repr

/-- From `models/event.go` (the `Application` and `Platform` association pointers are
never loaded by `GetEventByID` and are left out). -/
structure Event where
  ID : String
  ApplicationID : String
  PlatformID : Int
  Name : String
  Description : String
  IsActive : Bool
  CreatedAt : Int
  UpdatedAt : Int
  DeletedAt : Option Int
  Fields : List EventField
  deriving DecidableEq, Repr

/-- From `models/event_log.go`. -/
structure EventLog (V : Type) where
  ID : String
  ApplicationID : String
  SessionID : String
  EventID : String
  PlatformID : Int
  Properties : JSONB V
  CreatedAt : Int
  deriving DecidableEq, Repr

end model

namespace datastructure

/-- From `datastructures/event.go`: the service input `EventLog`. -/
structure EventLog (V : Type) where
  ID : String
  ApplicationID : String
  SessionID : String
  EventID : String
  PlatformID : Int
  Properties : JSONB V
  CreatedAt : String
  deriving DecidableEq, Repr

/-- From `datastructures/event.go`: the JSON body of the ingestion request. -/
structure CreateEventLogRequest (V : Type) where
  ApplicationID : String
  PlatformID : Int
  EventID : String
  SessionID : String
  Properties : JSONB V
  deriving DecidableEq, Repr

end datastructure

/-- The message `sarama.ProducerMessage` as far as the service fills it. -/
structure ProducerMessage where
  Topic : String
  Key : String
  Value : List UInt8
  deriving DecidableEq, Repr

/-- From `shared.go`: `KafkaTopic`. -/
def KafkaTopic : String := "tracking"

/-! ## Environment, world and trace -/

/-- One observable interaction of the service with a collaborator. -/
inductive Effect (V : Type) where
  | getEventByID (id : String) (event : model.Event) (err : Option GoError)
  | generate (id : String)
  | now (t : Int)
  | sendMessage (msg : ProducerMessage) (err : Option GoError)
  | wait (seconds : Nat) (ctxErr : Option GoError)
  | createEventLog (eventLog : model.EventLog V) (err : Option GoError)
  | logErrorf (format : String) (err : GoError)
  | logInfof (format : String) (msg : ProducerMessage)
  | logValidationError (field : String) (tag : String) (param : String)
  deriving DecidableEq, Repr

/-- The collaborators. Each oracle is indexed by how many calls of its kind came before. -/
structure Env (V : Type) where
  /-- The lookup `repo.GetEventByID(ctx, id)`: the event and the error. -/
  GetEventByID : Nat → String → model.Event × Option GoError
  /-- The write `repo.CreateEventLog(ctx, eventLog)`. -/
  CreateEventLog : Nat → model.EventLog V → Option GoError
  /-- The identifier `snowflake.Generate().String()`. -/
  Generate : Nat → String
  /-- The clock `time.Now()`. -/
  Now : Nat → Int
  /-- The encoder `json.Marshal` on an event log. -/
  jsonMarshal : model.EventLog V → Except GoError (List UInt8)
  /-- The publisher `producer.SendMessage(msg)`: its error. -/
  SendMessage : Nat → ProducerMessage → Option GoError

/-- A `context.Context` as the retry loop sees it: for the wait with the given index
and the requested number of seconds, `none` when the timer fires first, and
`some (ctx.Err())` when `ctx.Done()` is closed first. -/
structure Context where
  doneDuring : Nat → Nat → Option GoError

/-- The world state: call counters and the trace of effects so far. -/
structure World (V : Type) where
  lookups : Nat
  writes : Nat
  ids : Nat
  clockReads : Nat
  sends : Nat
  waits : Nat
  trace : List (Effect V)
  deriving DecidableEq, Repr

/-- The world before anything happened. -/
def World.init (V : Type) : World V :=
  { lookups := 0, writes := 0, ids := 0, clockReads := 0, sends := 0, waits := 0, trace := [] }

variable {V : Type}

/-- The call `s.repo.GetEventByID(ctx, id)`. -/
def repoGetEventByID (env : Env V) (id : String) (w : World V) :
    (model.Event × Option GoError) × World V :=
  let r := env.GetEventByID w.lookups id
  (r, { w with lookups := w.lookups + 1, trace := w.trace ++ [.getEventByID id r.1 r.2] })

/-- The call `s.repo.CreateEventLog(ctx, eventLog)`. -/
def repoCreateEventLog (env : Env V) (eventLog : model.EventLog V) (w : World V) :
    Option GoError × World V :=
  let r := env.CreateEventLog w.writes eventLog
  (r, { w with writes := w.writes + 1, trace := w.trace ++ [.createEventLog eventLog r] })

/-- The call `s.snowflake.Generate().String()`. -/
def snowflakeGenerate (env : Env V) (w : World V) : String × World V :=
  let id := env.Generate w.ids
  (id, { w with ids := w.ids + 1, trace := w.trace ++ [.generate id] })

/-- The call `time.Now()`. -/
def timeNow (env : Env V) (w : World V) : Int × World V :=
  let t := env.Now w.clockReads
  (t, { w with clockReads := w.clockReads + 1, trace := w.trace ++ [.now t] })

/-- The call `s.producer.SendMessage(msg)`, keeping only the error. -/
def producerSendMessage (env : Env V) (msg : ProducerMessage) (w : World V) :
    Option GoError × World V :=
  let r := env.SendMessage w.sends msg
  (r, { w with sends := w.sends + 1, trace := w.trace ++ [.sendMessage msg r] })

/-- The statement `select { case <-ctx.Done(): ...; case <-time.After(seconds): }`:
`some (ctx.Err())` when the context wins, `none` when the timer does. -/
def selectDoneOrAfter (ctx : Context) (seconds : Nat) (w : World V) :
    Option GoError × World V :=
  let r := ctx.doneDuring w.waits seconds
  (r, { w with waits := w.waits + 1, trace := w.trace ++ [.wait seconds r] })

/-- The call `log.WithContext(ctx).Errorf(format, err)`. -/
def logErrorf (format : String) (err : GoError) (w : World V) : World V :=
  { w with trace := w.trace ++ [.logErrorf format err] }

/-- The call `log.WithContext(ctx).Infof(format, msg)`. -/
def logInfof (format : String) (msg : ProducerMessage) (w : World V) : World V :=
  { w with trace := w.trace ++ [.logInfof format msg] }

/-! ## `util.WithRetry` -/

namespace util

/-- The body of the loop of `WithRetry` with `remaining` iterations left, loop
variable `i` and current value `err` of the variable of that name. -/
def WithRetry.loop (ctx : Context) (fn : World V → Option GoError × World V) :
    (remaining : Nat) → (i : Nat) → (err : Option GoError) → World V →
      Option GoError × World V
  | 0, _, err, w => (err, w)
  | remaining + 1, i, _, w =>
    match fn w with
    | (none, w1) => (none, w1)
    | (some e, w1) =>
      match selectDoneOrAfter ctx (i + 1) w1 with
      | (some ctxErr, w2) => (some ctxErr, w2)
      | (none, w2) => WithRetry.loop ctx fn remaining (i + 1) (some e) w2

/-- From `helper.go`: `WithRetry(ctx, maxRetries, fn)`. The loop
`for i := 0; i < maxRetries; i++` runs `maxRetries` times when that is positive and
not at all otherwise. -/
def WithRetry (ctx : Context) (maxRetries : Int) (fn : World V → Option GoError × World V)
    (w : World V) : Option GoError × World V :=
  WithRetry.loop ctx fn maxRetries.toNat 0 none w

end util

/-! ## `EventService` -/

namespace EventService

/-- From `services/event.go`: `createKafkaMessage`. -/
def createKafkaMessage (env : Env V) (queue : model.EventLog V) (w : World V) :
    Except GoError ProducerMessage × World V :=
  match env.jsonMarshal queue with
  | .error err => (.error (.wrap "marshal queue failed: " err), w)
  | .ok jsonData =>
    let (driverTraceId, w1) := snowflakeGenerate env w
    (.ok { Topic := KafkaTopic, Key := driverTraceId, Value := jsonData }, w1)

/-- From `services/event.go`: `CreateEventLog`. The result is the pair
`(*model.EventLog, error)`. -/
def CreateEventLog (env : Env V) (ctx : Context) (inp : datastructure.EventLog V)
    (w : World V) : (Option (model.EventLog V) × Option GoError) × World V :=
  match repoGetEventByID env inp.EventID w with
  | ((_, some err), w1) => ((none, errdefs.WrapGormError (some err)), w1)
  | ((event, none), w1) =>
    let (id, w2) := snowflakeGenerate env w1
    let (createdAt, w3) := timeNow env w2
    let eventLog : model.EventLog V :=
      { ID := id
        ApplicationID := inp.ApplicationID
        SessionID := inp.SessionID
        EventID := event.ID
        PlatformID := inp.PlatformID
        Properties := inp.Properties
        CreatedAt := createdAt }
    match createKafkaMessage env eventLog w3 with
    | (.error _, w4) =>
      match repoCreateEventLog env eventLog w4 with
      | (some err, w5) => ((none, errdefs.WrapGormError (some err)), w5)
      | (none, w5) => ((some eventLog, none), w5)
    | (.ok msg, w4) =>
      match util.WithRetry ctx 3 (producerSendMessage env msg) w4 with
      | (some err, w5) =>
        let w6 := logErrorf "Failed to send message to kafka: %v" err w5
        match repoCreateEventLog env eventLog w6 with
        | (some err2, w7) =>
          let w8 := logErrorf "Failed to create event log: %v" err2 w7
          ((none, errdefs.WrapGormError (some err2)), w8)
        | (none, w7) => ((some eventLog, none), w7)
      | (none, w5) =>
        let w6 := logInfof "Successfully sent message to kafka: %v" msg w5
        ((some eventLog, none), w6)

end EventService

/-! ## Reading a trace -/

/-- The effects appended to the trace between the world `w` and the later world `w2`. -/
def effectsSince (w w2 : World V) : List (Effect V) :=
  w2.trace.drop w.trace.length

/-- The messages handed to the publisher, in order. -/
def sentMessages (l : List (Effect V)) : List ProducerMessage :=
  l.filterMap fun
    | .sendMessage msg _ => some msg
    | _ => none

/-- The records handed to the persistence write, in order. -/
def writtenRecords (l : List (Effect V)) : List (model.EventLog V) :=
  l.filterMap fun
    | .createEventLog eventLog _ => some eventLog
    | _ => none

/-- The seconds requested by the waits of the retry loop, in order. -/
def requestedWaits (l : List (Effect V)) : List Nat :=
  l.filterMap fun
    | .wait seconds _ => some seconds
    | _ => none

/-- Whether some publisher call of the trace returned no error. -/
def publishSucceeded (l : List (Effect V)) : Bool :=
  l.any fun
    | .sendMessage _ none => true
    | _ => false

/-! ## Names for the values built during a call of `CreateEventLog` -/

/-- The record `CreateEventLog` builds when it starts in world `w` and the lookup
succeeds: identifier and clock reading are the next ones of the world. -/
def constructedEventLog (env : Env V) (inp : datastructure.EventLog V) (w : World V) :
    model.EventLog V :=
  { ID := env.Generate w.ids
    ApplicationID := inp.ApplicationID
    SessionID := inp.SessionID
    EventID := (env.GetEventByID w.lookups inp.EventID).1.ID
    PlatformID := inp.PlatformID
    Properties := inp.Properties
    CreatedAt := env.Now w.clockReads }

/-- The message built around the encoded bytes `jsonData` in a call started in world `w`. -/
def publishedMessage (env : Env V) (w : World V) (jsonData : List UInt8) : ProducerMessage :=
  { Topic := KafkaTopic, Key := env.Generate (w.ids + 1), Value := jsonData }

/-- The effects of a successful lookup, the identifier draw and the clock reading. -/
def constructionEffects (env : Env V) (inp : datastructure.EventLog V) (w : World V) :
    List (Effect V) :=
  [.getEventByID inp.EventID (env.GetEventByID w.lookups inp.EventID).1 none,
   .generate (env.Generate w.ids),
   .now (env.Now w.clockReads)]

/-- The world in which the retry loop starts when the call started in world `w`:
the lookup, two identifier draws and one clock reading have happened. -/
def worldBeforePublish (env : Env V) (inp : datastructure.EventLog V) (w : World V) :
    World V :=
  { lookups := w.lookups + 1
    writes := w.writes
    ids := w.ids + 2
    clockReads := w.clockReads + 1
    sends := w.sends
    waits := w.waits
    trace := w.trace ++ (constructionEffects env inp w ++ [.generate (env.Generate (w.ids + 1))]) }

/-- The effects of one call of `CreateEventLog` started in world `w`. -/
def runEffects (env : Env V) (ctx : Context) (inp : datastructure.EventLog V) (w : World V) :
    List (Effect V) :=
  effectsSince w (EventService.CreateEventLog env ctx inp w).2

/-! ## HTTP layer: gin context, binding, responses -/

namespace model

/-- From `models/application_api_key.go`. -/
structure ApplicationApiKey where
  ID : String
  ApplicationID : String
  APIKey : String
  CreatedAt : Int
  UpdatedAt : Int
  DeletedAt : Option Int
  deriving DecidableEq, Repr

/-- From `models/application.go`. -/
structure Application where
  ID : String
  TenantID : String
  Name : String
  Description : String
  CreatedAt : Int
  UpdatedAt : Int
  DeletedAt : Option Int
  ApiKeys : List ApplicationApiKey
  deriving DecidableEq, Repr

end model

/-- From `shared.go`: `TenantApplicationIDKey`. -/
def TenantApplicationIDKey : String := "tenant_application_id"

/-- From `shared.go`: `TenantIDKey`. -/
def TenantIDKey : String := "tenant_id"

/-- A value stored under a key of the gin context: a string, or a value of another type. -/
inductive KeyValue where
  | str (s : String)
  | other
  deriving DecidableEq, Repr

/-- One failed validation (`validator.FieldError`): struct field, tag and parameter. -/
structure FieldError where
  Field : String
  Tag : String
  Param : String
  deriving DecidableEq, Repr

/-- Why `ShouldBindJSON` failed: the body did not decode, or fields failed validation. -/
inductive BindFailure where
  | decode (err : GoError)
  | validation (errs : List FieldError)
  deriving DecidableEq, Repr

/-- The gin context as the ingestion route reads it: request headers (`Header.Get`),
path parameters, context keys, the JSON body decoded into the request struct (or the
decoding error), and the request's `context.Context`. -/
structure GinContext (V : Type) where
  Header : String → String
  Params : List (String × String)
  Keys : List (String × KeyValue)
  body : Except GoError (datastructure.CreateEventLogRequest V)
  requestContext : Context

/-- The call `c.Set(key, value)`. -/
def GinContext.Set (c : GinContext V) (key : String) (value : KeyValue) : GinContext V :=
  { c with Keys := (key, value) :: c.Keys }

/-- The call `c.Get(key)`. -/
def GinContext.Get (c : GinContext V) (key : String) : Option KeyValue :=
  c.Keys.lookup key

/-- The call `c.GetString(key)`: the empty string unless a string is stored under the key. -/
def GinContext.GetString (c : GinContext V) (key : String) : String :=
  match c.Get key with
  | some (.str s) => s
  | _ => ""

/-- The call `c.Param(key)`: the empty string when the route has no such parameter. -/
def GinContext.Param (c : GinContext V) (key : String) : String :=
  match c.Params.lookup key with
  | some v => v
  | none => ""

/-- The `binding:"required"` tags of `CreateEventLogRequest` (on `platform_id`,
`session_id` and `properties`; `application_id` and `event_id` carry `omitempty` only):
`required` rejects the zero value of the field. -/
def requiredFailures (req : datastructure.CreateEventLogRequest V) : List FieldError :=
  (if req.PlatformID = 0 then [{ Field := "PlatformID", Tag := "required", Param := "" }] else [])
    ++ (if req.SessionID = "" then [{ Field := "SessionID", Tag := "required", Param := "" }]
        else [])
    ++ (if req.Properties.isNone then [{ Field := "Properties", Tag := "required", Param := "" }]
        else [])

/-- The call `c.ShouldBindJSON(&req)` for a `CreateEventLogRequest`. -/
def GinContext.ShouldBindJSON (c : GinContext V) :
    Except BindFailure (datastructure.CreateEventLogRequest V) :=
  match c.body with
  | .error err => .error (.decode err)
  | .ok req =>
    match requiredFailures req with
    | [] => .ok req
    | errs => .error (.validation errs)

/-- The JSON bodies the handlers write. -/
inductive ResponseBody (V : Type) where
  | baseResponse (Success : Bool) (Message : String) (Data : Option (datastructure.EventLog V))
  | errorResponse (Success : Bool) (Message : String)
  | errorResponseWithCode (Success : Bool) (Message : String)
      (Details : Option (List (String × String)))
  | unauthorized
  deriving DecidableEq, Repr

/-- What a request ends in: a JSON response with a status, or a nil dereference. -/
inductive Response (V : Type) where
  | json (status : Nat) (body : ResponseBody V)
  | nilDereference
  deriving DecidableEq, Repr

namespace util

/-- From `helper.go`: `ConvertTimeToTimeStamp`, the decimal text of `t.Unix()`. -/
def ConvertTimeToTimeStamp (t : Option Int) : String :=
  match t with
  | none => ""
  | some ns => toString (Int.fdiv ns 1000000000)

end util

namespace BaseHandler

/-- From `base.go`: `Success`. -/
def Success (data : datastructure.EventLog V) : Response V :=
  .json 200 (.baseResponse true "" (some data))

/-- From `base.go`: `respondWithStatus`. -/
def respondWithStatus (cause : GoError) (w : World V) : Response V × World V :=
  match cause with
  | .sentinel .ErrorNotFound => (.json 404 (.errorResponseWithCode false cause.Error none), w)
  | .sentinel .ErrorDuplicateKey => (.json 409 (.errorResponseWithCode false cause.Error none), w)
  | .sentinel .ErrorInvalidRequest =>
    (.json 400 (.errorResponseWithCode false cause.Error none), w)
  | .sentinel .ErrorUnauthorized => (.json 401 (.errorResponseWithCode false cause.Error none), w)
  | .sentinel .ErrorForbidden => (.json 403 (.errorResponseWithCode false cause.Error none), w)
  | _ =>
    (.json 500 (.errorResponseWithCode false cause.Error none),
      logErrorf "Internal server error: %v" cause w)

/-- From `base.go`: `ErrorResponse`. -/
def ErrorResponse (cause : GoError) (w : World V) : Response V × World V :=
  respondWithStatus cause w

/-- From `base.go`: `BadRequest`. -/
def BadRequest : Response V :=
  .json 400 (.errorResponse false (Sentinel.message .ErrorInvalidRequest))

/-- From `base.go`: `getJSONFieldName`, which looks the field up in the struct
`datastructure.Tenant` and otherwise lower-cases the field name. -/
def getJSONFieldName (err : FieldError) : String :=
  match err.Field with
  | "ID" => "id"
  | "Name" => "name"
  | "Description" => "description"
  | "CreatedAt" => "created_at"
  | "UpdatedAt" => "updated_at"
  | "DeletedAt" => "deleted_at"
  | field => field.toLower

/-- From `base.go`: `mapValidationErrorToMessage`. -/
def mapValidationErrorToMessage (err : FieldError) : String :=
  let fieldName := err.Field
  match err.Tag with
  | "required" => fieldName ++ " is required"
  | "email" => fieldName ++ " is not a valid email"
  | "min" => fieldName ++ " must be at least " ++ err.Param ++ " characters"
  | "max" => fieldName ++ " must be at most " ++ err.Param ++ " characters"
  | "gtfield" => fieldName ++ " must be greater than " ++ err.Param
  | "ltfield" => fieldName ++ " must be less than " ++ err.Param
  | "oneof" => fieldName ++ " must be one of " ++ err.Param
  | "eqfield" => fieldName ++ " must be equal to " ++ err.Param
  | "required_without" => fieldName ++ " is required when " ++ err.Param ++ " is not present"
  | "required_without_all" => fieldName ++ " is required when " ++ err.Param ++ " is not present"
  | "required_with" => fieldName ++ " is required when " ++ err.Param ++ " is present"
  | "gt" => fieldName ++ " must be greater than " ++ err.Param
  | "dateFormat" => fieldName ++ " is invalid date format"
  | "datetimeFormat" => fieldName ++ " is invalid datetime format"
  | "futureDateOnly" => fieldName ++ " must be in the future"
  | "mobile" => fieldName ++ " is invalid mobile phone"
  | _ => fieldName ++ " is invalid"

/-- The assignment `m[key] = value` on a map kept as an association list. -/
def mapSet (m : List (String × String)) (key value : String) : List (String × String) :=
  (key, value) :: m.filter (fun kv => kv.1 != key)

/-- The loop of `InvalidInputErrorResponse` over the validation errors: fills the
map of messages and logs every error. -/
def collectValidationErrors :
    List FieldError → List (String × String) → World V → List (String × String) × World V
  | [], errorsMap, w => (errorsMap, w)
  | err :: rest, errorsMap, w =>
    collectValidationErrors rest
      (mapSet errorsMap (getJSONFieldName err) (mapValidationErrorToMessage err))
      { w with trace := w.trace ++ [.logValidationError err.Field err.Tag err.Param] }

/-- From `base.go`: `InvalidInputErrorResponse`. -/
def InvalidInputErrorResponse (cause : BindFailure) (w : World V) : Response V × World V :=
  match cause with
  | .decode err => (BadRequest, logErrorf "Invalid input binding error: %v" err w)
  | .validation ve =>
    let (errorsMap, w1) := collectValidationErrors ve [] w
    (.json 400 (.errorResponseWithCode false (Sentinel.message .ErrorInvalidRequest)
      (some errorsMap)), w1)

end BaseHandler

namespace TenantHandler

/-- From `tenant.go`, `CreateEventLog`: the value `reqEventLog` handed to the service. -/
def reqEventLog (c : GinContext V) (req : datastructure.CreateEventLogRequest V) :
    datastructure.EventLog V :=
  let appID := c.GetString TenantApplicationIDKey
  let eventID := c.Param "event_id"
  { ID := ""
    ApplicationID := appID
    SessionID := req.SessionID
    EventID := eventID
    PlatformID := req.PlatformID
    Properties := req.Properties
    CreatedAt := "" }

/-- From `tenant.go`, `CreateEventLog`: what the handler does with the service's result. -/
def respondEventLog (r : (Option (model.EventLog V) × Option GoError) × World V) :
    Response V × World V :=
  match r with
  | ((_, some err), w1) => BaseHandler.ErrorResponse err w1
  | ((none, none), w1) => (.nilDereference, w1)
  | ((some eventLog, none), w1) =>
    (BaseHandler.Success
      { ID := ""
        ApplicationID := eventLog.ApplicationID
        SessionID := eventLog.SessionID
        EventID := eventLog.EventID
        PlatformID := eventLog.PlatformID
        Properties := eventLog.Properties
        CreatedAt := util.ConvertTimeToTimeStamp (some eventLog.CreatedAt) }, w1)

/-- From `tenant.go`: `TenantHandler.CreateEventLog`. -/
def CreateEventLog (env : Env V) (c : GinContext V) (w : World V) : Response V × World V :=
  match c.ShouldBindJSON with
  | .error err => BaseHandler.InvalidInputErrorResponse err w
  | .ok req =>
    respondEventLog (EventService.CreateEventLog env c.requestContext (reqEventLog c req) w)

end TenantHandler

/-- From `tenant_auth.go`: `TenantAuthMiddleware`. `ValidateAPIKey` is the service
call, `next` is the rest of the handler chain run by `c.Next()`. -/
def TenantAuthMiddleware (ValidateAPIKey : String → Except GoError model.Application)
    (next : GinContext V → World V → Response V × World V)
    (c : GinContext V) (w : World V) : Response V × World V :=
  let apiKey := c.Header "x-api-key"
  if apiKey = "" then
    (.json 401 .unauthorized, w)
  else
    match ValidateAPIKey apiKey with
    | .error _ => (.json 401 .unauthorized, w)
    | .ok application =>
      next ((c.Set TenantApplicationIDKey (.str application.ID)).Set TenantIDKey
        (.str application.TenantID)) w

/-- The context `c` with the `application_id` and `event_id` fields of its JSON body
replaced by `applicationID` and `eventID`. -/
def GinContext.withBodyIDs (c : GinContext V) (applicationID eventID : String) :
    GinContext V :=
  { c with
    body := match c.body with
      | .error err => .error err
      | .ok req => .ok { req with ApplicationID := applicationID, EventID := eventID } }

/-! ## Names for the course of the retry loop -/

/-- The failed publisher calls and the waits of a trace, in order: `none` for a send
that returned an error, `some k` for a wait of `k` seconds. -/
def failuresAndWaits (l : List (Effect V)) : List (Option Nat) :=
  l.filterMap fun
    | .sendMessage _ (some _) => some none
    | .wait seconds _ => some (some seconds)
    | _ => none

/-- The identifiers drawn from the generator, in order. -/
def drawnIdentifiers (l : List (Effect V)) : List String :=
  l.filterMap fun
    | .generate id => some id
    | _ => none

/-- What follows the retry loop in `CreateEventLog`, given the loop's result `res`:
a log line after a success; a log line, the fallback write and, when the write fails,
another log line after a failure. -/
def publishTail (env : Env V) (inp : datastructure.EventLog V) (w : World V)
    (jsonData : List UInt8) (res : Option GoError) : List (Effect V) :=
  match res with
  | none =>
    [.logInfof "Successfully sent message to kafka: %v" (publishedMessage env w jsonData)]
  | some err =>
    [.logErrorf "Failed to send message to kafka: %v" err,
     .createEventLog (constructedEventLog env inp w)
       (env.CreateEventLog w.writes (constructedEventLog env inp w))] ++
    (match env.CreateEventLog w.writes (constructedEventLog env inp w) with
      | none => []
      | some we => [.logErrorf "Failed to create event log: %v" we])

/-- What `CreateEventLog` returns after the retry loop, given the loop's result `res`. -/
def publishResult (env : Env V) (inp : datastructure.EventLog V) (w : World V)
    (res : Option GoError) : Option (model.EventLog V) × Option GoError :=
  match res with
  | none => (some (constructedEventLog env inp w), none)
  | some _ =>
    match env.CreateEventLog w.writes (constructedEventLog env inp w) with
    | none => (some (constructedEventLog env inp w), none)
    | some we => (none, errdefs.WrapGormError (some we))

namespace util

/-- The world in which `WithRetry`, at loop variable `i` in world `w`, makes its call
number `j + 1` from there, when the `j` calls before it failed and the waits after
them ran to their end. -/
def worldBeforeCall (ctx : Context) (fn : World V → Option GoError × World V) :
    (i : Nat) → World V → (j : Nat) → World V
  | _, w, 0 => w
  | i, w, j + 1 => worldBeforeCall ctx fn (i + 1) (selectDoneOrAfter ctx (i + 1) (fn w).2).2 j

end util

/-! ## Routes -/

/-- The methods of `TenantHandler` that `routes/tenant.go` registers. -/
inductive TenantHandlerMethod where
  | GetPlatforms | GetApp
  | CreateEvent | GetEvent | UpdateEvent | DeleteEvent | GetEvents
  | CreateEventField | GetEventField | UpdateEventField | DeleteEventField
  | CreateEventLog
  | CreateSession | GetSession | UpdateSession | DeleteSession
  deriving DecidableEq, Repr

/-- The group middlewares of the repository. -/
inductive GroupMiddleware where
  | TenantAuthMiddleware
  | AdminAuthMiddleware
  deriving DecidableEq, Repr

/-- A route of the gin engine: HTTP method, full path pattern, the middlewares of its
group (those of the engine, which every route shares, are left out) and the handler. -/
structure Route (H : Type) where
  method : String
  path : String
  middlewares : List GroupMiddleware
  handler : H
  deriving DecidableEq, Repr

/-- The call `group.METHOD(relativePath, handler)` on the group made by
`r.Group(basePath, middlewares...)`: the path of the route is the base path followed
by the relative path. -/
def RouterGroup.handle {H : Type} (basePath : String) (middlewares : List GroupMiddleware)
    (method relativePath : String) (handler : H) : Route H :=
  { method := method, path := basePath ++ relativePath, middlewares := middlewares,
    handler := handler }

/-- From `routes/tenant.go`: `TenantRoutes.RegisterRoutes`, as the list of routes it
registers, in order. -/
def TenantRoutes.RegisterRoutes : List (Route TenantHandlerMethod) :=
  let group := RouterGroup.handle (H := TenantHandlerMethod) "/tenant" [.TenantAuthMiddleware]
  [ group "GET" "/platforms" .GetPlatforms,
    group "GET" "/profile" .GetApp,
    group "POST" "/events" .CreateEvent,
    group "GET" "/events/:event_id" .GetEvent,
    group "PUT" "/events/:event_id" .UpdateEvent,
    group "DELETE" "/events/:event_id" .DeleteEvent,
    group "GET" "/events" .GetEvents,
    group "POST" "/events/:event_id/fields" .CreateEventField,
    group "GET" "/events/:event_id/fields/:field_id" .GetEventField,
    group "PUT" "/events/:event_id/fields/:field_id" .UpdateEventField,
    group "DELETE" "/events/:event_id/fields/:field_id" .DeleteEventField,
    group "POST" "/events/:event_id/logs" .CreateEventLog,
    group "POST" "/sessions" .CreateSession,
    group "GET" "/sessions/:session_id" .GetSession,
    group "PUT" "/sessions/:session_id" .UpdateSession,
    group "DELETE" "/sessions/:session_id" .DeleteSession ]

/-- From `handlers/tenant.go`: the `@Router` line above `CreateEventLog`, method and path. -/
def TenantHandler.CreateEventLog.documentedRoute : String × String :=
  ("POST", "/tenant/events/{event_id}/event_logs")

/-- The segments of a path between its slashes. -/
def pathSegments (path : String) : List String :=
  path.toList.foldr
    (fun ch acc =>
      if ch = '/' then "" :: acc
      else match acc with
        | [] => [String.singleton ch]
        | seg :: rest => (String.singleton ch ++ seg) :: rest)
    [""]

/-- Whether a request path matches a route pattern, segment by segment. A segment
`:name` of a registered pattern matches any non-empty segment, and the empty segment
too when more segments follow it (the router reads a parameter up to the next
slash); a segment `{name}` of the documentation matches any non-empty segment; any
other segment matches itself only. -/
def segmentsMatch : List String → List String → Bool
  | [], [] => true
  | p :: ps, seg :: segs =>
    (match p.toList with
      | ':' :: _ => seg != "" || !ps.isEmpty
      | '{' :: _ => seg != ""
      | _ => p == seg)
      && segmentsMatch ps segs
  | _, _ => false

/-- The route whose handler serves a request: the first registered route with the
method of the request whose pattern matches the path of the request. A path that
differs from a pattern by a trailing slash matches no route: the router answers it
with a redirect, and no handler runs. -/
def findRoute {H : Type} (routes : List (Route H)) (method path : String) : Option (Route H) :=
  routes.find? fun r => r.method == method && segmentsMatch (pathSegments r.path) (pathSegments path)

/-! ## `util.ChunkArray` -/

/-- How a call of a Go function ends: it returns a value, it panics, or the rounds
allowed to its loop ran out before the loop was left. -/
inductive GoResult (α : Type) where
  | returns (value : α)
  | panics (message : String)
  | unfinished
  deriving DecidableEq, Repr

/-- The largest `int`, `math.MaxInt64`: `int` has 64 bits on the platforms the service
is built for. -/
def maxInt : Int := 9223372036854775807

/-- The value an `int` operation leaves when its exact result is `x`: the result wraps
around modulo `2^64` into `-2^63 ..= 2^63 - 1`. -/
def wrapInt (x : Int) : Int :=
  (x + 9223372036854775808) % 18446744073709551616 - 9223372036854775808

namespace util

/-- From `helper.go`: `min(a, b)`. -/
def min (a b : Int) : Int :=
  if a < b then a else b

/-- The loop of `ChunkArray`: `fuel` bounds the number of rounds, `start` is the loop
variable and `result` the slice built so far. The slice expression `data[start:end]`
panics unless `0 ≤ start ≤ end ≤ cap(data)`; `end ≤ len(data)` holds by the call of
`min`. The slice it gives is `(data.drop start).take (end - start)`. -/
def ChunkArray.loop (data : List String) (chunkSize : Int) :
    (fuel : Nat) → (start : Int) → (result : List (List String)) →
      GoResult (List (List String))
  | 0, _, _ => .unfinished
  | fuel + 1, start, result =>
    if start < (data.length : Int) then
      let end_ := util.min (wrapInt (start + chunkSize)) (data.length : Int)
      if 0 ≤ start ∧ start ≤ end_ then
        ChunkArray.loop data chunkSize fuel (wrapInt (start + chunkSize))
          (result ++ [(data.drop start.toNat).take (end_ - start).toNat])
      else
        .panics "slice bounds out of range"
    else
      .returns result

/-- From `helper.go`: `ChunkArray(data, chunkSize)`. The capacity handed to `make` is
`(len(data)+chunkSize-1)/chunkSize` in `int` arithmetic: the sum and the difference
wrap around, the division truncates towards zero; `make` panics on a negative
capacity (limits of memory are not modelled). While the loop variable does not wrap
it grows by at least one in every round, and a wrapped one is negative and ends the
loop in a panic, so `len(data) + 1` rounds are given. -/
def ChunkArray (data : List String) (chunkSize : Int) : GoResult (List (List String)) :=
  if chunkSize ≤ 0 then .returns []
  else
    let capacity := (wrapInt (wrapInt ((data.length : Int) + chunkSize) - 1)).tdiv chunkSize
    if capacity < 0 then .panics "makeslice: cap out of range"
    else ChunkArray.loop data chunkSize (data.length + 1) 0 []

end util

/-- The chunks of the list `rest` that remains, by recursion on what remains: take
`k` elements, go on with the others. -/
def chunksOfRest (k : Nat) : (fuel : Nat) → (rest : List String) → List (List String)
  | 0, _ => []
  | fuel + 1, rest =>
    if rest = [] then [] else rest.take k :: chunksOfRest k fuel (rest.drop k)

/-! ## Application, session and field services

The services of this part make each repository call at most once, reads before the
one write, so the repository is a record of functions of the arguments of the call; a
service returns its result together with the list of repository calls it made. -/

/-- The zero value of `time.Time` (January 1 of year 1, UTC), in nanoseconds since the
epoch. -/
def zeroTime : Int := -62135596800000000000

namespace model

/-- From `models/platform.go`. -/
structure Platform where
  ID : Int
  Name : String
  CreatedAt : Int
  UpdatedAt : Int
  DeletedAt : Option Int
  deriving DecidableEq, Repr

/-- From `models/tenant.go`. -/
structure Tenant where
  ID : String
  Name : String
  Description : String
  CreatedAt : Int
  UpdatedAt : Int
  DeletedAt : Option Int
  deriving DecidableEq, Repr

/-- From `models/session.go`. -/
structure Session where
  ID : String
  ApplicationID : String
  PlatformID : Int
  SessionKey : String
  UserID : Option String
  UserAgent : Option String
  IPAddress : Option String
  StartedAt : Int
  EndedAt : Option Int
  CreatedAt : Int
  UpdatedAt : Int
  DeletedAt : Option Int
  deriving DecidableEq, Repr

end model

namespace datastructure

/-- From `datastructures/session.go`: the service input `Session`. -/
structure Session where
  ID : String
  ApplicationID : String
  PlatformID : Int
  SessionKey : String
  UserID : Option String
  UserAgent : Option String
  IPAddress : Option String
  StartedAt : String
  EndedAt : Option String
  CreatedAt : String
  UpdatedAt : String
  DeletedAt : String
  deriving DecidableEq, Repr

/-- From `datastructures/event.go`: `EventField`. -/
structure EventField where
  ID : String
  EventID : String
  Name : String
  DataType : String
  IsRequired : Bool
  Description : String
  CreatedAt : String
  UpdatedAt : String
  DeletedAt : String
  deriving DecidableEq, Repr

/-- From `datastructures/event.go`: `CreateEventFieldRequest`. -/
structure CreateEventFieldRequest where
  EventID : String
  Name : String
  DataType : String
  IsRequired : Bool
  Description : String
  deriving DecidableEq, Repr

/-- From `datastructures/application.go`: `Application`. -/
structure Application where
  ID : String
  TenantID : String
  Name : String
  Description : String
  CreatedAt : String
  UpdatedAt : String
  DeletedAt : String
  deriving DecidableEq, Repr

/-- From `datastructures/application.go`: `CreateApplicationRequest`. -/
structure CreateApplicationRequest where
  TenantID : String
  Name : String
  Description : String
  deriving DecidableEq, Repr

end datastructure

/-- The repositories, the identifier generator, the clock, `time.Parse` and
`util.GenerateAPIKey` as the services of this part see them. A lookup returns the row
and the error; `Generate k` and `Now k` are the `k`-th identifier and clock reading of
the call. -/
structure Repo where
  GetApplicationByID : String → model.Application × Option GoError
  GetPlatformByID : Int → model.Platform × Option GoError
  CreateSession : model.Session → Option GoError
  GetTenantByID : String → model.Tenant × Option GoError
  CreateApplication : model.Application → Option GoError
  GetApplicationKeyByID : String → model.ApplicationApiKey × Option GoError
  DeleteApplicationAPIKey : model.ApplicationApiKey → Option GoError
  GetEventByID : String → model.Event × Option GoError
  GetEventByApplicationIDAndID : String → String → model.Event × Option GoError
  CreateEventField : model.EventField → Option GoError
  GetEventFieldByEventIDAndID : String → String → model.EventField × Option GoError
  UpdateEventField : model.EventField → Option GoError
  DeleteEventField : model.EventField → Option GoError
  Generate : Nat → String
  Now : Nat → Int
  timeParse : String → String → Except GoError Int
  GenerateAPIKey : Int → Except GoError String

/-- A call of a repository method, with its arguments. -/
inductive RepoCall where
  | GetApplicationByID (id : String)
  | GetPlatformByID (id : Int)
  | CreateSession (session : model.Session)
  | GetTenantByID (id : String)
  | CreateApplication (application : model.Application)
  | GetApplicationKeyByID (apiKeyID : String)
  | DeleteApplicationAPIKey (apiKey : model.ApplicationApiKey)
  | GetEventByID (id : String)
  | GetEventByApplicationIDAndID (applicationID : String) (id : String)
  | CreateEventField (eventField : model.EventField)
  | GetEventFieldByEventIDAndID (eventID : String) (fieldID : String)
  | UpdateEventField (eventField : model.EventField)
  | DeleteEventField (eventField : model.EventField)
  deriving DecidableEq, Repr

/-- Whether a repository call writes (creates, updates or deletes a row). -/
def RepoCall.isWrite : RepoCall → Bool
  | .CreateSession _ => true
  | .CreateApplication _ => true
  | .DeleteApplicationAPIKey _ => true
  | .CreateEventField _ => true
  | .UpdateEventField _ => true
  | .DeleteEventField _ => true
  | _ => false

namespace util

/-- From `helper.go`: `ParseTime`, over the library function `time.Parse`. -/
def ParseTime (timeParse : String → String → Except GoError Int) (timeStr layout : String) :
    Except GoError Int :=
  match timeParse layout timeStr with
  | .error _ => .error (.sentinel .ErrorInvalidRequest)
  | .ok t => .ok t

/-- From `helper.go`: `ParseTimeDefaultFormat`. -/
def ParseTimeDefaultFormat (timeParse : String → String → Except GoError Int)
    (timeStr : String) : Except GoError Int :=
  ParseTime timeParse timeStr "2006-01-02 15:04:05"

/-- From `helper.go`: `ConvertGormDeletedAtToTimeStamp` (`none` is an invalid
`gorm.DeletedAt`). -/
def ConvertGormDeletedAtToTimeStamp (t : Option Int) : String :=
  match t with
  | none => ""
  | some ns => toString (Int.fdiv ns 1000000000)

end util

namespace ApplicationService

/-- From `services/application.go`: `CreateSession`. -/
def CreateSession (repo : Repo) (inp : datastructure.Session) :
    (Option model.Session × Option GoError) × List RepoCall :=
  match repo.GetApplicationByID inp.ApplicationID with
  | (_, some err) =>
    ((none, errdefs.WrapGormError (some err)), [.GetApplicationByID inp.ApplicationID])
  | (application, none) =>
    match repo.GetPlatformByID inp.PlatformID with
    | (_, some err) =>
      ((none, errdefs.WrapGormError (some err)),
        [.GetApplicationByID inp.ApplicationID, .GetPlatformByID inp.PlatformID])
    | (platform, none) =>
      match util.ParseTimeDefaultFormat repo.timeParse inp.StartedAt with
      | .error _ =>
        ((none, some (.sentinel .ErrorInvalidRequest)),
          [.GetApplicationByID inp.ApplicationID, .GetPlatformByID inp.PlatformID])
      | .ok startedAt =>
        let parsedEnd : Except GoError (Option Int) :=
          match inp.EndedAt with
          | none => .ok none
          | some ended =>
            match util.ParseTimeDefaultFormat repo.timeParse ended with
            | .error _ => .error (.sentinel .ErrorInvalidRequest)
            | .ok t => .ok (some t)
        match parsedEnd with
        | .error invalid =>
          ((none, some invalid),
            [.GetApplicationByID inp.ApplicationID, .GetPlatformByID inp.PlatformID])
        | .ok endedAt =>
          let session : model.Session :=
            { ID := repo.Generate 0
              ApplicationID := application.ID
              PlatformID := platform.ID
              SessionKey := inp.SessionKey
              UserID := inp.UserID
              UserAgent := inp.UserAgent
              IPAddress := inp.IPAddress
              StartedAt := startedAt
              EndedAt := endedAt
              CreatedAt := repo.Now 0
              UpdatedAt := zeroTime
              DeletedAt := none }
          match repo.CreateSession session with
          | some err =>
            ((none, errdefs.WrapGormError (some err)),
              [.GetApplicationByID inp.ApplicationID, .GetPlatformByID inp.PlatformID,
               .CreateSession session])
          | none =>
            ((some session, none),
              [.GetApplicationByID inp.ApplicationID, .GetPlatformByID inp.PlatformID,
               .CreateSession session])

/-- From `services/application.go`: `CreateApplication`. -/
def CreateApplication (repo : Repo) (inp : datastructure.Application) :
    (Option model.Application × Option GoError) × List RepoCall :=
  match repo.GetTenantByID inp.TenantID with
  | (_, some err) => ((none, errdefs.WrapGormError (some err)), [.GetTenantByID inp.TenantID])
  | (tenant, none) =>
    let applicationID := repo.Generate 0
    let now := repo.Now 0
    let apiKeyID := repo.Generate 1
    match repo.GenerateAPIKey 32 with
    | .error _ => ((none, some (.sentinel .ErrorInternalError)), [.GetTenantByID inp.TenantID])
    | .ok apiKey =>
      let application : model.Application :=
        { ID := applicationID
          TenantID := tenant.ID
          Name := inp.Name
          Description := inp.Description
          CreatedAt := now
          UpdatedAt := zeroTime
          DeletedAt := none
          ApiKeys :=
            [{ ID := apiKeyID, ApplicationID := applicationID, APIKey := apiKey,
               CreatedAt := now, UpdatedAt := zeroTime, DeletedAt := none }] }
      match repo.CreateApplication application with
      | some err =>
        ((none, errdefs.WrapGormError (some err)),
          [.GetTenantByID inp.TenantID, .CreateApplication application])
      | none =>
        ((some application, none),
          [.GetTenantByID inp.TenantID, .CreateApplication application])

/-- From `services/application.go`: `DeleteApplicationAPIKey`. -/
def DeleteApplicationAPIKey (repo : Repo) (applicationID apiKeyID : String) :
    Option GoError × List RepoCall :=
  match repo.GetApplicationKeyByID apiKeyID with
  | (_, some err) => (errdefs.WrapGormError (some err), [.GetApplicationKeyByID apiKeyID])
  | (apiKey, none) =>
    if apiKey.ApplicationID ≠ applicationID then
      (some (.sentinel .ErrorInvalidRequest), [.GetApplicationKeyByID apiKeyID])
    else
      (repo.DeleteApplicationAPIKey apiKey,
        [.GetApplicationKeyByID apiKeyID, .DeleteApplicationAPIKey apiKey])

end ApplicationService

namespace EventService

/-- From `services/event.go`: `CreateEventField` (its two repository fields `repo` and
`event_repo` are one repository here). -/
def CreateEventField (repo : Repo) (inp : datastructure.EventField) :
    (Option model.EventField × Option GoError) × List RepoCall :=
  match repo.GetEventByID inp.EventID with
  | (_, some err) => ((none, errdefs.WrapGormError (some err)), [.GetEventByID inp.EventID])
  | (event, none) =>
    let eventField : model.EventField :=
      { ID := repo.Generate 0
        EventID := event.ID
        Name := inp.Name
        DataType := inp.DataType
        IsRequired := inp.IsRequired
        Description := inp.Description
        CreatedAt := repo.Now 0
        UpdatedAt := zeroTime
        DeletedAt := none }
    match repo.CreateEventField eventField with
    | some err =>
      ((none, errdefs.WrapGormError (some err)),
        [.GetEventByID inp.EventID, .CreateEventField eventField])
    | none =>
      ((some eventField, none), [.GetEventByID inp.EventID, .CreateEventField eventField])

/-- From `services/event.go`: `GetEventFieldByTenant`. -/
def GetEventFieldByTenant (repo : Repo) (applicationID eventID fieldID : String) :
    (Option model.EventField × Option GoError) × List RepoCall :=
  match repo.GetEventByApplicationIDAndID applicationID eventID with
  | (_, some err) =>
    ((none, errdefs.WrapGormError (some err)),
      [.GetEventByApplicationIDAndID applicationID eventID])
  | (event, none) =>
    match repo.GetEventFieldByEventIDAndID event.ID fieldID with
    | (_, some err) =>
      ((none, errdefs.WrapGormError (some err)),
        [.GetEventByApplicationIDAndID applicationID eventID,
         .GetEventFieldByEventIDAndID event.ID fieldID])
    | (field, none) =>
      ((some field, none),
        [.GetEventByApplicationIDAndID applicationID eventID,
         .GetEventFieldByEventIDAndID event.ID fieldID])

/-- From `services/event.go`: `UpdateEventFieldByTenant`. -/
def UpdateEventFieldByTenant (repo : Repo) (applicationID eventID fieldID : String)
    (inp : datastructure.EventField) : Option GoError × List RepoCall :=
  match repo.GetEventByApplicationIDAndID applicationID eventID with
  | (_, some err) =>
    (errdefs.WrapGormError (some err), [.GetEventByApplicationIDAndID applicationID eventID])
  | (event, none) =>
    match repo.GetEventFieldByEventIDAndID event.ID fieldID with
    | (_, some err) =>
      (errdefs.WrapGormError (some err),
        [.GetEventByApplicationIDAndID applicationID eventID,
         .GetEventFieldByEventIDAndID event.ID fieldID])
    | (field, none) =>
      let updated : model.EventField :=
        { field with
          Name := inp.Name
          DataType := inp.DataType
          Description := inp.Description
          IsRequired := inp.IsRequired
          UpdatedAt := repo.Now 0 }
      (repo.UpdateEventField updated,
        [.GetEventByApplicationIDAndID applicationID eventID,
         .GetEventFieldByEventIDAndID event.ID fieldID, .UpdateEventField updated])

/-- From `services/event.go`: `DeleteEventFieldByTenant`. -/
def DeleteEventFieldByTenant (repo : Repo) (applicationID eventID fieldID : String) :
    Option GoError × List RepoCall :=
  match repo.GetEventByApplicationIDAndID applicationID eventID with
  | (_, some err) =>
    (errdefs.WrapGormError (some err), [.GetEventByApplicationIDAndID applicationID eventID])
  | (event, none) =>
    match repo.GetEventFieldByEventIDAndID event.ID fieldID with
    | (_, some err) =>
      (errdefs.WrapGormError (some err),
        [.GetEventByApplicationIDAndID applicationID eventID,
         .GetEventFieldByEventIDAndID event.ID fieldID])
    | (field, none) =>
      (repo.DeleteEventField field,
        [.GetEventByApplicationIDAndID applicationID eventID,
         .GetEventFieldByEventIDAndID event.ID fieldID, .DeleteEventField field])

end EventService

/-! ## Handlers and middleware of the application and field routes -/

/-- The gin context of a request whose JSON body decodes into the struct `B` (or
fails to decode): request headers (`Header.Get`), URL path, path parameters and
context keys. -/
structure RequestContext (B : Type) where
  Header : String → String
  Path : String
  Params : List (String × String)
  Keys : List (String × KeyValue)
  body : Except GoError B

/-- The call `c.GetString(key)` on a request context. -/
def RequestContext.GetString {B : Type} (c : RequestContext B) (key : String) : String :=
  match c.Keys.lookup key with
  | some (.str s) => s
  | _ => ""

/-- The call `c.Param(key)` on a request context. -/
def RequestContext.Param {B : Type} (c : RequestContext B) (key : String) : String :=
  match c.Params.lookup key with
  | some v => v
  | none => ""

/-- The call `c.ShouldBindJSON(&req)`: decoding, then the `binding` tags of the struct,
given as the list of failures they find in a decoded value. -/
def RequestContext.ShouldBindJSON {B : Type} (failures : B → List FieldError)
    (c : RequestContext B) : Except BindFailure B :=
  match c.body with
  | .error err => .error (.decode err)
  | .ok req =>
    match failures req with
    | [] => .ok req
    | errs => .error (.validation errs)

/-- The `binding` tags of `CreateEventFieldRequest`: `name` is required, `data_type` is
required and one of the listed names; `event_id`, `is_required` and `description`
are not checked. -/
def createEventFieldRequestFailures (req : datastructure.CreateEventFieldRequest) :
    List FieldError :=
  (if req.Name = "" then [{ Field := "Name", Tag := "required", Param := "" }] else [])
    ++ (if req.DataType = "" then [{ Field := "DataType", Tag := "required", Param := "" }]
        else if req.DataType ∈ ["string", "int", "float", "boolean", "datetime", "json"] then []
        else [{ Field := "DataType", Tag := "oneof",
                Param := "string int float boolean datetime json" }])

/-- The `binding` tags of `CreateApplicationRequest`: all three fields are required. -/
def createApplicationRequestFailures (req : datastructure.CreateApplicationRequest) :
    List FieldError :=
  (if req.TenantID = "" then [{ Field := "TenantID", Tag := "required", Param := "" }] else [])
    ++ (if req.Name = "" then [{ Field := "Name", Tag := "required", Param := "" }] else [])
    ++ (if req.Description = "" then [{ Field := "Description", Tag := "required", Param := "" }]
        else [])

/-- How a handler ends: with one of the three answers of `BaseHandler`, or in the
dereference of a nil result. -/
inductive HandlerOutcome (D : Type) where
  | InvalidInputErrorResponse (cause : BindFailure)
  | ErrorResponse (cause : GoError)
  | Success (data : D)
  | nilDereference
  deriving DecidableEq, Repr

namespace TenantHandler

/-- From `tenant.go`: `TenantHandler.CreateEventField`. -/
def CreateEventField (repo : Repo) (c : RequestContext datastructure.CreateEventFieldRequest) :
    HandlerOutcome datastructure.EventField × List RepoCall :=
  let eventID := c.Param "event_id"
  match c.ShouldBindJSON createEventFieldRequestFailures with
  | .error err => (.InvalidInputErrorResponse err, [])
  | .ok req =>
    let reqField : datastructure.EventField :=
      { ID := ""
        EventID := eventID
        Name := req.Name
        DataType := req.DataType
        IsRequired := req.IsRequired
        Description := req.Description
        CreatedAt := ""
        UpdatedAt := ""
        DeletedAt := "" }
    match EventService.CreateEventField repo reqField with
    | ((_, some err), calls) => (.ErrorResponse err, calls)
    | ((none, none), calls) => (.nilDereference, calls)
    | ((some field, none), calls) =>
      (.Success
        { ID := field.ID
          EventID := field.EventID
          Name := field.Name
          DataType := field.DataType
          IsRequired := field.IsRequired
          Description := field.Description
          CreatedAt := util.ConvertTimeToTimeStamp (some field.CreatedAt)
          UpdatedAt := util.ConvertTimeToTimeStamp (some field.UpdatedAt)
          DeletedAt := "" }, calls)

end TenantHandler

namespace AdminHandler

/-- From `admin.go`, `CreateApp`: the value `reqApp` handed to the service. -/
def reqApp (req : datastructure.CreateApplicationRequest) : datastructure.Application :=
  { ID := ""
    TenantID := ""
    Name := req.Name
    Description := req.Description
    CreatedAt := ""
    UpdatedAt := ""
    DeletedAt := "" }

/-- From `admin.go`: `AdminHandler.CreateApp`. -/
def CreateApp (repo : Repo) (c : RequestContext datastructure.CreateApplicationRequest) :
    HandlerOutcome datastructure.Application × List RepoCall :=
  match c.ShouldBindJSON createApplicationRequestFailures with
  | .error err => (.InvalidInputErrorResponse err, [])
  | .ok req =>
    match ApplicationService.CreateApplication repo (reqApp req) with
    | ((_, some err), calls) => (.ErrorResponse err, calls)
    | ((none, none), calls) => (.nilDereference, calls)
    | ((some app, none), calls) =>
      (.Success
        { ID := app.ID
          TenantID := app.TenantID
          Name := app.Name
          Description := app.Description
          CreatedAt := util.ConvertTimeToTimeStamp (some app.CreatedAt)
          UpdatedAt := util.ConvertTimeToTimeStamp (some app.UpdatedAt)
          DeletedAt := util.ConvertGormDeletedAtToTimeStamp app.DeletedAt }, calls)

end AdminHandler

/-- From `shared.go`: `Config`. -/
structure Config where
  Env : String
  GrpcPort : Int
  HttpPort : Int
  GinMode : String
  ExternalHost : String
  PostgresHost : String
  PostgresPort : Int
  PostgresUser : String
  PostgresPassword : String
  PostgresDb : String
  PostgresSchema : String
  DbMaxIdleConns : Int
  DbMaxOpenConns : Int
  OtlpEndpoint : String
  OtlpServiceName : String
  LogFormat : String
  KafkaBrokers : String
  KafkaVersion : String
  AdminApiKey : String
  deriving DecidableEq, Repr

/-- A line written by `log.WithContext(ctx).Warnf(format, apiKey, path)`. -/
structure WarnLine where
  format : String
  apiKey : String
  path : String
  deriving DecidableEq, Repr

/-- How a middleware ends: `c.AbortWithStatusJSON(status, gin.H{"error": "unauthorized"})`,
or `c.Next()` with what the rest of the chain gives. -/
inductive AuthOutcome (R : Type) where
  | abortUnauthorized (status : Nat)
  | next (r : R)
  deriving DecidableEq, Repr

/-- From `admin_auth.go`: `AdminAuthMiddleware`; `next` is the rest of the handler
chain. The result carries the warnings logged. -/
def AdminAuthMiddleware {B R : Type} (config : Config) (next : RequestContext B → R)
    (c : RequestContext B) : AuthOutcome R × List WarnLine :=
  let apiKey := c.Header "x-api-key"
  if apiKey = "" then
    (.abortUnauthorized 401,
      [{ format := "Invalid API key '%s' for path %v", apiKey := apiKey, path := c.Path }])
  else if apiKey ≠ config.AdminApiKey then
    (.abortUnauthorized 401,
      [{ format := "Invalid API key '%s' for path %v", apiKey := apiKey, path := c.Path }])
  else
    (.next (next c), [])

/-- The methods of `AdminHandler` that `routes/admin.go` registers. -/
inductive AdminHandlerMethod where
  | CreateTenant | GetTenant | UpdateTenant | GetTenants
  | CreatePlatform | GetPlatform | GetPlatforms
  | CreateApp | GetApp | UpdateApp | DeleteApp | GetApps
  | CreateAppAPIKey | DeleteAppAPIKey
  | CreateEvent | GetEvent | UpdateEvent | DeleteEvent | GetEvents
  | CreateEventFields | GetEventField | UpdateEventField | DeleteEventField | GetEventFields
  deriving DecidableEq, Repr

/-- From `routes/admin.go`: `AdminRoutes.RegisterRoutes`, as the list of routes it
registers, in order. -/
def AdminRoutes.RegisterRoutes : List (Route AdminHandlerMethod) :=
  let group := RouterGroup.handle (H := AdminHandlerMethod) "/admin" [.AdminAuthMiddleware]
  [ group "POST" "/tenants" .CreateTenant,
    group "GET" "/tenants/:tenant_id" .GetTenant,
    group "PUT" "/tenants/:tenant_id" .UpdateTenant,
    group "GET" "/tenants" .GetTenants,
    group "POST" "/platforms" .CreatePlatform,
    group "GET" "/platforms/:platform_id" .GetPlatform,
    group "GET" "/platforms" .GetPlatforms,
    group "POST" "/apps" .CreateApp,
    group "GET" "/apps/:app_id" .GetApp,
    group "PUT" "/apps/:app_id" .UpdateApp,
    group "DELETE" "/apps/:app_id" .DeleteApp,
    group "GET" "/apps" .GetApps,
    group "POST" "/apps/:app_id/api-keys" .CreateAppAPIKey,
    group "DELETE" "/apps/:app_id/api-keys/:api_key_id" .DeleteAppAPIKey,
    group "POST" "/apps/:app_id/events" .CreateEvent,
    group "GET" "/apps/:app_id/events/:event_id" .GetEvent,
    group "PUT" "/apps/:app_id/events/:event_id" .UpdateEvent,
    group "DELETE" "/apps/:app_id/events/:event_id" .DeleteEvent,
    group "GET" "/apps/:app_id/events" .GetEvents,
    group "POST" "/apps/:app_id/events/:event_id/fields" .CreateEventFields,
    group "GET" "/apps/:app_id/events/:event_id/fields/:field_id" .GetEventField,
    group "PUT" "/apps/:app_id/events/:event_id/fields/:field_id" .UpdateEventField,
    group "DELETE" "/apps/:app_id/events/:event_id/fields/:field_id" .DeleteEventField,
    group "GET" "/apps/:app_id/events/:event_id/fields" .GetEventFields ]

/-! ### Test fixtures -/

/-- An event as the lookup returns it. -/
def sampleEvent : model.Event :=
  { ID := "ev-1", ApplicationID := "app-other", PlatformID := 2, Name := "click",
    Description := "", IsActive := true, CreatedAt := 0, UpdatedAt := 0, DeletedAt := none,
    Fields := [] }

/-- A service input. -/
def sampleInput : datastructure.EventLog Nat :=
  { ID := "", ApplicationID := "app-1", SessionID := "s-1", EventID := "ev-1",
    PlatformID := 1, Properties := some [("k", 7)], CreatedAt := "" }

/-- An environment in which everything works. -/
def happyEnv : Env Nat :=
  { GetEventByID := fun _ _ => (sampleEvent, none)
    CreateEventLog := fun _ _ => none
    Generate := fun k => if k = 0 then "id-0" else "id-1"
    Now := fun _ => 1000
    jsonMarshal := fun _ => .ok [1, 2, 3]
    SendMessage := fun _ _ => none }

/-- An environment whose lookup finds no row. -/
def notFoundEnv : Env Nat :=
  { happyEnv with
    GetEventByID := fun _ _ =>
      ({ sampleEvent with ID := "", ApplicationID := "", PlatformID := 0, Name := "" },
        some (.wrap "lookup: " (.sentinel .gormErrRecordNotFound))) }

/-- An environment whose broker rejects every message. -/
def brokerDownEnv : Env Nat :=
  { happyEnv with SendMessage := fun _ _ => some (.plain "kafka: broker not available") }

/-- An environment whose broker rejects the first two sends and accepts the third. -/
def flakyBrokerEnv : Env Nat :=
  { happyEnv with
    SendMessage := fun k _ => if k < 2 then some (.plain "kafka: request timed out") else none }

/-- An environment whose encoder rejects every record. -/
def marshalFailEnv : Env Nat :=
  { happyEnv with jsonMarshal := fun _ => .error (.plain "json: unsupported value: NaN") }

/-- An environment whose broker is down and whose database reports a primary-key clash. -/
def duplicateKeyEnv : Env Nat :=
  { brokerDownEnv with
    CreateEventLog := fun _ _ =>
      some (.plain "ERROR: duplicate key value violates unique constraint \"event_logs_pkey\" (SQLSTATE 23505)") }

/-- An environment whose broker and database are both down. -/
def allDownEnv : Env Nat :=
  { brokerDownEnv with
    CreateEventLog := fun _ _ => some (.plain "dial tcp: connection refused") }

/-- A context that is already cancelled whenever the loop waits. -/
def cancelledContext : Context := { doneDuring := fun _ _ => some (.sentinel .contextCanceled) }

/-- An application as `ValidateAPIKey` returns it. -/
def sampleApplication : model.Application :=
  { ID := "app-1", TenantID := "tenant-1", Name := "shop", Description := "", CreatedAt := 0,
    UpdatedAt := 0, DeletedAt := none, ApiKeys := [] }

/-- A key check that knows one key. -/
def sampleValidateAPIKey (apiKey : String) : Except GoError model.Application :=
  if apiKey = "key-1" then .ok sampleApplication
  else .error (.sentinel .gormErrRecordNotFound)

/-- An event of another application and platform that declares a required field. -/
def foreignEvent : model.Event :=
  { ID := "ev-1", ApplicationID := "app-2", PlatformID := 9, Name := "purchase",
    Description := "", IsActive := true, CreatedAt := 0, UpdatedAt := 0, DeletedAt := none,
    Fields := [{ ID := "f-1", EventID := "ev-1", Name := "amount", DataType := "int",
                 IsRequired := true, Description := "", CreatedAt := 0, UpdatedAt := 0,
                 DeletedAt := none }] }

/-- An event of the requesting application and platform without declared fields. -/
def ownEvent : model.Event :=
  { ID := "ev-1", ApplicationID := "app-1", PlatformID := 1, Name := "purchase",
    Description := "", IsActive := true, CreatedAt := 0, UpdatedAt := 0, DeletedAt := none,
    Fields := [] }

/-- An environment whose lookup returns an event of the requesting application. -/
def ownEventEnv : Env Nat :=
  { happyEnv with GetEventByID := fun _ _ => (ownEvent, none) }

/-- A lookup that returns an event of another application with a required field. -/
def foreignLookup : Nat → String → model.Event × Option GoError :=
  fun _ _ => (foreignEvent, none)

/-- An environment whose lookup cannot reach the database. -/
def lookupDownEnv : Env Nat :=
  { happyEnv with
    GetEventByID := fun _ _ =>
      ({ sampleEvent with ID := "", ApplicationID := "", PlatformID := 0, Name := "" },
        some (.plain "dial tcp: connection refused")) }

/-- An environment whose lookup fails with an error whose text reports a unique violation. -/
def lookupUniqueViolationEnv : Env Nat :=
  { happyEnv with
    GetEventByID := fun _ _ =>
      ({ sampleEvent with ID := "", ApplicationID := "", PlatformID := 0, Name := "" },
        some (.plain "ERROR: duplicate key value violates unique constraint \"events_pkey\" (SQLSTATE 23505)")) }

/-- A context that is cancelled during the third wait of the loop and not before. -/
def lateCancelContext : Context :=
  { doneDuring := fun k _ => if k = 2 then some (.sentinel .contextCanceled) else none }

/-- A message for the publisher. -/
def sampleMessage : ProducerMessage :=
  { Topic := "tracking", Key := "id-1", Value := [1, 2, 3] }

/-- A handler that answers 200 and leaves a line in the log, to see whether it ran. -/
def markingHandler (c : GinContext Nat) (w : World Nat) : Response Nat × World Nat :=
  (.json 200 (.baseResponse true (c.GetString TenantApplicationIDKey) none),
    logErrorf "handler ran" (.plain (c.GetString TenantIDKey)) w)

/-- The zero value of `model.Event`, as a lookup that finds nothing leaves it. -/
def noEvent : model.Event :=
  { ID := "", ApplicationID := "", PlatformID := 0, Name := "", Description := "",
    IsActive := false, CreatedAt := zeroTime, UpdatedAt := zeroTime, DeletedAt := none,
    Fields := [] }

/-- A repository in which the application `app-1`, the tenant `tenant-1`, the event
`ev-1` of application `app-2` and the API key `key-id-1` of `app-1` exist, every write
succeeds, and two timestamps parse. -/
def sampleRepo : Repo :=
  { GetApplicationByID := fun id =>
      if id = "app-1" then (sampleApplication, none)
      else ({ sampleApplication with ID := "", TenantID := "", Name := "" },
        some (.sentinel .gormErrRecordNotFound))
    GetPlatformByID := fun id =>
      ({ ID := id, Name := "Web", CreatedAt := 0, UpdatedAt := 0, DeletedAt := none }, none)
    CreateSession := fun _ => none
    GetTenantByID := fun id =>
      if id = "tenant-1" then
        ({ ID := "tenant-1", Name := "shop", Description := "", CreatedAt := 0, UpdatedAt := 0,
           DeletedAt := none }, none)
      else
        ({ ID := "", Name := "", Description := "", CreatedAt := zeroTime,
           UpdatedAt := zeroTime, DeletedAt := none }, some (.sentinel .gormErrRecordNotFound))
    CreateApplication := fun _ => none
    GetApplicationKeyByID := fun id =>
      if id = "key-id-1" then
        ({ ID := "key-id-1", ApplicationID := "app-1", APIKey := "secret", CreatedAt := 0,
           UpdatedAt := 0, DeletedAt := none }, none)
      else
        ({ ID := "", ApplicationID := "", APIKey := "", CreatedAt := zeroTime,
           UpdatedAt := zeroTime, DeletedAt := none }, some (.sentinel .gormErrRecordNotFound))
    DeleteApplicationAPIKey := fun _ => none
    GetEventByID := fun id =>
      if id = "ev-1" then (foreignEvent, none)
      else (noEvent, some (.sentinel .gormErrRecordNotFound))
    GetEventByApplicationIDAndID := fun applicationID id =>
      if applicationID = "app-2" ∧ id = "ev-1" then (foreignEvent, none)
      else (noEvent, some (.sentinel .gormErrRecordNotFound))
    CreateEventField := fun _ => none
    GetEventFieldByEventIDAndID := fun eventID fieldID =>
      ({ ID := fieldID, EventID := eventID, Name := "amount", DataType := "int",
         IsRequired := true, Description := "", CreatedAt := 0, UpdatedAt := 0,
         DeletedAt := none }, none)
    UpdateEventField := fun _ => none
    DeleteEventField := fun _ => none
    Generate := fun k => if k = 0 then "id-0" else "id-1"
    Now := fun _ => 1000
    timeParse := fun layout value =>
      if layout = "2006-01-02 15:04:05" ∧ value = "2024-05-01 10:00:00" then
        .ok 1714557600000000000
      else if layout = "2006-01-02 15:04:05" ∧ value = "2024-05-01 11:00:00" then
        .ok 1714561200000000000
      else .error (.plain "parsing time: cannot parse")
    GenerateAPIKey := fun _ => .ok "c2VjcmV0" }

/-- A session request with a start and an end that parse. -/
def sampleSessionInput : datastructure.Session :=
  { ID := "", ApplicationID := "app-1", PlatformID := 1, SessionKey := "sk-1",
    UserID := none, UserAgent := none, IPAddress := none,
    StartedAt := "2024-05-01 10:00:00", EndedAt := some "2024-05-01 11:00:00",
    CreatedAt := "", UpdatedAt := "", DeletedAt := "" }

/-- A request of a caller authenticated as `app-1` to add a field to the event `ev-1`,
which belongs to `app-2`. -/
def sampleFieldContext : RequestContext datastructure.CreateEventFieldRequest :=
  { Header := fun name => if name = "x-api-key" then "key-1" else ""
    Path := "/tenant/events/ev-1/fields"
    Params := [("event_id", "ev-1")]
    Keys := [("tenant_id", .str "tenant-1"), ("tenant_application_id", .str "app-1")]
    body := .ok { EventID := "", Name := "coupon", DataType := "string", IsRequired := false,
                  Description := "" } }

/-- A request to create an application for the tenant `tenant-1`. -/
def sampleAppContext : RequestContext datastructure.CreateApplicationRequest :=
  { Header := fun name => if name = "x-api-key" then "admin-secret" else ""
    Path := "/admin/apps"
    Params := []
    Keys := []
    body := .ok { TenantID := "tenant-1", Name := "shop", Description := "web shop" } }

/-- A configuration with an admin key. -/
def sampleConfig : Config :=
  { Env := "dev", GrpcPort := 50051, HttpPort := 8080, GinMode := "release",
    ExternalHost := "", PostgresHost := "db", PostgresPort := 5432, PostgresUser := "u",
    PostgresPassword := "p", PostgresDb := "tracking", PostgresSchema := "tracking",
    DbMaxIdleConns := 2, DbMaxOpenConns := 10, OtlpEndpoint := "", OtlpServiceName := "",
    LogFormat := "json", KafkaBrokers := "", KafkaVersion := "", AdminApiKey := "admin-secret" }

/-- A context that is never cancelled. -/
def background : Context := { doneDuring := fun _ _ => none }

/-- An ingestion request whose body names another application and another event. -/
def sampleContext : GinContext Nat :=
  { Header := fun name => if name = "x-api-key" then "key-1" else ""
    Params := [("event_id", "ev-1")]
    Keys := []
    body := .ok { ApplicationID := "app-of-someone-else", PlatformID := 1,
                  EventID := "ev-of-someone-else", SessionID := "s-1",
                  Properties := some [("k", 7)] }
    requestContext := background }

/-! ## The retry loop around the publisher -/

theorem effectsSince_of_trace_eq (w w2 : World V) (l : List (Effect V))
    (h : w2.trace = w.trace ++ l) : effectsSince w w2 = l := by
  simp [effectsSince, h]

theorem writtenRecords_append (l1 l2 : List (Effect V)) :
    writtenRecords (l1 ++ l2) = writtenRecords l1 ++ writtenRecords l2 := by
  simp [writtenRecords]

theorem sentMessages_append (l1 l2 : List (Effect V)) :
    sentMessages (l1 ++ l2) = sentMessages l1 ++ sentMessages l2 := by
  simp [sentMessages]

theorem publishSucceeded_append (l1 l2 : List (Effect V)) :
    publishSucceeded (l1 ++ l2) = (publishSucceeded l1 || publishSucceeded l2) := by
  simp [publishSucceeded]

/-- The retry loop around the publisher touches only the send and wait counters. -/
theorem loop_send_counters (env : Env V) (ctx : Context) (msg : ProducerMessage) :
    ∀ (n i : Nat) (err : Option GoError) (w : World V) (res : Option GoError) (w2 : World V),
      util.WithRetry.loop ctx (producerSendMessage env msg) n i err w = (res, w2) →
      w2.writes = w.writes ∧ w2.lookups = w.lookups ∧ w2.ids = w.ids ∧
        w2.clockReads = w.clockReads := by
  intro n
  induction n with
  | zero =>
    intro i err w res w2 h
    simp only [util.WithRetry.loop, Prod.mk.injEq] at h
    obtain ⟨-, rfl⟩ := h
    simp
  | succ n ih =>
    intro i err w res w2 h
    simp only [util.WithRetry.loop, producerSendMessage, selectDoneOrAfter] at h
    cases hs : env.SendMessage w.sends msg with
    | none =>
      simp only [hs, Prod.mk.injEq] at h
      obtain ⟨-, rfl⟩ := h
      simp
    | some e =>
      simp only [hs] at h
      cases hc : ctx.doneDuring w.waits (i + 1) with
      | some ce =>
        simp only [hc, Prod.mk.injEq] at h
        obtain ⟨-, rfl⟩ := h
        simp
      | none =>
        simp only [hc] at h
        have := ih _ _ _ _ _ h
        simpa using this

/-- The effects of the retry loop around the publisher: only sends and waits, at most
`n` sends, and the loop returns no error exactly when some send succeeded. -/
theorem loop_send_trace (env : Env V) (ctx : Context) (msg : ProducerMessage) :
    ∀ (n i : Nat) (err : Option GoError) (w : World V) (res : Option GoError) (w2 : World V),
      util.WithRetry.loop ctx (producerSendMessage env msg) n i err w = (res, w2) →
      ∃ l, w2.trace = w.trace ++ l ∧ writtenRecords l = [] ∧
        (sentMessages l).length ≤ n ∧ w2.sends = w.sends + (sentMessages l).length ∧
        (err ≠ none ∨ 0 < n → (res = none ↔ publishSucceeded l = true)) := by
  intro n
  induction n with
  | zero =>
    intro i err w res w2 h
    simp only [util.WithRetry.loop, Prod.mk.injEq] at h
    obtain ⟨rfl, rfl⟩ := h
    refine ⟨[], by simp, by simp [writtenRecords], by simp [sentMessages],
      by simp [sentMessages], ?_⟩
    intro hne
    simp [publishSucceeded] at hne ⊢
    exact hne
  | succ n ih =>
    intro i err w res w2 h
    simp only [util.WithRetry.loop, producerSendMessage, selectDoneOrAfter] at h
    cases hs : env.SendMessage w.sends msg with
    | none =>
      simp only [hs, Prod.mk.injEq] at h
      obtain ⟨rfl, rfl⟩ := h
      exact ⟨[.sendMessage msg none], by simp, by simp [writtenRecords],
        by simp [sentMessages], by simp [sentMessages], by simp [publishSucceeded]⟩
    | some e =>
      simp only [hs] at h
      cases hc : ctx.doneDuring w.waits (i + 1) with
      | some ce =>
        simp only [hc, Prod.mk.injEq] at h
        obtain ⟨rfl, rfl⟩ := h
        exact ⟨[.sendMessage msg (some e), .wait (i + 1) (some ce)], by simp,
          by simp [writtenRecords], by simp [sentMessages], by simp [sentMessages],
          by simp [publishSucceeded]⟩
      | none =>
        simp only [hc] at h
        obtain ⟨l, hl, hw, hlen, hsends, hres⟩ := ih _ _ _ _ _ h
        refine ⟨.sendMessage msg (some e) :: .wait (i + 1) none :: l, ?_, ?_, ?_, ?_, ?_⟩
        · simpa using hl
        · simpa [writtenRecords] using hw
        · simp only [sentMessages] at hlen ⊢
          simp only [List.filterMap_cons]
          simpa using hlen
        · simp only [sentMessages] at hsends ⊢
          simp only [List.filterMap_cons]
          simp only [hsends, List.length_cons]
          omega
        · intro _
          rw [hres (Or.inl (by simp))]
          simp [publishSucceeded]

/-- Three iterations of the loop, written out. -/
theorem withRetry_three (ctx : Context) (fn : World V → Option GoError × World V)
    (w : World V) :
    util.WithRetry ctx 3 fn w = util.WithRetry.loop ctx fn (0 + 1 + 1 + 1) 0 none w := rfl

/-- The retry loop when all three sends fail and the context is not cancelled. -/
theorem withRetry_send_fail_fail_fail (env : Env V) (ctx : Context) (msg : ProducerMessage)
    (w : World V) (e1 e2 e3 : GoError)
    (h1 : env.SendMessage w.sends msg = some e1)
    (h2 : env.SendMessage (w.sends + 1) msg = some e2)
    (h3 : env.SendMessage (w.sends + 2) msg = some e3)
    (hc1 : ctx.doneDuring w.waits 1 = none)
    (hc2 : ctx.doneDuring (w.waits + 1) 2 = none)
    (hc3 : ctx.doneDuring (w.waits + 2) 3 = none) :
    util.WithRetry ctx 3 (producerSendMessage env msg) w =
      (some e3,
        { w with sends := w.sends + 3, waits := w.waits + 3,
                 trace := w.trace ++
                   [.sendMessage msg (some e1), .wait 1 none,
                    .sendMessage msg (some e2), .wait 2 none,
                    .sendMessage msg (some e3), .wait 3 none] }) := by
  simp [withRetry_three, util.WithRetry.loop, producerSendMessage, selectDoneOrAfter,
    h1, h2, h3, hc1, hc2, hc3]

/-- The retry loop when the first two sends fail, the third succeeds and the context
is not cancelled. -/
theorem withRetry_send_fail_fail_ok (env : Env V) (ctx : Context) (msg : ProducerMessage)
    (w : World V) (e1 e2 : GoError)
    (h1 : env.SendMessage w.sends msg = some e1)
    (h2 : env.SendMessage (w.sends + 1) msg = some e2)
    (h3 : env.SendMessage (w.sends + 2) msg = none)
    (hc1 : ctx.doneDuring w.waits 1 = none)
    (hc2 : ctx.doneDuring (w.waits + 1) 2 = none) :
    util.WithRetry ctx 3 (producerSendMessage env msg) w =
      (none,
        { w with sends := w.sends + 3, waits := w.waits + 2,
                 trace := w.trace ++
                   [.sendMessage msg (some e1), .wait 1 none,
                    .sendMessage msg (some e2), .wait 2 none,
                    .sendMessage msg none] }) := by
  simp [withRetry_three, util.WithRetry.loop, producerSendMessage, selectDoneOrAfter,
    h1, h2, h3, hc1, hc2]

/-- The retry loop when the first send fails and the context is cancelled during the
wait that follows. -/
theorem withRetry_send_fail_cancelled (env : Env V) (ctx : Context) (msg : ProducerMessage)
    (w : World V) (e1 ctxErr : GoError)
    (h1 : env.SendMessage w.sends msg = some e1)
    (hc1 : ctx.doneDuring w.waits 1 = some ctxErr) :
    util.WithRetry ctx 3 (producerSendMessage env msg) w =
      (some ctxErr,
        { w with sends := w.sends + 1, waits := w.waits + 1,
                 trace := w.trace ++
                   [.sendMessage msg (some e1), .wait 1 (some ctxErr)] }) := by
  simp [withRetry_three, util.WithRetry.loop, producerSendMessage, selectDoneOrAfter,
    h1, hc1]

/-! ## The shape of every run of `CreateEventLog` -/

/-- A failed lookup ends the call at once. -/
theorem createEventLog_of_lookup_error (env : Env V) (ctx : Context)
    (inp : datastructure.EventLog V) (w : World V) (ev : model.Event) (e : GoError)
    (hl : env.GetEventByID w.lookups inp.EventID = (ev, some e)) :
    EventService.CreateEventLog env ctx inp w =
      ((none, errdefs.WrapGormError (some e)),
        { w with lookups := w.lookups + 1,
                 trace := w.trace ++ [.getEventByID inp.EventID ev (some e)] }) := by
  simp [EventService.CreateEventLog, repoGetEventByID, hl]

/-- After a successful lookup and a successful encoding the call is the retry loop
around the publisher followed by the decision on its result. -/
theorem createEventLog_of_marshal_ok (env : Env V) (ctx : Context)
    (inp : datastructure.EventLog V) (w : World V) (jsonData : List UInt8)
    (hl : (env.GetEventByID w.lookups inp.EventID).2 = none)
    (hm : env.jsonMarshal (constructedEventLog env inp w) = .ok jsonData) :
    EventService.CreateEventLog env ctx inp w =
      (match util.WithRetry ctx 3 (producerSendMessage env (publishedMessage env w jsonData))
          (worldBeforePublish env inp w) with
        | (some err, w5) =>
          (match repoCreateEventLog env (constructedEventLog env inp w)
              (logErrorf "Failed to send message to kafka: %v" err w5) with
            | (some err2, w7) =>
              ((none, errdefs.WrapGormError (some err2)),
                logErrorf "Failed to create event log: %v" err2 w7)
            | (none, w7) => ((some (constructedEventLog env inp w), none), w7))
        | (none, w5) =>
          ((some (constructedEventLog env inp w), none),
            logInfof "Successfully sent message to kafka: %v"
              (publishedMessage env w jsonData) w5)) := by
  rcases hlk : env.GetEventByID w.lookups inp.EventID with ⟨ev, lerr⟩
  rw [hlk] at hl
  simp only at hl
  subst hl
  simp only [constructedEventLog, hlk] at hm
  simp [EventService.CreateEventLog, repoGetEventByID, hlk, snowflakeGenerate, timeNow,
    EventService.createKafkaMessage, hm, constructedEventLog, publishedMessage,
    worldBeforePublish, constructionEffects]

/-- After a successful lookup a run is the construction of the record, then publish
effects `pub` without any write, and then either nothing but log lines (some send
succeeded) or the single fallback write of the constructed record. -/
theorem createEventLog_run (env : Env V) (ctx : Context) (inp : datastructure.EventLog V)
    (w : World V) (hl : (env.GetEventByID w.lookups inp.EventID).2 = none) :
    ∃ pub tail : List (Effect V),
      effectsSince w (EventService.CreateEventLog env ctx inp w).2
        = constructionEffects env inp w ++ pub ++ tail ∧
      writtenRecords pub = [] ∧
      ((publishSucceeded pub = true ∧ writtenRecords tail = [] ∧
          (EventService.CreateEventLog env ctx inp w).1
            = (some (constructedEventLog env inp w), none) ∧
          (EventService.CreateEventLog env ctx inp w).2.writes = w.writes) ∨
       (publishSucceeded pub = false ∧
          (∃ rest, tail = .createEventLog (constructedEventLog env inp w)
                (env.CreateEventLog w.writes (constructedEventLog env inp w)) :: rest ∧
              writtenRecords rest = [] ∧ publishSucceeded rest = false) ∧
          (EventService.CreateEventLog env ctx inp w).1
            = (match env.CreateEventLog w.writes (constructedEventLog env inp w) with
               | none => (some (constructedEventLog env inp w), none)
               | some e => (none, errdefs.WrapGormError (some e))) ∧
          (EventService.CreateEventLog env ctx inp w).2.writes = w.writes + 1)) := by
  rcases hlk : env.GetEventByID w.lookups inp.EventID with ⟨ev, lerr⟩
  rw [hlk] at hl
  simp only at hl
  subst hl
  cases hm : env.jsonMarshal (constructedEventLog env inp w) with
  | error me =>
    refine ⟨[], ?_⟩
    simp only [constructedEventLog, hlk] at hm
    cases hw : env.CreateEventLog w.writes (constructedEventLog env inp w) with
    | none =>
      simp only [constructedEventLog, hlk] at hw
      refine ⟨[.createEventLog (constructedEventLog env inp w) none], ?_, ?_, Or.inr ?_⟩
      · apply effectsSince_of_trace_eq
        simp [EventService.CreateEventLog, repoGetEventByID, hlk, snowflakeGenerate, timeNow,
          EventService.createKafkaMessage, hm, repoCreateEventLog, hw, constructionEffects,
          constructedEventLog]
      · simp [writtenRecords]
      · simp [EventService.CreateEventLog, repoGetEventByID, hlk, snowflakeGenerate, timeNow,
          EventService.createKafkaMessage, hm, repoCreateEventLog, hw, constructedEventLog,
          publishSucceeded, writtenRecords]
    | some we =>
      simp only [constructedEventLog, hlk] at hw
      refine ⟨[.createEventLog (constructedEventLog env inp w) (some we)], ?_, ?_, Or.inr ?_⟩
      · apply effectsSince_of_trace_eq
        simp [EventService.CreateEventLog, repoGetEventByID, hlk, snowflakeGenerate, timeNow,
          EventService.createKafkaMessage, hm, repoCreateEventLog, hw, constructionEffects,
          constructedEventLog]
      · simp [writtenRecords]
      · simp [EventService.CreateEventLog, repoGetEventByID, hlk, snowflakeGenerate, timeNow,
          EventService.createKafkaMessage, hm, repoCreateEventLog, hw, constructedEventLog,
          publishSucceeded, writtenRecords]
  | ok jsonData =>
    have hlk2 : (env.GetEventByID w.lookups inp.EventID).2 = none := by rw [hlk]
    rw [createEventLog_of_marshal_ok env ctx inp w jsonData hlk2 hm]
    rcases hr : util.WithRetry ctx 3 (producerSendMessage env (publishedMessage env w jsonData))
      (worldBeforePublish env inp w) with ⟨res, w5⟩
    obtain ⟨l, htr, hwr, -, -, hres⟩ :=
      loop_send_trace env ctx _ 3 0 none _ _ _ hr
    obtain ⟨hwrites, -, -, -⟩ := loop_send_counters env ctx _ 3 0 none _ _ _ hr
    have hres2 := hres (Or.inr (by decide))
    cases res with
    | none =>
      have hps : publishSucceeded l = true := hres2.mp rfl
      refine ⟨.generate (env.Generate (w.ids + 1)) :: l,
        [.logInfof "Successfully sent message to kafka: %v" (publishedMessage env w jsonData)],
        ?_, ?_, Or.inl ⟨?_, ?_, ?_, ?_⟩⟩
      · apply effectsSince_of_trace_eq
        simp [logInfof, htr, worldBeforePublish]
      · simpa [writtenRecords] using hwr
      · simpa [publishSucceeded] using hps
      · simp [writtenRecords]
      · rfl
      · simpa [logInfof, worldBeforePublish] using hwrites
    | some err =>
      have hps : publishSucceeded l = false := by
        cases h : publishSucceeded l with
        | false => rfl
        | true => exact absurd (hres2.mpr h) (by simp)
      have hw5 : w5.writes = w.writes := by simpa [worldBeforePublish] using hwrites
      refine ⟨.generate (env.Generate (w.ids + 1)) :: l ++
          [.logErrorf "Failed to send message to kafka: %v" err], ?_⟩
      cases hw : env.CreateEventLog w.writes (constructedEventLog env inp w) with
      | none =>
        refine ⟨[.createEventLog (constructedEventLog env inp w) none], ?_, ?_, Or.inr ?_⟩
        · apply effectsSince_of_trace_eq
          simp [repoCreateEventLog, logErrorf, hw5, hw, htr, worldBeforePublish]
        · simpa [writtenRecords] using hwr
        · refine ⟨?_, ⟨[], rfl, by simp [writtenRecords], by simp [publishSucceeded]⟩, ?_, ?_⟩
          · simpa [publishSucceeded] using hps
          · simp [repoCreateEventLog, logErrorf, hw5, hw]
          · simp [repoCreateEventLog, logErrorf, hw5, hw]
      | some we =>
        refine ⟨[.createEventLog (constructedEventLog env inp w) (some we),
          .logErrorf "Failed to create event log: %v" we], ?_, ?_, Or.inr ?_⟩
        · apply effectsSince_of_trace_eq
          simp [repoCreateEventLog, logErrorf, hw5, hw, htr, worldBeforePublish]
        · simpa [writtenRecords] using hwr
        · refine ⟨?_, ⟨[_], rfl, by simp [writtenRecords], by simp [publishSucceeded]⟩, ?_, ?_⟩
          · simpa [publishSucceeded] using hps
          · simp [repoCreateEventLog, logErrorf, hw5, hw]
          · simp [repoCreateEventLog, logErrorf, hw5, hw]

theorem runEffects_of_lookup_error (env : Env V) (ctx : Context)
    (inp : datastructure.EventLog V) (w : World V) (e : GoError)
    (hl : (env.GetEventByID w.lookups inp.EventID).2 = some e) :
    runEffects env ctx inp w
      = [.getEventByID inp.EventID (env.GetEventByID w.lookups inp.EventID).1 (some e)] := by
  rcases hlk : env.GetEventByID w.lookups inp.EventID with ⟨ev, lerr⟩
  rw [hlk] at hl
  simp only at hl
  subst hl
  unfold runEffects
  apply effectsSince_of_trace_eq
  rw [createEventLog_of_lookup_error env ctx inp w ev e hlk]

theorem writtenRecords_constructionEffects (env : Env V) (inp : datastructure.EventLog V)
    (w : World V) : writtenRecords (constructionEffects env inp w) = [] := by
  simp [writtenRecords, constructionEffects]

theorem publishSucceeded_constructionEffects (env : Env V) (inp : datastructure.EventLog V)
    (w : World V) : publishSucceeded (constructionEffects env inp w) = false := by
  simp [publishSucceeded, constructionEffects]

/-- After a successful lookup and a failed encoding the call is the fallback write. -/
theorem createEventLog_of_marshal_error (env : Env V) (ctx : Context)
    (inp : datastructure.EventLog V) (w : World V) (me : GoError)
    (hl : (env.GetEventByID w.lookups inp.EventID).2 = none)
    (hm : env.jsonMarshal (constructedEventLog env inp w) = .error me) :
    EventService.CreateEventLog env ctx inp w =
      ((match env.CreateEventLog w.writes (constructedEventLog env inp w) with
        | none => (some (constructedEventLog env inp w), none)
        | some e => (none, errdefs.WrapGormError (some e))),
       { lookups := w.lookups + 1
         writes := w.writes + 1
         ids := w.ids + 1
         clockReads := w.clockReads + 1
         sends := w.sends
         waits := w.waits
         trace := w.trace ++ (constructionEffects env inp w ++
           [.createEventLog (constructedEventLog env inp w)
             (env.CreateEventLog w.writes (constructedEventLog env inp w))]) }) := by
  rcases hlk : env.GetEventByID w.lookups inp.EventID with ⟨ev, lerr⟩
  rw [hlk] at hl
  simp only at hl
  subst hl
  simp only [constructedEventLog, hlk] at hm
  cases hw : env.CreateEventLog w.writes (constructedEventLog env inp w) with
  | none =>
    simp only [constructedEventLog, hlk] at hw
    simp [EventService.CreateEventLog, repoGetEventByID, hlk, snowflakeGenerate, timeNow,
      EventService.createKafkaMessage, hm, repoCreateEventLog, hw, constructionEffects,
      constructedEventLog]
  | some we =>
    simp only [constructedEventLog, hlk] at hw
    simp [EventService.CreateEventLog, repoGetEventByID, hlk, snowflakeGenerate, timeNow,
      EventService.createKafkaMessage, hm, repoCreateEventLog, hw, constructionEffects,
      constructedEventLog]

/-- When the encoding fails no publisher call is made. -/
theorem publishSucceeded_of_marshal_error (env : Env V) (ctx : Context)
    (inp : datastructure.EventLog V) (w : World V) (me : GoError)
    (hl : (env.GetEventByID w.lookups inp.EventID).2 = none)
    (hm : env.jsonMarshal (constructedEventLog env inp w) = .error me) :
    publishSucceeded (runEffects env ctx inp w) = false := by
  unfold runEffects
  rw [effectsSince_of_trace_eq w _ _
    (by rw [createEventLog_of_marshal_error env ctx inp w me hl hm])]
  simp [publishSucceeded, constructionEffects]

/-- When the encoding succeeds, some publisher call succeeds exactly when the retry
loop returns no error. -/
theorem publishSucceeded_iff_retry_ok (env : Env V) (ctx : Context)
    (inp : datastructure.EventLog V) (w : World V) (jsonData : List UInt8)
    (hl : (env.GetEventByID w.lookups inp.EventID).2 = none)
    (hm : env.jsonMarshal (constructedEventLog env inp w) = .ok jsonData) :
    publishSucceeded (runEffects env ctx inp w) = true ↔
      (util.WithRetry ctx 3 (producerSendMessage env (publishedMessage env w jsonData))
        (worldBeforePublish env inp w)).1 = none := by
  unfold runEffects
  rw [createEventLog_of_marshal_ok env ctx inp w jsonData hl hm]
  rcases hr : util.WithRetry ctx 3 (producerSendMessage env (publishedMessage env w jsonData))
    (worldBeforePublish env inp w) with ⟨res, w5⟩
  obtain ⟨l, htr, -, -, -, hres⟩ := loop_send_trace env ctx _ 3 0 none _ _ _ hr
  have hres2 := hres (Or.inr (by decide))
  cases res with
  | none =>
    have hps : publishSucceeded l = true := hres2.mp rfl
    rw [effectsSince_of_trace_eq w _
      (constructionEffects env inp w ++ .generate (env.Generate (w.ids + 1)) :: l ++
        [.logInfof "Successfully sent message to kafka: %v" (publishedMessage env w jsonData)])
      (by simp [logInfof, htr, worldBeforePublish])]
    have hgen : publishSucceeded (.generate (env.Generate (w.ids + 1)) :: l) = true := by
      rw [← hps]
      simp [publishSucceeded]
    rw [publishSucceeded_append, publishSucceeded_append, hgen]
    simp
  | some err =>
    have hps : publishSucceeded l = false := by
      cases h : publishSucceeded l with
      | false => rfl
      | true => exact absurd (hres2.mpr h) (by simp)
    have hgen : publishSucceeded (.generate (env.Generate (w.ids + 1)) :: l) = false := by
      rw [← hps]
      simp [publishSucceeded]
    cases hw : (repoCreateEventLog env (constructedEventLog env inp w)
        (logErrorf "Failed to send message to kafka: %v" err w5)).1 with
    | none =>
      rw [effectsSince_of_trace_eq w _
        (constructionEffects env inp w ++ .generate (env.Generate (w.ids + 1)) :: l ++
          [.logErrorf "Failed to send message to kafka: %v" err,
           .createEventLog (constructedEventLog env inp w) none])
        (by
          simp only [repoCreateEventLog, logErrorf] at hw
          simp [repoCreateEventLog, logErrorf, hw, htr, worldBeforePublish])]
      rw [publishSucceeded_append, publishSucceeded_append, hgen,
        publishSucceeded_constructionEffects]
      simp [publishSucceeded]
    | some we =>
      rw [effectsSince_of_trace_eq w _
        (constructionEffects env inp w ++ .generate (env.Generate (w.ids + 1)) :: l ++
          [.logErrorf "Failed to send message to kafka: %v" err,
           .createEventLog (constructedEventLog env inp w) (some we),
           .logErrorf "Failed to create event log: %v" we])
        (by
          simp only [repoCreateEventLog, logErrorf] at hw
          simp [repoCreateEventLog, logErrorf, hw, htr, worldBeforePublish])]
      rw [publishSucceeded_append, publishSucceeded_append, hgen,
        publishSucceeded_constructionEffects]
      simp [publishSucceeded]

/-! ## The claims -/

/-- C1: when the event lookup fails with record-not-found, `CreateEventLog` returns no
record and the error `ErrorNotFound`, the lookup is the only effect of the call, and
neither the publisher nor the persistence write is called. -/
theorem createEventLog_lookup_not_found (env : Env V) (ctx : Context)
    (inp : datastructure.EventLog V) (w : World V) (e : GoError)
    (hl : (env.GetEventByID w.lookups inp.EventID).2 = some e)
    (hnf : errorsIs e .gormErrRecordNotFound = true) :
    (EventService.CreateEventLog env ctx inp w).1 = (none, some (.sentinel .ErrorNotFound)) ∧
    runEffects env ctx inp w
      = [.getEventByID inp.EventID (env.GetEventByID w.lookups inp.EventID).1 (some e)] ∧
    sentMessages (runEffects env ctx inp w) = [] ∧
    writtenRecords (runEffects env ctx inp w) = [] ∧
    (EventService.CreateEventLog env ctx inp w).2.sends = w.sends ∧
    (EventService.CreateEventLog env ctx inp w).2.writes = w.writes := by
  have heff := runEffects_of_lookup_error env ctx inp w e hl
  rcases hlk : env.GetEventByID w.lookups inp.EventID with ⟨ev, lerr⟩
  rw [hlk] at hl
  simp only at hl
  subst hl
  rw [heff, createEventLog_of_lookup_error env ctx inp w ev e hlk]
  simp [errdefs.WrapGormError, hnf, sentMessages, writtenRecords, hlk]

/-- C1, at a concrete input: a lookup that finds no row. -/
theorem createEventLog_lookup_not_found_witness :
    (EventService.CreateEventLog notFoundEnv background sampleInput (World.init Nat)).1
      = (none, some (.sentinel .ErrorNotFound)) ∧
    sentMessages (runEffects notFoundEnv background sampleInput (World.init Nat)) = [] ∧
    writtenRecords (runEffects notFoundEnv background sampleInput (World.init Nat)) = [] :=
  have h := createEventLog_lookup_not_found notFoundEnv background sampleInput (World.init Nat)
    (.wrap "lookup: " (.sentinel .gormErrRecordNotFound)) rfl rfl
  ⟨h.1, h.2.2.1, h.2.2.2.1⟩

/-- C2: in every execution of `CreateEventLog` the persistence write is called at most
once; it is called exactly when the lookup succeeded and no publisher call returned
success; the write counter moves by the number of writes; no write happens in an
execution in which a publisher call succeeded; and after a successful lookup "no
publisher call returned success" means that the encoding failed or that the retry
loop ended with an error. -/
theorem createEventLog_write_iff_publish_failed (env : Env V) (ctx : Context)
    (inp : datastructure.EventLog V) (w : World V) :
    (writtenRecords (runEffects env ctx inp w)).length ≤ 1 ∧
    ((writtenRecords (runEffects env ctx inp w)).length = 1 ↔
      ((env.GetEventByID w.lookups inp.EventID).2 = none ∧
        publishSucceeded (runEffects env ctx inp w) = false)) ∧
    (EventService.CreateEventLog env ctx inp w).2.writes
      = w.writes + (writtenRecords (runEffects env ctx inp w)).length ∧
    (publishSucceeded (runEffects env ctx inp w) = true →
      writtenRecords (runEffects env ctx inp w) = []) ∧
    ((env.GetEventByID w.lookups inp.EventID).2 = none →
      (publishSucceeded (runEffects env ctx inp w) = false ↔
        ((∃ me, env.jsonMarshal (constructedEventLog env inp w) = .error me) ∨
         (∃ jsonData, env.jsonMarshal (constructedEventLog env inp w) = .ok jsonData ∧
            (util.WithRetry ctx 3 (producerSendMessage env (publishedMessage env w jsonData))
              (worldBeforePublish env inp w)).1 ≠ none)))) := by
  have hlast : (env.GetEventByID w.lookups inp.EventID).2 = none →
      (publishSucceeded (runEffects env ctx inp w) = false ↔
        ((∃ me, env.jsonMarshal (constructedEventLog env inp w) = .error me) ∨
         (∃ jsonData, env.jsonMarshal (constructedEventLog env inp w) = .ok jsonData ∧
            (util.WithRetry ctx 3 (producerSendMessage env (publishedMessage env w jsonData))
              (worldBeforePublish env inp w)).1 ≠ none))) := by
    intro hl
    cases hm : env.jsonMarshal (constructedEventLog env inp w) with
    | error me =>
      simp [publishSucceeded_of_marshal_error env ctx inp w me hl hm]
    | ok jsonData =>
      have hiff := publishSucceeded_iff_retry_ok env ctx inp w jsonData hl hm
      constructor
      · intro hps
        refine Or.inr ⟨jsonData, rfl, fun hnone => ?_⟩
        rw [hiff.mpr hnone] at hps
        exact absurd hps (by simp)
      · rintro (⟨me, hme⟩ | ⟨jd, hjd, hne⟩)
        · exact absurd hme (by simp)
        · cases hjd
          cases hps : publishSucceeded (runEffects env ctx inp w) with
          | false => rfl
          | true => exact absurd (hiff.mp hps) hne
  refine ⟨?_, ?_, ?_, ?_, hlast⟩
  all_goals
    cases hl : (env.GetEventByID w.lookups inp.EventID).2 with
    | some e =>
      rw [runEffects_of_lookup_error env ctx inp w e hl]
      rcases hlk : env.GetEventByID w.lookups inp.EventID with ⟨ev, lerr⟩
      rw [hlk] at hl
      simp only at hl
      subst hl
      try rw [createEventLog_of_lookup_error env ctx inp w ev e hlk]
      simp [writtenRecords, publishSucceeded]
    | none =>
      obtain ⟨pub, tail, heff, hpub, hcase⟩ := createEventLog_run env ctx inp w hl
      unfold runEffects
      rw [heff]
      simp only [writtenRecords_append, publishSucceeded_append,
        writtenRecords_constructionEffects, publishSucceeded_constructionEffects, hpub]
      rcases hcase with ⟨hps, htail, -, hwrites⟩ | ⟨hps, ⟨rest, rfl, hrest, hprest⟩, -, hwrites⟩
      · simp [hps, htail, hwrites]
      · have h1 : writtenRecords (.createEventLog (constructedEventLog env inp w)
            (env.CreateEventLog w.writes (constructedEventLog env inp w)) :: rest)
            = [constructedEventLog env inp w] := by
          rw [← hrest]
          simp [writtenRecords]
        have h2 : publishSucceeded (.createEventLog (constructedEventLog env inp w)
            (env.CreateEventLog w.writes (constructedEventLog env inp w)) :: rest) = false := by
          rw [← hprest]
          simp [publishSucceeded]
        simp [h1, h2, hps, hwrites]

/-- C2, at concrete inputs: with a working broker a send succeeds and nothing is
written; with a broker that is down exactly one record is written. -/
theorem createEventLog_write_iff_publish_failed_witness :
    (publishSucceeded (runEffects happyEnv background sampleInput (World.init Nat)) = true ∧
      writtenRecords (runEffects happyEnv background sampleInput (World.init Nat)) = []) ∧
    (writtenRecords (runEffects brokerDownEnv background sampleInput (World.init Nat))).length
      = 1 :=
  ⟨⟨rfl, (createEventLog_write_iff_publish_failed happyEnv background sampleInput
      (World.init Nat)).2.2.2.1 rfl⟩,
   ((createEventLog_write_iff_publish_failed brokerDownEnv background sampleInput
      (World.init Nat)).2.1).mpr ⟨rfl, rfl⟩⟩

/-- C3: when lookup and encoding succeed, all three sends fail and the context is never
cancelled, the call sends the same message three times (waiting after each failure),
then makes exactly one persistence write, of the constructed record whose encoding is
the message value; the call returns that record when the write succeeds and no
record otherwise. -/
theorem createEventLog_three_failures_then_one_write (env : Env V) (ctx : Context)
    (inp : datastructure.EventLog V) (w : World V) (jsonData : List UInt8)
    (e1 e2 e3 : GoError)
    (hl : (env.GetEventByID w.lookups inp.EventID).2 = none)
    (hm : env.jsonMarshal (constructedEventLog env inp w) = .ok jsonData)
    (h1 : env.SendMessage w.sends (publishedMessage env w jsonData) = some e1)
    (h2 : env.SendMessage (w.sends + 1) (publishedMessage env w jsonData) = some e2)
    (h3 : env.SendMessage (w.sends + 2) (publishedMessage env w jsonData) = some e3)
    (hctx : ∀ k d, ctx.doneDuring k d = none) :
    runEffects env ctx inp w =
      constructionEffects env inp w ++
        [.generate (env.Generate (w.ids + 1)),
         .sendMessage (publishedMessage env w jsonData) (some e1), .wait 1 none,
         .sendMessage (publishedMessage env w jsonData) (some e2), .wait 2 none,
         .sendMessage (publishedMessage env w jsonData) (some e3), .wait 3 none,
         .logErrorf "Failed to send message to kafka: %v" e3,
         .createEventLog (constructedEventLog env inp w)
           (env.CreateEventLog w.writes (constructedEventLog env inp w))] ++
        (match env.CreateEventLog w.writes (constructedEventLog env inp w) with
          | none => []
          | some we => [.logErrorf "Failed to create event log: %v" we]) ∧
    (EventService.CreateEventLog env ctx inp w).2.sends = w.sends + 3 ∧
    (EventService.CreateEventLog env ctx inp w).2.writes = w.writes + 1 ∧
    sentMessages (runEffects env ctx inp w)
      = [publishedMessage env w jsonData, publishedMessage env w jsonData,
         publishedMessage env w jsonData] ∧
    writtenRecords (runEffects env ctx inp w) = [constructedEventLog env inp w] ∧
    (EventService.CreateEventLog env ctx inp w).1
      = (match env.CreateEventLog w.writes (constructedEventLog env inp w) with
          | none => (some (constructedEventLog env inp w), none)
          | some we => (none, errdefs.WrapGormError (some we))) := by
  have hretry := withRetry_send_fail_fail_fail env ctx (publishedMessage env w jsonData)
    (worldBeforePublish env inp w) e1 e2 e3 h1 h2 h3 (hctx _ _) (hctx _ _) (hctx _ _)
  have hrun := createEventLog_of_marshal_ok env ctx inp w jsonData hl hm
  rw [hretry] at hrun
  unfold runEffects
  cases hw : env.CreateEventLog w.writes (constructedEventLog env inp w) with
  | none =>
    have hwb : env.CreateEventLog (worldBeforePublish env inp w).writes
        (constructedEventLog env inp w) = none := hw
    simp only [repoCreateEventLog, logErrorf, hwb] at hrun
    rw [effectsSince_of_trace_eq w _ _ (by rw [hrun]; simp [worldBeforePublish]; rfl)]
    rw [hrun]
    simp [sentMessages, writtenRecords, constructionEffects, worldBeforePublish]
  | some we =>
    have hwb : env.CreateEventLog (worldBeforePublish env inp w).writes
        (constructedEventLog env inp w) = some we := hw
    simp only [repoCreateEventLog, logErrorf, hwb] at hrun
    rw [effectsSince_of_trace_eq w _ _ (by rw [hrun]; simp [worldBeforePublish]; rfl)]
    rw [hrun]
    simp [sentMessages, writtenRecords, constructionEffects, worldBeforePublish]

/-- C3, at a concrete input: the broker is down, the database works. -/
theorem createEventLog_three_failures_then_one_write_witness :
    sentMessages (runEffects brokerDownEnv background sampleInput (World.init Nat))
      = [{ Topic := "tracking", Key := "id-1", Value := [1, 2, 3] },
         { Topic := "tracking", Key := "id-1", Value := [1, 2, 3] },
         { Topic := "tracking", Key := "id-1", Value := [1, 2, 3] }] ∧
    writtenRecords (runEffects brokerDownEnv background sampleInput (World.init Nat))
      = [{ ID := "id-0", ApplicationID := "app-1", SessionID := "s-1", EventID := "ev-1",
           PlatformID := 1, Properties := some [("k", 7)], CreatedAt := 1000 }] ∧
    (EventService.CreateEventLog brokerDownEnv background sampleInput (World.init Nat)).1
      = (some { ID := "id-0", ApplicationID := "app-1", SessionID := "s-1", EventID := "ev-1",
                PlatformID := 1, Properties := some [("k", 7)], CreatedAt := 1000 }, none) :=
  have h := createEventLog_three_failures_then_one_write brokerDownEnv background sampleInput
    (World.init Nat) [1, 2, 3] (.plain "kafka: broker not available")
    (.plain "kafka: broker not available") (.plain "kafka: broker not available")
    rfl rfl rfl rfl rfl (fun _ _ => rfl)
  ⟨h.2.2.2.1, h.2.2.2.2.1, h.2.2.2.2.2⟩

/-- C4: when the lookup succeeds and the persistence write of the constructed record
succeeds (should the call reach it), the call returns the constructed record and a nil
error, whatever the encoder, the publisher and the context do. -/
theorem createEventLog_ok_when_write_ok (env : Env V) (ctx : Context)
    (inp : datastructure.EventLog V) (w : World V)
    (hl : (env.GetEventByID w.lookups inp.EventID).2 = none)
    (hw : env.CreateEventLog w.writes (constructedEventLog env inp w) = none) :
    (EventService.CreateEventLog env ctx inp w).1
      = (some (constructedEventLog env inp w), none) := by
  obtain ⟨pub, tail, -, -, hcase⟩ := createEventLog_run env ctx inp w hl
  rcases hcase with ⟨-, -, hres, -⟩ | ⟨-, -, hres, -⟩
  · exact hres
  · rw [hres, hw]

/-- C4, at concrete inputs: a broker that is down, an encoder that fails, and a context
cancelled during the first wait all end in the record and a nil error. -/
theorem createEventLog_ok_when_write_ok_witness :
    (EventService.CreateEventLog brokerDownEnv background sampleInput (World.init Nat)).1
      = (some (constructedEventLog brokerDownEnv sampleInput (World.init Nat)), none) ∧
    (EventService.CreateEventLog marshalFailEnv background sampleInput (World.init Nat)).1
      = (some (constructedEventLog marshalFailEnv sampleInput (World.init Nat)), none) ∧
    (EventService.CreateEventLog brokerDownEnv cancelledContext sampleInput (World.init Nat)).1
      = (some (constructedEventLog brokerDownEnv sampleInput (World.init Nat)), none) :=
  ⟨createEventLog_ok_when_write_ok brokerDownEnv background sampleInput (World.init Nat)
      rfl rfl,
   createEventLog_ok_when_write_ok marshalFailEnv background sampleInput (World.init Nat)
      rfl rfl,
   createEventLog_ok_when_write_ok brokerDownEnv cancelledContext sampleInput (World.init Nat)
      rfl rfl⟩

/-- C5 as stated fails: the lookup succeeds, every send fails and the fallback write
fails, yet the error returned is `ErrorDuplicateKey`, not `ErrorInternalError`. -/
theorem createEventLog_write_error_not_always_internal :
    (duplicateKeyEnv.GetEventByID (World.init Nat).lookups sampleInput.EventID).2 = none ∧
    (∀ k msg, duplicateKeyEnv.SendMessage k msg ≠ none) ∧
    publishSucceeded (runEffects duplicateKeyEnv background sampleInput (World.init Nat))
      = false ∧
    duplicateKeyEnv.CreateEventLog (World.init Nat).writes
      (constructedEventLog duplicateKeyEnv sampleInput (World.init Nat)) ≠ none ∧
    (EventService.CreateEventLog duplicateKeyEnv background sampleInput (World.init Nat)).1
      = (none, some (.sentinel .ErrorDuplicateKey)) ∧
    (EventService.CreateEventLog duplicateKeyEnv background sampleInput (World.init Nat)).1
      ≠ (none, some (.sentinel .ErrorInternalError)) := by
  refine ⟨rfl, ?_, rfl, ?_, rfl, ?_⟩
  · intro k msg
    simp [duplicateKeyEnv, brokerDownEnv]
  · simp [duplicateKeyEnv]
  · decide

/-- C5, amended: when the lookup succeeds, no publisher call succeeds and the fallback
write fails with the error `we`, the call returns no record and the error
`WrapGormError` makes of `we`: `ErrorNotFound` when `we` is record-not-found,
`ErrorDuplicateKey` when it is not and its text reports a unique violation, and
`ErrorInternalError` in every other case. -/
theorem createEventLog_write_error_wrapped (env : Env V) (ctx : Context)
    (inp : datastructure.EventLog V) (w : World V) (we : GoError)
    (hl : (env.GetEventByID w.lookups inp.EventID).2 = none)
    (hpub : publishSucceeded (runEffects env ctx inp w) = false)
    (hw : env.CreateEventLog w.writes (constructedEventLog env inp w) = some we) :
    (EventService.CreateEventLog env ctx inp w).1
      = (none, errdefs.WrapGormError (some we)) ∧
    errdefs.WrapGormError (some we)
      = (if errorsIs we .gormErrRecordNotFound then some (.sentinel .ErrorNotFound)
         else if errdefs.isUniqueViolation we then some (.sentinel .ErrorDuplicateKey)
         else some (.sentinel .ErrorInternalError)) ∧
    (errorsIs we .gormErrRecordNotFound = false → errdefs.isUniqueViolation we = false →
      (EventService.CreateEventLog env ctx inp w).1
        = (none, some (.sentinel .ErrorInternalError))) := by
  obtain ⟨pub, tail, heff, -, hcase⟩ := createEventLog_run env ctx inp w hl
  have hres : (EventService.CreateEventLog env ctx inp w).1
      = (none, errdefs.WrapGormError (some we)) := by
    rcases hcase with ⟨hps, -, -, -⟩ | ⟨-, -, hres, -⟩
    · exfalso
      unfold runEffects at hpub
      rw [heff, publishSucceeded_append, publishSucceeded_append, hps] at hpub
      simp at hpub
    · rw [hres, hw]
  refine ⟨hres, rfl, ?_⟩
  intro hnf hdup
  rw [hres]
  simp [errdefs.WrapGormError, hnf, hdup]

/-- C5 amended, at a concrete input: broker and database are both down. -/
theorem createEventLog_write_error_wrapped_witness :
    (EventService.CreateEventLog allDownEnv background sampleInput (World.init Nat)).1
      = (none, some (.sentinel .ErrorInternalError)) :=
  (createEventLog_write_error_wrapped allDownEnv background sampleInput (World.init Nat)
    (.plain "dial tcp: connection refused") rfl rfl rfl).2.2 (by decide) (by decide)

/-- C6: when the lookup succeeds and encoding the record fails, the call makes no
publisher call and exactly one persistence write, of the constructed record, right
after the construction; it returns that record and a nil error when the write
succeeds. -/
theorem createEventLog_marshal_failure_goes_to_write (env : Env V) (ctx : Context)
    (inp : datastructure.EventLog V) (w : World V) (me : GoError)
    (hl : (env.GetEventByID w.lookups inp.EventID).2 = none)
    (hm : env.jsonMarshal (constructedEventLog env inp w) = .error me) :
    runEffects env ctx inp w =
      constructionEffects env inp w ++
        [.createEventLog (constructedEventLog env inp w)
          (env.CreateEventLog w.writes (constructedEventLog env inp w))] ∧
    sentMessages (runEffects env ctx inp w) = [] ∧
    (EventService.CreateEventLog env ctx inp w).2.sends = w.sends ∧
    writtenRecords (runEffects env ctx inp w) = [constructedEventLog env inp w] ∧
    (EventService.CreateEventLog env ctx inp w).2.writes = w.writes + 1 ∧
    (env.CreateEventLog w.writes (constructedEventLog env inp w) = none →
      (EventService.CreateEventLog env ctx inp w).1
        = (some (constructedEventLog env inp w), none)) := by
  have hrun := createEventLog_of_marshal_error env ctx inp w me hl hm
  have heff : runEffects env ctx inp w =
      constructionEffects env inp w ++
        [.createEventLog (constructedEventLog env inp w)
          (env.CreateEventLog w.writes (constructedEventLog env inp w))] := by
    unfold runEffects
    exact effectsSince_of_trace_eq w _ _ (by rw [hrun])
  refine ⟨heff, ?_, ?_, ?_, ?_, ?_⟩
  · rw [heff]
    simp [sentMessages, constructionEffects]
  · rw [hrun]
  · rw [heff]
    simp [writtenRecords, constructionEffects]
  · rw [hrun]
  · intro hw
    rw [hrun, hw]

/-- C6, at a concrete input: an encoder that rejects the record. -/
theorem createEventLog_marshal_failure_goes_to_write_witness :
    sentMessages (runEffects marshalFailEnv background sampleInput (World.init Nat)) = [] ∧
    writtenRecords (runEffects marshalFailEnv background sampleInput (World.init Nat))
      = [constructedEventLog marshalFailEnv sampleInput (World.init Nat)] ∧
    (EventService.CreateEventLog marshalFailEnv background sampleInput (World.init Nat)).1
      = (some (constructedEventLog marshalFailEnv sampleInput (World.init Nat)), none) :=
  have h := createEventLog_marshal_failure_goes_to_write marshalFailEnv background sampleInput
    (World.init Nat) (.plain "json: unsupported value: NaN") rfl rfl
  ⟨h.2.1, h.2.2.2.1, h.2.2.2.2.2 rfl⟩

/-- C7: when lookup and encoding succeed, the first send fails and the context is
cancelled during the one-second wait that follows, the retry loop returns the
context error after a single send, and the call then makes exactly one persistence
write of the constructed record. -/
theorem createEventLog_cancelled_during_first_wait (env : Env V) (ctx : Context)
    (inp : datastructure.EventLog V) (w : World V) (jsonData : List UInt8)
    (e1 ctxErr : GoError)
    (hl : (env.GetEventByID w.lookups inp.EventID).2 = none)
    (hm : env.jsonMarshal (constructedEventLog env inp w) = .ok jsonData)
    (h1 : env.SendMessage w.sends (publishedMessage env w jsonData) = some e1)
    (hc : ctx.doneDuring w.waits 1 = some ctxErr) :
    (util.WithRetry ctx 3 (producerSendMessage env (publishedMessage env w jsonData))
        (worldBeforePublish env inp w)).1 = some ctxErr ∧
    runEffects env ctx inp w =
      constructionEffects env inp w ++
        [.generate (env.Generate (w.ids + 1)),
         .sendMessage (publishedMessage env w jsonData) (some e1),
         .wait 1 (some ctxErr),
         .logErrorf "Failed to send message to kafka: %v" ctxErr,
         .createEventLog (constructedEventLog env inp w)
           (env.CreateEventLog w.writes (constructedEventLog env inp w))] ++
        (match env.CreateEventLog w.writes (constructedEventLog env inp w) with
          | none => []
          | some we => [.logErrorf "Failed to create event log: %v" we]) ∧
    sentMessages (runEffects env ctx inp w) = [publishedMessage env w jsonData] ∧
    (EventService.CreateEventLog env ctx inp w).2.sends = w.sends + 1 ∧
    writtenRecords (runEffects env ctx inp w) = [constructedEventLog env inp w] ∧
    (EventService.CreateEventLog env ctx inp w).2.writes = w.writes + 1 := by
  have hretry := withRetry_send_fail_cancelled env ctx (publishedMessage env w jsonData)
    (worldBeforePublish env inp w) e1 ctxErr h1 hc
  have hrun := createEventLog_of_marshal_ok env ctx inp w jsonData hl hm
  rw [hretry] at hrun
  refine ⟨by rw [hretry], ?_⟩
  unfold runEffects
  cases hw : env.CreateEventLog w.writes (constructedEventLog env inp w) with
  | none =>
    have hwb : env.CreateEventLog (worldBeforePublish env inp w).writes
        (constructedEventLog env inp w) = none := hw
    simp only [repoCreateEventLog, logErrorf, hwb] at hrun
    rw [effectsSince_of_trace_eq w _ _ (by rw [hrun]; simp [worldBeforePublish]; rfl)]
    rw [hrun]
    simp [sentMessages, writtenRecords, constructionEffects, worldBeforePublish]
  | some we =>
    have hwb : env.CreateEventLog (worldBeforePublish env inp w).writes
        (constructedEventLog env inp w) = some we := hw
    simp only [repoCreateEventLog, logErrorf, hwb] at hrun
    rw [effectsSince_of_trace_eq w _ _ (by rw [hrun]; simp [worldBeforePublish]; rfl)]
    rw [hrun]
    simp [sentMessages, writtenRecords, constructionEffects, worldBeforePublish]

/-- C7, at a concrete input: the broker is down and the context is cancelled. -/
theorem createEventLog_cancelled_during_first_wait_witness :
    (util.WithRetry cancelledContext 3
        (producerSendMessage brokerDownEnv
          (publishedMessage brokerDownEnv (World.init Nat) [1, 2, 3]))
        (worldBeforePublish brokerDownEnv sampleInput (World.init Nat))).1
      = some (.sentinel .contextCanceled) ∧
    sentMessages (runEffects brokerDownEnv cancelledContext sampleInput (World.init Nat))
      = [publishedMessage brokerDownEnv (World.init Nat) [1, 2, 3]] ∧
    writtenRecords (runEffects brokerDownEnv cancelledContext sampleInput (World.init Nat))
      = [constructedEventLog brokerDownEnv sampleInput (World.init Nat)] :=
  have h := createEventLog_cancelled_during_first_wait brokerDownEnv cancelledContext
    sampleInput (World.init Nat) [1, 2, 3] (.plain "kafka: broker not available")
    (.sentinel .contextCanceled) rfl rfl rfl rfl
  ⟨h.1, h.2.2.1, h.2.2.2.2.1⟩

/-- C8: when lookup and encoding succeed, sends one and two fail, send three succeeds
and the context is never cancelled, the call makes exactly three publisher calls, the
loop waits one second and then two seconds (three in total, none after the successful
send), no persistence write happens, and the record is returned with a nil error. -/
theorem createEventLog_third_attempt_succeeds (env : Env V) (ctx : Context)
    (inp : datastructure.EventLog V) (w : World V) (jsonData : List UInt8)
    (e1 e2 : GoError)
    (hl : (env.GetEventByID w.lookups inp.EventID).2 = none)
    (hm : env.jsonMarshal (constructedEventLog env inp w) = .ok jsonData)
    (h1 : env.SendMessage w.sends (publishedMessage env w jsonData) = some e1)
    (h2 : env.SendMessage (w.sends + 1) (publishedMessage env w jsonData) = some e2)
    (h3 : env.SendMessage (w.sends + 2) (publishedMessage env w jsonData) = none)
    (hctx : ∀ k d, ctx.doneDuring k d = none) :
    runEffects env ctx inp w =
      constructionEffects env inp w ++
        [.generate (env.Generate (w.ids + 1)),
         .sendMessage (publishedMessage env w jsonData) (some e1), .wait 1 none,
         .sendMessage (publishedMessage env w jsonData) (some e2), .wait 2 none,
         .sendMessage (publishedMessage env w jsonData) none,
         .logInfof "Successfully sent message to kafka: %v" (publishedMessage env w jsonData)] ∧
    (sentMessages (runEffects env ctx inp w)).length = 3 ∧
    (EventService.CreateEventLog env ctx inp w).2.sends = w.sends + 3 ∧
    requestedWaits (runEffects env ctx inp w) = [1, 2] ∧
    (requestedWaits (runEffects env ctx inp w)).sum = 3 ∧
    writtenRecords (runEffects env ctx inp w) = [] ∧
    (EventService.CreateEventLog env ctx inp w).2.writes = w.writes ∧
    (EventService.CreateEventLog env ctx inp w).1
      = (some (constructedEventLog env inp w), none) := by
  have hretry := withRetry_send_fail_fail_ok env ctx (publishedMessage env w jsonData)
    (worldBeforePublish env inp w) e1 e2 h1 h2 h3 (hctx _ _) (hctx _ _)
  have hrun := createEventLog_of_marshal_ok env ctx inp w jsonData hl hm
  rw [hretry] at hrun
  simp only [logInfof] at hrun
  unfold runEffects
  rw [effectsSince_of_trace_eq w _ _ (by rw [hrun]; simp [worldBeforePublish]; rfl)]
  rw [hrun]
  simp [sentMessages, writtenRecords, requestedWaits, constructionEffects, worldBeforePublish]

/-- C8, at a concrete input: a broker that accepts the third send. -/
theorem createEventLog_third_attempt_succeeds_witness :
    requestedWaits (runEffects flakyBrokerEnv background sampleInput (World.init Nat))
      = [1, 2] ∧
    writtenRecords (runEffects flakyBrokerEnv background sampleInput (World.init Nat)) = [] ∧
    (EventService.CreateEventLog flakyBrokerEnv background sampleInput (World.init Nat)).1
      = (some (constructedEventLog flakyBrokerEnv sampleInput (World.init Nat)), none) :=
  have h := createEventLog_third_attempt_succeeds flakyBrokerEnv background sampleInput
    (World.init Nat) [1, 2, 3] (.plain "kafka: request timed out")
    (.plain "kafka: request timed out") rfl rfl rfl rfl rfl (fun _ _ => rfl)
  ⟨h.2.2.2.1, h.2.2.2.2.2.1, h.2.2.2.2.2.2.2⟩

/-- C9: whenever `CreateEventLog` returns a record, the lookup succeeded, the record
carries the application, session and platform ids and the properties of the request and
the ID of the event found by the lookup, its ID is the first identifier drawn in the
call, its CreatedAt is the clock reading of the call, and the call starts with the
lookup, that identifier draw and that clock reading, so that every publisher call
and every write comes after them. -/
theorem createEventLog_returned_record (env : Env V) (ctx : Context)
    (inp : datastructure.EventLog V) (w : World V) (record : model.EventLog V)
    (hret : (EventService.CreateEventLog env ctx inp w).1.1 = some record) :
    (env.GetEventByID w.lookups inp.EventID).2 = none ∧
    record.ApplicationID = inp.ApplicationID ∧
    record.SessionID = inp.SessionID ∧
    record.PlatformID = inp.PlatformID ∧
    record.Properties = inp.Properties ∧
    record.EventID = (env.GetEventByID w.lookups inp.EventID).1.ID ∧
    record.ID = env.Generate w.ids ∧
    record.CreatedAt = env.Now w.clockReads ∧
    ∃ rest, runEffects env ctx inp w =
      [.getEventByID inp.EventID (env.GetEventByID w.lookups inp.EventID).1 none,
       .generate record.ID, .now record.CreatedAt] ++ rest := by
  cases hl : (env.GetEventByID w.lookups inp.EventID).2 with
  | some e =>
    rcases hlk : env.GetEventByID w.lookups inp.EventID with ⟨ev, lerr⟩
    rw [hlk] at hl
    simp only at hl
    subst hl
    rw [createEventLog_of_lookup_error env ctx inp w ev e hlk] at hret
    simp at hret
  | none =>
    obtain ⟨pub, tail, heff, -, hcase⟩ := createEventLog_run env ctx inp w hl
    have hrec : record = constructedEventLog env inp w := by
      rcases hcase with ⟨-, -, hres, -⟩ | ⟨-, -, hres, -⟩
      · rw [hres] at hret
        simpa using hret.symm
      · rw [hres] at hret
        cases hw : env.CreateEventLog w.writes (constructedEventLog env inp w) with
        | none =>
          rw [hw] at hret
          simpa using hret.symm
        | some we =>
          rw [hw] at hret
          simp at hret
    subst hrec
    refine ⟨rfl, rfl, rfl, rfl, rfl, rfl, rfl, rfl, pub ++ tail, ?_⟩
    unfold runEffects
    rw [heff]
    simp [constructionEffects, constructedEventLog]

/-- C9, at a concrete input: the record returned when everything works. -/
theorem createEventLog_returned_record_witness :
    (EventService.CreateEventLog happyEnv background sampleInput (World.init Nat)).1.1
      = some { ID := "id-0", ApplicationID := "app-1", SessionID := "s-1", EventID := "ev-1",
               PlatformID := 1, Properties := some [("k", 7)], CreatedAt := 1000 } ∧
    happyEnv.Generate (World.init Nat).ids = "id-0" ∧
    happyEnv.Now (World.init Nat).clockReads = 1000 :=
  have h := createEventLog_returned_record happyEnv background sampleInput (World.init Nat)
    { ID := "id-0", ApplicationID := "app-1", SessionID := "s-1", EventID := "ev-1",
      PlatformID := 1, Properties := some [("k", 7)], CreatedAt := 1000 } rfl
  ⟨rfl, h.2.2.2.2.2.2.1.symm, h.2.2.2.2.2.2.2.1.symm⟩

/-! ### The ingestion handler -/

theorem getString_after_middleware (c : GinContext V) (appID tenantID : String) :
    ((c.Set TenantApplicationIDKey (.str appID)).Set TenantIDKey (.str tenantID)).GetString
      TenantApplicationIDKey = appID := by
  simp [GinContext.GetString, GinContext.Get, GinContext.Set, List.lookup,
    TenantApplicationIDKey, TenantIDKey]

theorem shouldBindJSON_withBodyIDs (c : GinContext V) (a e : String) :
    (c.withBodyIDs a e).ShouldBindJSON =
      (match c.ShouldBindJSON with
        | .error err => .error err
        | .ok req => .ok { req with ApplicationID := a, EventID := e }) := by
  unfold GinContext.ShouldBindJSON GinContext.withBodyIDs
  cases hb : c.body with
  | error err => rfl
  | ok req =>
    simp only
    have hreq : requiredFailures { req with ApplicationID := a, EventID := e }
        = requiredFailures req := rfl
    rw [hreq]
    cases requiredFailures req <;> rfl

/-- C10: in `TenantHandler.CreateEventLog` the service input takes its application id
from the context key `tenant_application_id` and its event id from the path parameter
`event_id`; the `application_id` and `event_id` fields of the body change neither the
service input nor the outcome of the request; and behind `TenantAuthMiddleware` the
application id given to the service is the ID of the application the API key
resolves to. -/
theorem tenantHandler_createEventLog_ids_from_context_and_path (env : Env V)
    (c : GinContext V) (w : World V) :
    (∀ req, c.ShouldBindJSON = .ok req →
      TenantHandler.CreateEventLog env c w =
        TenantHandler.respondEventLog
          (EventService.CreateEventLog env c.requestContext
            { ID := ""
              ApplicationID := c.GetString "tenant_application_id"
              SessionID := req.SessionID
              EventID := c.Param "event_id"
              PlatformID := req.PlatformID
              Properties := req.Properties
              CreatedAt := "" } w)) ∧
    (∀ req a e,
      TenantHandler.reqEventLog c { req with ApplicationID := a, EventID := e }
        = TenantHandler.reqEventLog c req) ∧
    (∀ a e, TenantHandler.CreateEventLog env (c.withBodyIDs a e) w
        = TenantHandler.CreateEventLog env c w) ∧
    (∀ ValidateAPIKey application req, c.Header "x-api-key" ≠ "" →
      ValidateAPIKey (c.Header "x-api-key") = .ok application →
      c.ShouldBindJSON = .ok req →
      TenantAuthMiddleware ValidateAPIKey (TenantHandler.CreateEventLog env) c w =
        TenantHandler.respondEventLog
          (EventService.CreateEventLog env c.requestContext
            { ID := ""
              ApplicationID := application.ID
              SessionID := req.SessionID
              EventID := c.Param "event_id"
              PlatformID := req.PlatformID
              Properties := req.Properties
              CreatedAt := "" } w)) := by
  refine ⟨?_, ?_, ?_, ?_⟩
  · intro req hbind
    simp [TenantHandler.CreateEventLog, hbind, TenantHandler.reqEventLog,
      TenantApplicationIDKey]
  · intro req a e
    rfl
  · intro a e
    unfold TenantHandler.CreateEventLog
    rw [shouldBindJSON_withBodyIDs]
    cases c.ShouldBindJSON with
    | error err => rfl
    | ok req => rfl
  · intro ValidateAPIKey application req hkey hvalid hbind
    have hbind2 : ((c.Set TenantApplicationIDKey (.str application.ID)).Set TenantIDKey
        (.str application.TenantID)).ShouldBindJSON = .ok req := hbind
    simp only [TenantAuthMiddleware, hkey, if_false, hvalid, TenantHandler.CreateEventLog,
      hbind2, TenantHandler.reqEventLog, getString_after_middleware]
    rfl

/-- C10, at a concrete request: the body names another application and another event,
and the record that comes back carries the authenticated application and the event of
the path. -/
theorem tenantHandler_createEventLog_ids_from_context_and_path_witness :
    TenantHandler.CreateEventLog happyEnv (sampleContext.withBodyIDs "app-1" "ev-1")
        (World.init Nat) =
      TenantHandler.CreateEventLog happyEnv sampleContext (World.init Nat) ∧
    sampleContext.Header "x-api-key" ≠ "" ∧
    sampleValidateAPIKey (sampleContext.Header "x-api-key") = .ok sampleApplication ∧
    TenantAuthMiddleware sampleValidateAPIKey (TenantHandler.CreateEventLog happyEnv)
        sampleContext (World.init Nat) =
      TenantHandler.respondEventLog
        (EventService.CreateEventLog happyEnv background sampleInput (World.init Nat)) :=
  ⟨(tenantHandler_createEventLog_ids_from_context_and_path happyEnv sampleContext
      (World.init Nat)).2.2.1 "app-1" "ev-1",
   by decide, rfl,
   (tenantHandler_createEventLog_ids_from_context_and_path happyEnv sampleContext
      (World.init Nat)).2.2.2 sampleValidateAPIKey sampleApplication
      { ApplicationID := "app-of-someone-else", PlatformID := 1,
        EventID := "ev-of-someone-else", SessionID := "s-1",
        Properties := some [("k", 7)] } (by decide) rfl rfl⟩

/-! ## More on the retry loop and the publish path -/

/-- The retry loop around the publisher behaves the same in two worlds that agree on
the send and wait counters: same result, same effects appended. -/
theorem loop_send_frame (env : Env V) (ctx : Context) (msg : ProducerMessage) :
    ∀ (n i : Nat) (err : Option GoError) (w w' : World V),
      w.sends = w'.sends → w.waits = w'.waits →
      ∃ l, (util.WithRetry.loop ctx (producerSendMessage env msg) n i err w).2.trace
            = w.trace ++ l ∧
          (util.WithRetry.loop ctx (producerSendMessage env msg) n i err w').2.trace
            = w'.trace ++ l ∧
          (util.WithRetry.loop ctx (producerSendMessage env msg) n i err w).1
            = (util.WithRetry.loop ctx (producerSendMessage env msg) n i err w').1 := by
  intro n
  induction n with
  | zero =>
    intro i err w w' _ _
    exact ⟨[], by simp [util.WithRetry.loop], by simp [util.WithRetry.loop],
      by simp [util.WithRetry.loop]⟩
  | succ n ih =>
    intro i err w w' hs hw
    simp only [util.WithRetry.loop, producerSendMessage, selectDoneOrAfter, ← hs, ← hw]
    cases hsend : env.SendMessage w.sends msg with
    | none => exact ⟨[.sendMessage msg none], by simp, by simp, by simp⟩
    | some e =>
      simp only
      cases hc : ctx.doneDuring w.waits (i + 1) with
      | some ce =>
        exact ⟨[.sendMessage msg (some e), .wait (i + 1) (some ce)], by simp, by simp, by simp⟩
      | none =>
        simp only
        obtain ⟨l, h1, h2, h3⟩ := ih (i + 1) (some e)
          { w with sends := w.sends + 1, waits := w.waits + 1,
                   trace := w.trace ++ [.sendMessage msg (some e)] ++ [.wait (i + 1) none] }
          { w' with sends := w.sends + 1, waits := w.waits + 1,
                    trace := w'.trace ++ [.sendMessage msg (some e)] ++ [.wait (i + 1) none] }
          rfl rfl
        refine ⟨.sendMessage msg (some e) :: .wait (i + 1) none :: l, ?_, ?_, h3⟩
        · rw [h1]
          simp
        · rw [h2]
          simp

/-- The frame property in terms of the effects of the loop. -/
theorem withRetry_send_frame (env : Env V) (ctx : Context) (msg : ProducerMessage)
    (w w' : World V) (hs : w.sends = w'.sends) (hw : w.waits = w'.waits) :
    effectsSince w (util.WithRetry ctx 3 (producerSendMessage env msg) w).2
      = effectsSince w' (util.WithRetry ctx 3 (producerSendMessage env msg) w').2 ∧
    (util.WithRetry ctx 3 (producerSendMessage env msg) w).1
      = (util.WithRetry ctx 3 (producerSendMessage env msg) w').1 := by
  obtain ⟨l, h1, h2, h3⟩ := loop_send_frame env ctx msg 3 0 none w w' hs hw
  have e1 : effectsSince w (util.WithRetry ctx 3 (producerSendMessage env msg) w).2 = l :=
    effectsSince_of_trace_eq w _ l h1
  have e2 : effectsSince w' (util.WithRetry ctx 3 (producerSendMessage env msg) w').2 = l :=
    effectsSince_of_trace_eq w' _ l h2
  exact ⟨e1.trans e2.symm, h3⟩

/-- The trace of the retry loop around the publisher extends the trace it started from. -/
theorem withRetry_send_trace_eq (env : Env V) (ctx : Context) (msg : ProducerMessage)
    (w : World V) :
    (util.WithRetry ctx 3 (producerSendMessage env msg) w).2.trace
      = w.trace ++ effectsSince w (util.WithRetry ctx 3 (producerSendMessage env msg) w).2 := by
  obtain ⟨l, h1, -, -⟩ := loop_send_frame env ctx msg 3 0 none w w rfl rfl
  have e1 : effectsSince w (util.WithRetry ctx 3 (producerSendMessage env msg) w).2 = l :=
    effectsSince_of_trace_eq w _ l h1
  rw [e1]
  exact h1

/-- The run after a successful lookup and a successful encoding, written out: the
construction, the draw of the message key, the effects of the retry loop, and the
tail decided by the loop's result. -/
theorem createEventLog_publish_path (env : Env V) (ctx : Context)
    (inp : datastructure.EventLog V) (w : World V) (jsonData : List UInt8)
    (hl : (env.GetEventByID w.lookups inp.EventID).2 = none)
    (hm : env.jsonMarshal (constructedEventLog env inp w) = .ok jsonData) :
    runEffects env ctx inp w =
      constructionEffects env inp w ++
        .generate (env.Generate (w.ids + 1)) ::
          effectsSince (worldBeforePublish env inp w)
            (util.WithRetry ctx 3 (producerSendMessage env (publishedMessage env w jsonData))
              (worldBeforePublish env inp w)).2 ++
        publishTail env inp w jsonData
          (util.WithRetry ctx 3 (producerSendMessage env (publishedMessage env w jsonData))
            (worldBeforePublish env inp w)).1 ∧
    (EventService.CreateEventLog env ctx inp w).1 =
      publishResult env inp w
        (util.WithRetry ctx 3 (producerSendMessage env (publishedMessage env w jsonData))
          (worldBeforePublish env inp w)).1 := by
  have htr := withRetry_send_trace_eq env ctx (publishedMessage env w jsonData)
    (worldBeforePublish env inp w)
  have hcnt := loop_send_counters env ctx (publishedMessage env w jsonData) 3 0 none
    (worldBeforePublish env inp w) _ _ rfl
  have hwrites : (util.WithRetry ctx 3 (producerSendMessage env (publishedMessage env w jsonData))
      (worldBeforePublish env inp w)).2.writes = w.writes := hcnt.1
  unfold runEffects
  rw [createEventLog_of_marshal_ok env ctx inp w jsonData hl hm]
  generalize effectsSince (worldBeforePublish env inp w)
    (util.WithRetry ctx 3 (producerSendMessage env (publishedMessage env w jsonData))
      (worldBeforePublish env inp w)).2 = l at htr ⊢
  rcases hr : util.WithRetry ctx 3 (producerSendMessage env (publishedMessage env w jsonData))
    (worldBeforePublish env inp w) with ⟨res, w5⟩
  rw [hr] at htr hwrites
  simp only at htr hwrites
  cases res with
  | none =>
    refine ⟨?_, rfl⟩
    apply effectsSince_of_trace_eq
    simp [logInfof, htr, worldBeforePublish, publishTail]
  | some err =>
    cases hw : env.CreateEventLog w.writes (constructedEventLog env inp w) with
    | none =>
      refine ⟨?_, ?_⟩
      · apply effectsSince_of_trace_eq
        simp [repoCreateEventLog, logErrorf, hwrites, hw, htr, worldBeforePublish, publishTail]
      · simp [repoCreateEventLog, logErrorf, hwrites, hw, publishResult]
    | some we =>
      refine ⟨?_, ?_⟩
      · apply effectsSince_of_trace_eq
        simp [repoCreateEventLog, logErrorf, hwrites, hw, htr, worldBeforePublish, publishTail]
      · simp [repoCreateEventLog, logErrorf, hwrites, hw, publishResult]

/-! ## Claims on what the service reads and sends -/

/-- C11: `CreateEventLog` depends on the looked-up event only through its ID. Replacing
the lookup by one that returns, for this request, the same error value and an event
with the same ID (any other application, platform and fields) leaves the returned
record and error unchanged, and every effect after the lookup: the same publisher
calls and the same persistence writes. A returned record carries the application id,
platform id and property map of the request, whatever the event says. -/
theorem createEventLog_depends_on_event_id_only (env : Env V)
    (lookup2 : Nat → String → model.Event × Option GoError) (ctx : Context)
    (inp : datastructure.EventLog V) (w : World V)
    (hid : (lookup2 w.lookups inp.EventID).1.ID = (env.GetEventByID w.lookups inp.EventID).1.ID)
    (herr : (lookup2 w.lookups inp.EventID).2 = (env.GetEventByID w.lookups inp.EventID).2) :
    (EventService.CreateEventLog { env with GetEventByID := lookup2 } ctx inp w).1
      = (EventService.CreateEventLog env ctx inp w).1 ∧
    (runEffects { env with GetEventByID := lookup2 } ctx inp w).drop 1
      = (runEffects env ctx inp w).drop 1 ∧
    sentMessages (runEffects { env with GetEventByID := lookup2 } ctx inp w)
      = sentMessages (runEffects env ctx inp w) ∧
    writtenRecords (runEffects { env with GetEventByID := lookup2 } ctx inp w)
      = writtenRecords (runEffects env ctx inp w) ∧
    (∀ record, (EventService.CreateEventLog env ctx inp w).1.1 = some record →
      record.ApplicationID = inp.ApplicationID ∧ record.PlatformID = inp.PlatformID ∧
        record.Properties = inp.Properties) := by
  have hlog : constructedEventLog { env with GetEventByID := lookup2 } inp w
      = constructedEventLog env inp w := by
    simp [constructedEventLog, hid]
  have hkey : ∀ (l1 l2 : List (Effect V)) (a b : Effect V) (rest : List (Effect V)),
      l1 = a :: rest → l2 = b :: rest →
      sentMessages [a] = ([] : List ProducerMessage) →
      sentMessages [b] = ([] : List ProducerMessage) →
      writtenRecords [a] = ([] : List (model.EventLog V)) →
      writtenRecords [b] = ([] : List (model.EventLog V)) →
      l1.drop 1 = l2.drop 1 ∧ sentMessages l1 = sentMessages l2 ∧
        writtenRecords l1 = writtenRecords l2 := by
    intro l1 l2 a b rest h1 h2 ha hb ha2 hb2
    subst h1 h2
    refine ⟨rfl, ?_, ?_⟩
    · have e1 := sentMessages_append [a] rest
      have e2 := sentMessages_append [b] rest
      simp only [List.singleton_append] at e1 e2
      rw [e1, e2, ha, hb]
    · have e1 := writtenRecords_append [a] rest
      have e2 := writtenRecords_append [b] rest
      simp only [List.singleton_append] at e1 e2
      rw [e1, e2, ha2, hb2]
  have hrec : ∀ record, (EventService.CreateEventLog env ctx inp w).1.1 = some record →
      record.ApplicationID = inp.ApplicationID ∧ record.PlatformID = inp.PlatformID ∧
        record.Properties = inp.Properties := by
    intro record hret
    cases hl : (env.GetEventByID w.lookups inp.EventID).2 with
    | some e =>
      rcases hlk : env.GetEventByID w.lookups inp.EventID with ⟨ev, lerr⟩
      rw [hlk] at hl
      simp only at hl
      subst hl
      rw [createEventLog_of_lookup_error env ctx inp w ev e hlk] at hret
      simp at hret
    | none =>
      obtain ⟨pub, tail, -, -, hcase⟩ := createEventLog_run env ctx inp w hl
      have hrec : record = constructedEventLog env inp w := by
        rcases hcase with ⟨-, -, hres, -⟩ | ⟨-, -, hres, -⟩
        · rw [hres] at hret
          simpa using hret.symm
        · rw [hres] at hret
          cases hw : env.CreateEventLog w.writes (constructedEventLog env inp w) with
          | none =>
            rw [hw] at hret
            simpa using hret.symm
          | some we =>
            rw [hw] at hret
            simp at hret
      subst hrec
      exact ⟨rfl, rfl, rfl⟩
  suffices hmain : (EventService.CreateEventLog { env with GetEventByID := lookup2 } ctx inp w).1
        = (EventService.CreateEventLog env ctx inp w).1 ∧
      ∃ a b rest, runEffects { env with GetEventByID := lookup2 } ctx inp w = a :: rest ∧
        runEffects env ctx inp w = b :: rest ∧
        sentMessages [a] = ([] : List ProducerMessage) ∧
        sentMessages [b] = ([] : List ProducerMessage) ∧
        writtenRecords [a] = ([] : List (model.EventLog V)) ∧
        writtenRecords [b] = ([] : List (model.EventLog V)) by
    obtain ⟨hres, a, b, rest, h1, h2, ha, hb, ha2, hb2⟩ := hmain
    obtain ⟨k1, k2, k3⟩ := hkey _ _ a b rest h1 h2 ha hb ha2 hb2
    exact ⟨hres, k1, k2, k3, hrec⟩
  cases hl : (env.GetEventByID w.lookups inp.EventID).2 with
  | some e =>
    have hl2 : (lookup2 w.lookups inp.EventID).2 = some e := by rw [herr, hl]
    rcases hlk : env.GetEventByID w.lookups inp.EventID with ⟨ev, lerr⟩
    rcases hlk2 : lookup2 w.lookups inp.EventID with ⟨ev2, lerr2⟩
    rw [hlk] at hl
    rw [hlk2] at hl2
    simp only at hl hl2
    subst hl hl2
    have r1 := createEventLog_of_lookup_error env ctx inp w ev e hlk
    have r2 := createEventLog_of_lookup_error { env with GetEventByID := lookup2 } ctx inp w
      ev2 e hlk2
    refine ⟨by rw [r1, r2], .getEventByID inp.EventID ev2 (some e),
      .getEventByID inp.EventID ev (some e), [], ?_, ?_, rfl, rfl, rfl, rfl⟩
    · unfold runEffects
      exact effectsSince_of_trace_eq w _ _ (by rw [r2])
    · unfold runEffects
      exact effectsSince_of_trace_eq w _ _ (by rw [r1])
  | none =>
    have hl2 : (({ env with GetEventByID := lookup2 } : Env V).GetEventByID w.lookups
        inp.EventID).2 = none := by
      show (lookup2 w.lookups inp.EventID).2 = none
      rw [herr, hl]
    cases hm : env.jsonMarshal (constructedEventLog env inp w) with
    | error me =>
      have hm2 : ({ env with GetEventByID := lookup2 } : Env V).jsonMarshal
          (constructedEventLog { env with GetEventByID := lookup2 } inp w) = .error me := by
        rw [hlog]
        exact hm
      have r1 := createEventLog_of_marshal_error env ctx inp w me hl hm
      have r2 := createEventLog_of_marshal_error { env with GetEventByID := lookup2 } ctx inp w
        me hl2 hm2
      rw [hlog] at r2
      refine ⟨by rw [r1, r2],
        .getEventByID inp.EventID (lookup2 w.lookups inp.EventID).1 none,
        .getEventByID inp.EventID (env.GetEventByID w.lookups inp.EventID).1 none,
        [.generate (env.Generate w.ids), .now (env.Now w.clockReads),
         .createEventLog (constructedEventLog env inp w)
           (env.CreateEventLog w.writes (constructedEventLog env inp w))],
        ?_, ?_, ?_, ?_, ?_, ?_⟩
      · unfold runEffects
        exact effectsSince_of_trace_eq w _ _ (by rw [r2]; rfl)
      · unfold runEffects
        exact effectsSince_of_trace_eq w _ _ (by rw [r1]; rfl)
      all_goals rfl
    | ok jsonData =>
      have hm2 : ({ env with GetEventByID := lookup2 } : Env V).jsonMarshal
          (constructedEventLog { env with GetEventByID := lookup2 } inp w) = .ok jsonData := by
        rw [hlog]
        exact hm
      obtain ⟨e1, q1⟩ := createEventLog_publish_path env ctx inp w jsonData hl hm
      obtain ⟨e2, q2⟩ := createEventLog_publish_path { env with GetEventByID := lookup2 } ctx
        inp w jsonData hl2 hm2
      obtain ⟨f1, f2⟩ := withRetry_send_frame env ctx (publishedMessage env w jsonData)
        (worldBeforePublish { env with GetEventByID := lookup2 } inp w)
        (worldBeforePublish env inp w) rfl rfl
      have hq2 : (EventService.CreateEventLog { env with GetEventByID := lookup2 } ctx inp w).1
          = publishResult env inp w
            (util.WithRetry ctx 3 (producerSendMessage env (publishedMessage env w jsonData))
              (worldBeforePublish env inp w)).1 := by
        rw [q2, ← f2]
        simp only [publishResult, hlog]
        rfl
      have he2 : runEffects { env with GetEventByID := lookup2 } ctx inp w =
          constructionEffects { env with GetEventByID := lookup2 } inp w ++
            .generate (env.Generate (w.ids + 1)) ::
              effectsSince (worldBeforePublish env inp w)
                (util.WithRetry ctx 3 (producerSendMessage env (publishedMessage env w jsonData))
                  (worldBeforePublish env inp w)).2 ++
            publishTail env inp w jsonData
              (util.WithRetry ctx 3 (producerSendMessage env (publishedMessage env w jsonData))
                (worldBeforePublish env inp w)).1 := by
        rw [e2, ← f1, ← f2]
        simp only [publishTail, hlog]
        rfl
      refine ⟨by rw [hq2, q1],
        .getEventByID inp.EventID (lookup2 w.lookups inp.EventID).1 none,
        .getEventByID inp.EventID (env.GetEventByID w.lookups inp.EventID).1 none,
        [.generate (env.Generate w.ids), .now (env.Now w.clockReads)] ++
          (.generate (env.Generate (w.ids + 1)) ::
            effectsSince (worldBeforePublish env inp w)
              (util.WithRetry ctx 3 (producerSendMessage env (publishedMessage env w jsonData))
                (worldBeforePublish env inp w)).2) ++
          publishTail env inp w jsonData
            (util.WithRetry ctx 3 (producerSendMessage env (publishedMessage env w jsonData))
              (worldBeforePublish env inp w)).1,
        ?_, ?_, ?_, ?_, ?_, ?_⟩
      · rw [he2]
        simp [constructionEffects]
      · rw [e1]
        simp [constructionEffects]
      all_goals rfl

/-- C11, at a concrete input: the request of application `app-1` on platform 1, without
the field `amount`, against an event of application `app-2` on platform 9 that requires
`amount`, gives the same record as against an event of its own. -/
theorem createEventLog_depends_on_event_id_only_witness :
    (foreignLookup (World.init Nat).lookups sampleInput.EventID).1.ID
      = (ownEventEnv.GetEventByID (World.init Nat).lookups sampleInput.EventID).1.ID ∧
    (EventService.CreateEventLog { ownEventEnv with GetEventByID := foreignLookup } background
        sampleInput (World.init Nat)).1
      = (EventService.CreateEventLog ownEventEnv background sampleInput (World.init Nat)).1 ∧
    (EventService.CreateEventLog { ownEventEnv with GetEventByID := foreignLookup } background
        sampleInput (World.init Nat)).1
      = (some { ID := "id-0", ApplicationID := "app-1", SessionID := "s-1", EventID := "ev-1",
                PlatformID := 1, Properties := some [("k", 7)], CreatedAt := 1000 }, none) :=
  ⟨rfl,
   (createEventLog_depends_on_event_id_only ownEventEnv foreignLookup background sampleInput
      (World.init Nat) rfl rfl).1,
   rfl⟩

/-- The effects of the retry loop around the publisher: every message sent is the one
given, no identifier is drawn, between one and `n` sends are made, and the failed
sends and the waits alternate, the wait after the `k`-th failed send of the loop
asking for `k` seconds. -/
theorem loop_send_shape (env : Env V) (ctx : Context) (msg : ProducerMessage) :
    ∀ (n i : Nat) (err : Option GoError) (w : World V) (res : Option GoError) (w2 : World V),
      util.WithRetry.loop ctx (producerSendMessage env msg) n i err w = (res, w2) →
      ∃ l, w2.trace = w.trace ++ l ∧
        (∀ m ∈ sentMessages l, m = msg) ∧
        drawnIdentifiers l = [] ∧
        (0 < n → 1 ≤ (sentMessages l).length) ∧
        ∃ m, m ≤ n ∧
          failuresAndWaits l = (List.range' (i + 1) m).flatMap (fun k => [none, some k]) ∧
          requestedWaits l = List.range' (i + 1) m := by
  intro n
  induction n with
  | zero =>
    intro i err w res w2 h
    simp only [util.WithRetry.loop, Prod.mk.injEq] at h
    obtain ⟨-, rfl⟩ := h
    exact ⟨[], by simp, by simp [sentMessages], by simp [drawnIdentifiers], by simp,
      0, le_refl _, by simp [failuresAndWaits], by simp [requestedWaits]⟩
  | succ n ih =>
    intro i err w res w2 h
    simp only [util.WithRetry.loop, producerSendMessage, selectDoneOrAfter] at h
    cases hs : env.SendMessage w.sends msg with
    | none =>
      simp only [hs, Prod.mk.injEq] at h
      obtain ⟨-, rfl⟩ := h
      exact ⟨[.sendMessage msg none], by simp, by simp [sentMessages],
        by simp [drawnIdentifiers], by simp [sentMessages],
        0, Nat.zero_le _, by simp [failuresAndWaits], by simp [requestedWaits]⟩
    | some e =>
      simp only [hs] at h
      cases hc : ctx.doneDuring w.waits (i + 1) with
      | some ce =>
        simp only [hc, Prod.mk.injEq] at h
        obtain ⟨-, rfl⟩ := h
        exact ⟨[.sendMessage msg (some e), .wait (i + 1) (some ce)], by simp,
          by simp [sentMessages], by simp [drawnIdentifiers], by simp [sentMessages],
          1, by omega, by simp [failuresAndWaits, List.range'],
          by simp [requestedWaits, List.range']⟩
      | none =>
        simp only [hc] at h
        obtain ⟨l, hl, hmsg, hids, -, m, hm, hfw, hrw⟩ := ih _ _ _ _ _ h
        refine ⟨.sendMessage msg (some e) :: .wait (i + 1) none :: l, ?_, ?_, ?_, ?_,
          m + 1, by omega, ?_, ?_⟩
        · simpa using hl
        · intro m' hm'
          have hsplit : sentMessages (.sendMessage msg (some e) :: .wait (i + 1) none :: l)
              = msg :: sentMessages l := by
            simp [sentMessages]
          rw [hsplit] at hm'
          rcases List.mem_cons.mp hm' with h1 | h1
          · exact h1
          · exact hmsg m' h1
        · have hsplit : drawnIdentifiers (.sendMessage msg (some e) :: .wait (i + 1) none :: l)
              = drawnIdentifiers l := by
            simp [drawnIdentifiers]
          rw [hsplit, hids]
        · intro _
          have hsplit : sentMessages (.sendMessage msg (some e) :: .wait (i + 1) none :: l)
              = msg :: sentMessages l := by
            simp [sentMessages]
          rw [hsplit]
          simp
        · have hsplit : failuresAndWaits (.sendMessage msg (some e) :: .wait (i + 1) none :: l)
              = none :: some (i + 1) :: failuresAndWaits l := by
            simp [failuresAndWaits]
          rw [hsplit, hfw]
          simp [List.range', List.flatMap]
        · have hsplit : requestedWaits (.sendMessage msg (some e) :: .wait (i + 1) none :: l)
              = (i + 1) :: requestedWaits l := by
            simp [requestedWaits]
          rw [hsplit, hrw]
          simp [List.range']

theorem drawnIdentifiers_append (l1 l2 : List (Effect V)) :
    drawnIdentifiers (l1 ++ l2) = drawnIdentifiers l1 ++ drawnIdentifiers l2 := by
  simp [drawnIdentifiers]

theorem requestedWaits_append (l1 l2 : List (Effect V)) :
    requestedWaits (l1 ++ l2) = requestedWaits l1 ++ requestedWaits l2 := by
  simp [requestedWaits]

/-- The tail after the retry loop sends nothing, draws nothing and waits for nothing. -/
theorem publishTail_quiet (env : Env V) (inp : datastructure.EventLog V) (w : World V)
    (jsonData : List UInt8) (res : Option GoError) :
    sentMessages (publishTail env inp w jsonData res) = [] ∧
    drawnIdentifiers (publishTail env inp w jsonData res) = [] ∧
    requestedWaits (publishTail env inp w jsonData res) = [] := by
  cases res with
  | none => simp [publishTail, sentMessages, drawnIdentifiers, requestedWaits]
  | some err =>
    cases hw : env.CreateEventLog w.writes (constructedEventLog env inp w) <;>
      simp [publishTail, hw, sentMessages, drawnIdentifiers, requestedWaits]

/-- The run after a successful lookup and a successful encoding, with the shape of the
effects `l` of its retry loop. -/
theorem createEventLog_publish_effects (env : Env V) (ctx : Context)
    (inp : datastructure.EventLog V) (w : World V) (jsonData : List UInt8)
    (hl : (env.GetEventByID w.lookups inp.EventID).2 = none)
    (hm : env.jsonMarshal (constructedEventLog env inp w) = .ok jsonData) :
    ∃ l res,
      runEffects env ctx inp w =
        constructionEffects env inp w ++ .generate (env.Generate (w.ids + 1)) :: l ++
          publishTail env inp w jsonData res ∧
      (EventService.CreateEventLog env ctx inp w).1 = publishResult env inp w res ∧
      (∀ m ∈ sentMessages l, m = publishedMessage env w jsonData) ∧
      drawnIdentifiers l = [] ∧
      1 ≤ (sentMessages l).length ∧ (sentMessages l).length ≤ 3 ∧
      ∃ m, m ≤ 3 ∧
        failuresAndWaits l = (List.range' 1 m).flatMap (fun k => [none, some k]) ∧
        requestedWaits l = List.range' 1 m := by
  obtain ⟨e1, q1⟩ := createEventLog_publish_path env ctx inp w jsonData hl hm
  rcases hr : util.WithRetry ctx 3 (producerSendMessage env (publishedMessage env w jsonData))
    (worldBeforePublish env inp w) with ⟨res, w5⟩
  obtain ⟨l, htr, hmsg, hids, hone, m, hm3, hfw, hrw⟩ :=
    loop_send_shape env ctx _ 3 0 none _ _ _ hr
  obtain ⟨l2, htr2, -, hlen, -, -⟩ := loop_send_trace env ctx _ 3 0 none _ _ _ hr
  have hll : l2 = l := by
    rw [htr] at htr2
    exact (List.append_cancel_left htr2).symm
  subst hll
  have heff : effectsSince (worldBeforePublish env inp w)
      (util.WithRetry ctx 3 (producerSendMessage env (publishedMessage env w jsonData))
        (worldBeforePublish env inp w)).2 = l2 := by
    apply effectsSince_of_trace_eq
    rw [hr]
    exact htr
  rw [heff, hr] at e1
  rw [hr] at q1
  exact ⟨l2, res, e1, q1, hmsg, hids, hone (by decide), hlen, m, hm3, hfw, hrw⟩

/-- C12: when lookup and encoding succeed, every message handed to the publisher is the
same one: topic "tracking", as value the bytes `json.Marshal` gave for the whole
constructed record, and as key the second identifier drawn in the call, the first
being the record's ID; at least one and at most three sends are made; and the key
differs from the record's ID when the generator never repeats an identifier. -/
theorem createEventLog_message_format (env : Env V) (ctx : Context)
    (inp : datastructure.EventLog V) (w : World V) (jsonData : List UInt8)
    (hl : (env.GetEventByID w.lookups inp.EventID).2 = none)
    (hm : env.jsonMarshal (constructedEventLog env inp w) = .ok jsonData) :
    (∀ m ∈ sentMessages (runEffects env ctx inp w),
      m = { Topic := "tracking", Key := env.Generate (w.ids + 1), Value := jsonData }) ∧
    1 ≤ (sentMessages (runEffects env ctx inp w)).length ∧
    (sentMessages (runEffects env ctx inp w)).length ≤ 3 ∧
    env.jsonMarshal
      { ID := env.Generate w.ids
        ApplicationID := inp.ApplicationID
        SessionID := inp.SessionID
        EventID := (env.GetEventByID w.lookups inp.EventID).1.ID
        PlatformID := inp.PlatformID
        Properties := inp.Properties
        CreatedAt := env.Now w.clockReads } = .ok jsonData ∧
    drawnIdentifiers (runEffects env ctx inp w)
      = [env.Generate w.ids, env.Generate (w.ids + 1)] ∧
    (Function.Injective env.Generate →
      env.Generate (w.ids + 1) ≠ (constructedEventLog env inp w).ID) := by
  obtain ⟨l, res, heff, -, hmsg, hids, hone, hlen, -⟩ :=
    createEventLog_publish_effects env ctx inp w jsonData hl hm
  obtain ⟨t1, t2, -⟩ := publishTail_quiet env inp w jsonData res
  have hsent : sentMessages (runEffects env ctx inp w) = sentMessages l := by
    rw [heff, sentMessages_append, sentMessages_append, t1]
    have hc : sentMessages (constructionEffects env inp w) = [] := by
      simp [sentMessages, constructionEffects]
    have hg : sentMessages (.generate (env.Generate (w.ids + 1)) :: l) = sentMessages l := by
      simp [sentMessages]
    rw [hc, hg]
    simp
  have hdrawn : drawnIdentifiers (runEffects env ctx inp w)
      = [env.Generate w.ids, env.Generate (w.ids + 1)] := by
    rw [heff, drawnIdentifiers_append, drawnIdentifiers_append, t2]
    have hc : drawnIdentifiers (constructionEffects env inp w) = [env.Generate w.ids] := by
      simp [drawnIdentifiers, constructionEffects]
    have hg : drawnIdentifiers (.generate (env.Generate (w.ids + 1)) :: l)
        = env.Generate (w.ids + 1) :: drawnIdentifiers l := by
      simp [drawnIdentifiers]
    rw [hc, hg, hids]
    simp
  refine ⟨?_, ?_, ?_, hm, hdrawn, ?_⟩
  · intro m hmem
    rw [hsent] at hmem
    exact hmsg m hmem
  · rw [hsent]
    exact hone
  · rw [hsent]
    exact hlen
  · intro hinj heq
    have : w.ids + 1 = w.ids := hinj heq
    omega

/-- C12, at a concrete input: the broker is down, so the message is sent three times. -/
theorem createEventLog_message_format_witness :
    sentMessages (runEffects brokerDownEnv background sampleInput (World.init Nat))
      = [{ Topic := "tracking", Key := "id-1", Value := [1, 2, 3] },
         { Topic := "tracking", Key := "id-1", Value := [1, 2, 3] },
         { Topic := "tracking", Key := "id-1", Value := [1, 2, 3] }] ∧
    drawnIdentifiers (runEffects brokerDownEnv background sampleInput (World.init Nat))
      = [brokerDownEnv.Generate (World.init Nat).ids,
         brokerDownEnv.Generate ((World.init Nat).ids + 1)] :=
  ⟨rfl, (createEventLog_message_format brokerDownEnv background sampleInput (World.init Nat)
    [1, 2, 3] rfl rfl).2.2.2.2.1⟩

/-- C13 as stated fails: the lookup fails with an error that is not record-not-found,
yet the error returned is `ErrorDuplicateKey`, not `ErrorInternalError`. -/
theorem createEventLog_lookup_error_not_always_internal :
    (∃ e, (lookupUniqueViolationEnv.GetEventByID (World.init Nat).lookups
        sampleInput.EventID).2 = some e ∧ errorsIs e .gormErrRecordNotFound = false) ∧
    (EventService.CreateEventLog lookupUniqueViolationEnv background sampleInput
        (World.init Nat)).1 = (none, some (.sentinel .ErrorDuplicateKey)) ∧
    (EventService.CreateEventLog lookupUniqueViolationEnv background sampleInput
        (World.init Nat)).1 ≠ (none, some (.sentinel .ErrorInternalError)) := by
  refine ⟨⟨_, rfl, rfl⟩, rfl, ?_⟩
  decide

/-- C13, amended: when the lookup fails with an error `e` that is not record-not-found,
the call returns no record and the error `WrapGormError` makes of `e`, which is
`ErrorInternalError` unless the text of `e` reports a unique violation (then it is
`ErrorDuplicateKey`); the lookup is the only effect: no identifier is drawn, no
publisher call and no persistence write is made. -/
theorem createEventLog_lookup_error_wrapped (env : Env V) (ctx : Context)
    (inp : datastructure.EventLog V) (w : World V) (e : GoError)
    (hl : (env.GetEventByID w.lookups inp.EventID).2 = some e)
    (hnf : errorsIs e .gormErrRecordNotFound = false) :
    (EventService.CreateEventLog env ctx inp w).1
      = (none, if errdefs.isUniqueViolation e then some (.sentinel .ErrorDuplicateKey)
               else some (.sentinel .ErrorInternalError)) ∧
    (errdefs.isUniqueViolation e = false →
      (EventService.CreateEventLog env ctx inp w).1
        = (none, some (.sentinel .ErrorInternalError))) ∧
    runEffects env ctx inp w
      = [.getEventByID inp.EventID (env.GetEventByID w.lookups inp.EventID).1 (some e)] ∧
    drawnIdentifiers (runEffects env ctx inp w) = [] ∧
    sentMessages (runEffects env ctx inp w) = [] ∧
    writtenRecords (runEffects env ctx inp w) = [] ∧
    (EventService.CreateEventLog env ctx inp w).2.ids = w.ids ∧
    (EventService.CreateEventLog env ctx inp w).2.sends = w.sends ∧
    (EventService.CreateEventLog env ctx inp w).2.writes = w.writes := by
  have heff := runEffects_of_lookup_error env ctx inp w e hl
  rcases hlk : env.GetEventByID w.lookups inp.EventID with ⟨ev, lerr⟩
  rw [hlk] at hl
  simp only at hl
  subst hl
  rw [heff, createEventLog_of_lookup_error env ctx inp w ev e hlk]
  refine ⟨?_, ?_, ?_, ?_, ?_, ?_, rfl, rfl, rfl⟩
  · simp [errdefs.WrapGormError, hnf]
  · intro hu
    simp [errdefs.WrapGormError, hnf, hu]
  · simp [hlk]
  · simp [drawnIdentifiers]
  · simp [sentMessages]
  · simp [writtenRecords]

/-- C13 amended, at a concrete input: the database cannot be reached. -/
theorem createEventLog_lookup_error_wrapped_witness :
    (EventService.CreateEventLog lookupDownEnv background sampleInput (World.init Nat)).1
      = (none, some (.sentinel .ErrorInternalError)) ∧
    drawnIdentifiers (runEffects lookupDownEnv background sampleInput (World.init Nat)) = [] :=
  have h := createEventLog_lookup_error_wrapped lookupDownEnv background sampleInput
    (World.init Nat) (.plain "dial tcp: connection refused") rfl rfl
  ⟨h.2.1 (by decide), h.2.2.2.1⟩

/-! ## `WithRetry` for an arbitrary operation -/

theorem worldBeforeCall_succ (ctx : Context) (fn : World V → Option GoError × World V)
    (i : Nat) (w : World V) (j : Nat) :
    util.worldBeforeCall ctx fn i w (j + 1)
      = util.worldBeforeCall ctx fn (i + 1) (selectDoneOrAfter ctx (i + 1) (fn w).2).2 j := rfl

/-- One round of the loop in which the call fails and the wait runs to its end. -/
theorem loop_failed_round (ctx : Context) (fn : World V → Option GoError × World V)
    (n i : Nat) (err : Option GoError) (w : World V)
    (hcall : (fn w).1 ≠ none)
    (hwait : (selectDoneOrAfter ctx (i + 1) (fn w).2).1 = none) :
    util.WithRetry.loop ctx fn (n + 1) i err w
      = util.WithRetry.loop ctx fn n (i + 1) (fn w).1
          (selectDoneOrAfter ctx (i + 1) (fn w).2).2 := by
  rcases hfn : fn w with ⟨r, w1⟩
  rw [hfn] at hcall hwait
  cases r with
  | none => exact absurd rfl hcall
  | some e =>
    rcases hsel : selectDoneOrAfter ctx (i + 1) w1 with ⟨c, w2⟩
    simp only at hwait
    rw [hsel] at hwait
    simp only at hwait
    subst hwait
    simp only [util.WithRetry.loop, hfn, hsel]

/-- The loop when call number `k + 1` is the first to return no error and the waits
before it ran to their end: the loop stops right after that call. -/
theorem loop_first_success (ctx : Context) (fn : World V → Option GoError × World V) :
    ∀ (k n i : Nat) (err : Option GoError) (w : World V), k < n →
      (∀ j, j < k → (fn (util.worldBeforeCall ctx fn i w j)).1 ≠ none ∧
        (selectDoneOrAfter ctx (i + j + 1) (fn (util.worldBeforeCall ctx fn i w j)).2).1
          = none) →
      (fn (util.worldBeforeCall ctx fn i w k)).1 = none →
      util.WithRetry.loop ctx fn n i err w
        = (none, (fn (util.worldBeforeCall ctx fn i w k)).2) := by
  intro k
  induction k with
  | zero =>
    intro n i err w hn _ hk
    cases n with
    | zero => omega
    | succ n =>
      simp only [util.worldBeforeCall] at hk ⊢
      rcases hfn : fn w with ⟨r, w1⟩
      rw [hfn] at hk
      simp only at hk
      subst hk
      simp only [util.WithRetry.loop, hfn]
  | succ k ih =>
    intro n i err w hn hfail hk
    cases n with
    | zero => omega
    | succ n =>
      obtain ⟨h0a, h0b⟩ := hfail 0 (by omega)
      simp only [util.worldBeforeCall, Nat.add_zero] at h0a h0b
      rw [loop_failed_round ctx fn n i err w h0a h0b]
      rw [worldBeforeCall_succ] at hk ⊢
      apply ih n (i + 1) _ _ (by omega) _ hk
      intro j hj
      have h := hfail (j + 1) (by omega)
      rw [worldBeforeCall_succ] at h
      have harith : i + (j + 1) + 1 = i + 1 + j + 1 := by omega
      rw [harith] at h
      exact h

/-- The loop when call number `k + 1` fails after `k` failed calls with completed
waits, and the context is cancelled during the wait that follows it: the loop stops
right after that wait with the context error. -/
theorem loop_cancelled (ctx : Context) (fn : World V → Option GoError × World V) :
    ∀ (k n i : Nat) (err : Option GoError) (w : World V) (ctxErr : GoError), k < n →
      (∀ j, j < k → (fn (util.worldBeforeCall ctx fn i w j)).1 ≠ none ∧
        (selectDoneOrAfter ctx (i + j + 1) (fn (util.worldBeforeCall ctx fn i w j)).2).1
          = none) →
      (fn (util.worldBeforeCall ctx fn i w k)).1 ≠ none →
      (selectDoneOrAfter ctx (i + k + 1) (fn (util.worldBeforeCall ctx fn i w k)).2).1
        = some ctxErr →
      util.WithRetry.loop ctx fn n i err w
        = (some ctxErr,
            (selectDoneOrAfter ctx (i + k + 1) (fn (util.worldBeforeCall ctx fn i w k)).2).2) := by
  intro k
  induction k with
  | zero =>
    intro n i err w ctxErr hn _ hk hc
    cases n with
    | zero => omega
    | succ n =>
      simp only [util.worldBeforeCall, Nat.add_zero] at hk hc ⊢
      rcases hfn : fn w with ⟨r, w1⟩
      rw [hfn] at hk hc
      cases r with
      | none => exact absurd rfl hk
      | some e =>
        rcases hsel : selectDoneOrAfter ctx (i + 1) w1 with ⟨c, w2⟩
        simp only at hc
        rw [hsel] at hc
        simp only at hc
        subst hc
        simp only [util.WithRetry.loop, hfn, hsel]
  | succ k ih =>
    intro n i err w ctxErr hn hfail hk hc
    cases n with
    | zero => omega
    | succ n =>
      obtain ⟨h0a, h0b⟩ := hfail 0 (by omega)
      simp only [util.worldBeforeCall, Nat.add_zero] at h0a h0b
      rw [loop_failed_round ctx fn n i err w h0a h0b]
      rw [worldBeforeCall_succ] at hk hc ⊢
      have harith : i + (k + 1) + 1 = i + 1 + k + 1 := by omega
      rw [harith] at hc ⊢
      apply ih n (i + 1) _ _ ctxErr (by omega) _ hk hc
      intro j hj
      have h := hfail (j + 1) (by omega)
      rw [worldBeforeCall_succ] at h
      have harith2 : i + (j + 1) + 1 = i + 1 + j + 1 := by omega
      rw [harith2] at h
      exact h

/-- The loop when all `n + 1` calls fail and every wait, the one after the last call
included, runs to its end: the loop returns the error of the last call. -/
theorem loop_all_fail (ctx : Context) (fn : World V → Option GoError × World V) :
    ∀ (n i : Nat) (err : Option GoError) (w : World V),
      (∀ j, j < n + 1 → (fn (util.worldBeforeCall ctx fn i w j)).1 ≠ none ∧
        (selectDoneOrAfter ctx (i + j + 1) (fn (util.worldBeforeCall ctx fn i w j)).2).1
          = none) →
      util.WithRetry.loop ctx fn (n + 1) i err w
        = ((fn (util.worldBeforeCall ctx fn i w n)).1,
            util.worldBeforeCall ctx fn i w (n + 1)) := by
  intro n
  induction n with
  | zero =>
    intro i err w hfail
    obtain ⟨h0a, h0b⟩ := hfail 0 (by omega)
    simp only [util.worldBeforeCall, Nat.add_zero] at h0a h0b ⊢
    rw [loop_failed_round ctx fn 0 i err w h0a h0b]
    simp only [util.WithRetry.loop]
  | succ n ih =>
    intro i err w hfail
    obtain ⟨h0a, h0b⟩ := hfail 0 (by omega)
    simp only [util.worldBeforeCall, Nat.add_zero] at h0a h0b
    rw [loop_failed_round ctx fn (n + 1) i err w h0a h0b]
    rw [worldBeforeCall_succ ctx fn i w n, worldBeforeCall_succ ctx fn i w (n + 1)]
    apply ih (i + 1)
    intro j hj
    have h := hfail (j + 1) (by omega)
    rw [worldBeforeCall_succ] at h
    have harith2 : i + (j + 1) + 1 = i + 1 + j + 1 := by omega
    rw [harith2] at h
    exact h

/-- An operation that counts its calls has been called `j` times before call `j + 1`. -/
theorem worldBeforeCall_sends (ctx : Context) (fn : World V → Option GoError × World V)
    (hcount : ∀ w0, (fn w0).2.sends = w0.sends + 1) :
    ∀ (j i : Nat) (w : World V), (util.worldBeforeCall ctx fn i w j).sends = w.sends + j := by
  intro j
  induction j with
  | zero => intro i w; rfl
  | succ j ih =>
    intro i w
    rw [worldBeforeCall_succ, ih]
    simp only [selectDoneOrAfter, hcount]
    omega

/-- An operation that counts its calls is called at most `n` times by a loop of `n`
rounds. -/
theorem loop_calls_le (ctx : Context) (fn : World V → Option GoError × World V)
    (hcount : ∀ w0, (fn w0).2.sends = w0.sends + 1) :
    ∀ (n i : Nat) (err : Option GoError) (w : World V),
      (util.WithRetry.loop ctx fn n i err w).2.sends ≤ w.sends + n := by
  intro n
  induction n with
  | zero => intro i err w; simp [util.WithRetry.loop]
  | succ n ih =>
    intro i err w
    have hc := hcount w
    rcases hfn : fn w with ⟨r, w1⟩
    rw [hfn] at hc
    simp only at hc
    cases r with
    | none =>
      simp only [util.WithRetry.loop, hfn, hc]
      omega
    | some e =>
      rcases hsel : selectDoneOrAfter ctx (i + 1) w1 with ⟨c, w2⟩
      have hw2 : w2.sends = w1.sends := by
        have := congrArg (fun p => p.2.sends) hsel
        simpa [selectDoneOrAfter] using this.symm
      cases c with
      | some ce =>
        simp only [util.WithRetry.loop, hfn, hsel, hw2, hc]
        omega
      | none =>
        simp only [util.WithRetry.loop, hfn, hsel]
        have := ih (i + 1) (some e) w2
        omega

theorem withRetry_natCast (ctx : Context) (fn : World V → Option GoError × World V)
    (n : Nat) (w : World V) :
    util.WithRetry ctx (n : Int) fn w = util.WithRetry.loop ctx fn n 0 none w := by
  simp [util.WithRetry]

/-- C14: `WithRetry` is a total function, so it returns for every context, operation
and `maxAttempts`. An operation that counts its calls (each call adds one to the send
counter) has been called at most `maxAttempts` times when `WithRetry` returns. When
call number `k + 1`, with `k < maxAttempts`, is the first to return no error and the
context is not cancelled during the `k` waits before it, `WithRetry` returns nil in
the world right after that call, having made exactly `k + 1` calls. -/
theorem withRetry_at_most_maxAttempts_calls (ctx : Context)
    (fn : World V → Option GoError × World V) (maxAttempts : Nat) (w : World V)
    (hcount : ∀ w0, (fn w0).2.sends = w0.sends + 1) :
    (util.WithRetry ctx (maxAttempts : Int) fn w).2.sends ≤ w.sends + maxAttempts ∧
    (∀ k, k < maxAttempts →
      (∀ j, j < k → (fn (util.worldBeforeCall ctx fn 0 w j)).1 ≠ none ∧
        (selectDoneOrAfter ctx (j + 1) (fn (util.worldBeforeCall ctx fn 0 w j)).2).1 = none) →
      (fn (util.worldBeforeCall ctx fn 0 w k)).1 = none →
      util.WithRetry ctx (maxAttempts : Int) fn w
          = (none, (fn (util.worldBeforeCall ctx fn 0 w k)).2) ∧
        (util.WithRetry ctx (maxAttempts : Int) fn w).2.sends = w.sends + (k + 1)) := by
  rw [withRetry_natCast]
  refine ⟨loop_calls_le ctx fn hcount maxAttempts 0 none w, ?_⟩
  intro k hk hfail hsucc
  have hfail2 : ∀ j, j < k → (fn (util.worldBeforeCall ctx fn 0 w j)).1 ≠ none ∧
      (selectDoneOrAfter ctx (0 + j + 1) (fn (util.worldBeforeCall ctx fn 0 w j)).2).1
        = none := by
    intro j hj
    rw [Nat.zero_add]
    exact hfail j hj
  have h := loop_first_success ctx fn k maxAttempts 0 none w hk hfail2 hsucc
  refine ⟨h, ?_⟩
  rw [h]
  simp only
  rw [hcount, worldBeforeCall_sends ctx fn hcount]
  omega

/-- C14, at a concrete input: a broker that accepts the third send, three attempts. -/
theorem withRetry_at_most_maxAttempts_calls_witness :
    (util.WithRetry background ((3 : Nat) : Int)
        (producerSendMessage flakyBrokerEnv sampleMessage) (World.init Nat)).1 = none ∧
    (util.WithRetry background ((3 : Nat) : Int)
        (producerSendMessage flakyBrokerEnv sampleMessage) (World.init Nat)).2.sends = 3 :=
  have h := (withRetry_at_most_maxAttempts_calls background
    (producerSendMessage flakyBrokerEnv sampleMessage) 3 (World.init Nat)
    (fun _ => rfl)).2 2 (by decide)
    (fun j hj => by
      have hj2 : j = 0 ∨ j = 1 := by omega
      rcases hj2 with rfl | rfl
      · exact ⟨by decide, rfl⟩
      · exact ⟨by decide, rfl⟩)
    rfl
  ⟨by rw [h.1], by rw [h.2]; rfl⟩

/-- C16: when call number `k + 1` of the operation fails (after `k` failed calls with
completed waits) and the context is cancelled during the wait that follows,
`WithRetry` returns the context error, not the error of the operation, in the world
right after that wait: an operation that counts its calls has been called exactly
`k + 1` times, so it is not called again. -/
theorem withRetry_cancelled_returns_ctx_err (ctx : Context)
    (fn : World V → Option GoError × World V) (maxAttempts k : Nat) (w : World V)
    (ctxErr : GoError) (hk : k < maxAttempts)
    (hcount : ∀ w0, (fn w0).2.sends = w0.sends + 1)
    (hfail : ∀ j, j < k → (fn (util.worldBeforeCall ctx fn 0 w j)).1 ≠ none ∧
      (selectDoneOrAfter ctx (j + 1) (fn (util.worldBeforeCall ctx fn 0 w j)).2).1 = none)
    (hcall : (fn (util.worldBeforeCall ctx fn 0 w k)).1 ≠ none)
    (hcancel : (selectDoneOrAfter ctx (k + 1) (fn (util.worldBeforeCall ctx fn 0 w k)).2).1
      = some ctxErr) :
    util.WithRetry ctx (maxAttempts : Int) fn w
      = (some ctxErr,
          (selectDoneOrAfter ctx (k + 1) (fn (util.worldBeforeCall ctx fn 0 w k)).2).2) ∧
    (util.WithRetry ctx (maxAttempts : Int) fn w).2.sends = w.sends + (k + 1) := by
  rw [withRetry_natCast]
  have hfail2 : ∀ j, j < k → (fn (util.worldBeforeCall ctx fn 0 w j)).1 ≠ none ∧
      (selectDoneOrAfter ctx (0 + j + 1) (fn (util.worldBeforeCall ctx fn 0 w j)).2).1
        = none := by
    intro j hj
    rw [Nat.zero_add]
    exact hfail j hj
  have hcancel2 : (selectDoneOrAfter ctx (0 + k + 1)
      (fn (util.worldBeforeCall ctx fn 0 w k)).2).1 = some ctxErr := by
    rw [Nat.zero_add]
    exact hcancel
  have h := loop_cancelled ctx fn k maxAttempts 0 none w ctxErr hk hfail2 hcall hcancel2
  rw [Nat.zero_add] at h
  refine ⟨h, ?_⟩
  rw [h]
  simp only [selectDoneOrAfter]
  rw [hcount, worldBeforeCall_sends ctx fn hcount]
  omega

/-- C16, at a concrete input: the broker is down and the context is cancelled during
the first wait. -/
theorem withRetry_cancelled_returns_ctx_err_witness :
    (util.WithRetry cancelledContext ((3 : Nat) : Int)
        (producerSendMessage brokerDownEnv sampleMessage) (World.init Nat)).1
      = some (.sentinel .contextCanceled) ∧
    (util.WithRetry cancelledContext ((3 : Nat) : Int)
        (producerSendMessage brokerDownEnv sampleMessage) (World.init Nat)).2.sends = 1 :=
  have h := withRetry_cancelled_returns_ctx_err cancelledContext
    (producerSendMessage brokerDownEnv sampleMessage) 3 0 (World.init Nat)
    (.sentinel .contextCanceled) (by decide) (fun _ => rfl)
    (fun j hj => absurd hj (Nat.not_lt_zero j)) (by decide) rfl
  ⟨by rw [h.1], by rw [h.2]; rfl⟩

/-- C17 as stated fails: all three calls are made and fail, the context is cancelled
during the wait after the last of them, and `WithRetry` returns the context error, not
the error of the last call. -/
theorem withRetry_last_error_not_for_every_context :
    sentMessages (util.WithRetry lateCancelContext 3
        (producerSendMessage brokerDownEnv sampleMessage) (World.init Nat)).2.trace
      = [sampleMessage, sampleMessage, sampleMessage] ∧
    (∀ k, brokerDownEnv.SendMessage k sampleMessage
      = some (.plain "kafka: broker not available")) ∧
    (util.WithRetry lateCancelContext 3
        (producerSendMessage brokerDownEnv sampleMessage) (World.init Nat)).1
      = some (.sentinel .contextCanceled) ∧
    (util.WithRetry lateCancelContext 3
        (producerSendMessage brokerDownEnv sampleMessage) (World.init Nat)).1
      ≠ some (.plain "kafka: broker not available") := by
  refine ⟨rfl, fun _ => rfl, rfl, ?_⟩
  decide

/-- C17, amended: for every `maxAttempts ≥ 1`, when all `maxAttempts` calls of the
operation return an error and the context is cancelled during none of the waits, the
one after the last call included, `WithRetry` returns the error of the last call. -/
theorem withRetry_returns_last_error (ctx : Context)
    (fn : World V → Option GoError × World V) (maxAttempts : Nat) (w : World V)
    (hpos : 1 ≤ maxAttempts)
    (hfail : ∀ j, j < maxAttempts → (fn (util.worldBeforeCall ctx fn 0 w j)).1 ≠ none ∧
      (selectDoneOrAfter ctx (j + 1) (fn (util.worldBeforeCall ctx fn 0 w j)).2).1 = none) :
    (util.WithRetry ctx (maxAttempts : Int) fn w).1
      = (fn (util.worldBeforeCall ctx fn 0 w (maxAttempts - 1))).1 ∧
    (util.WithRetry ctx (maxAttempts : Int) fn w).1 ≠ none ∧
    (util.WithRetry ctx (maxAttempts : Int) fn w).2
      = util.worldBeforeCall ctx fn 0 w maxAttempts := by
  rw [withRetry_natCast]
  obtain ⟨n, rfl⟩ : ∃ n, maxAttempts = n + 1 := ⟨maxAttempts - 1, by omega⟩
  have hfail2 : ∀ j, j < n + 1 → (fn (util.worldBeforeCall ctx fn 0 w j)).1 ≠ none ∧
      (selectDoneOrAfter ctx (0 + j + 1) (fn (util.worldBeforeCall ctx fn 0 w j)).2).1
        = none := by
    intro j hj
    rw [Nat.zero_add]
    exact hfail j hj
  rw [loop_all_fail ctx fn n 0 none w hfail2]
  exact ⟨rfl, (hfail n (by omega)).1, rfl⟩

/-- C17 amended, at a concrete input: the broker is down, the context is never
cancelled. -/
theorem withRetry_returns_last_error_witness :
    (util.WithRetry background ((3 : Nat) : Int)
        (producerSendMessage brokerDownEnv sampleMessage) (World.init Nat)).1
      = some (.plain "kafka: broker not available") :=
  (withRetry_returns_last_error background (producerSendMessage brokerDownEnv sampleMessage)
    3 (World.init Nat) (by decide)
    (fun j hj => by
      have hj2 : j = 0 ∨ j = 1 ∨ j = 2 := by omega
      rcases hj2 with rfl | rfl | rfl
      · exact ⟨by decide, rfl⟩
      · exact ⟨by decide, rfl⟩
      · exact ⟨by decide, rfl⟩)).1

/-- C15: in the retry loop around the publisher the failed sends and the waits
alternate, and the wait after the `k`-th failed send asks for exactly `k` seconds: the
waits requested are `1, 2, ..., m` for some `m ≤ maxAttempts`. In every execution of
`CreateEventLog` the waits requested are an initial part of `1, 2, 3`, so their sum
is at most 6 seconds. -/
theorem retry_waits_count_up_from_one (env : Env V) (ctx : Context) (msg : ProducerMessage)
    (maxAttempts : Nat) (inp : datastructure.EventLog V) (w : World V) :
    (∃ m, m ≤ maxAttempts ∧
      failuresAndWaits (effectsSince w
          (util.WithRetry ctx (maxAttempts : Int) (producerSendMessage env msg) w).2)
        = (List.range' 1 m).flatMap (fun k => [none, some k]) ∧
      requestedWaits (effectsSince w
          (util.WithRetry ctx (maxAttempts : Int) (producerSendMessage env msg) w).2)
        = List.range' 1 m) ∧
    (∃ m, m ≤ 3 ∧ requestedWaits (runEffects env ctx inp w) = List.range' 1 m) ∧
    (requestedWaits (runEffects env ctx inp w)).sum ≤ 6 := by
  have hloop : ∃ m, m ≤ maxAttempts ∧
      failuresAndWaits (effectsSince w
          (util.WithRetry ctx (maxAttempts : Int) (producerSendMessage env msg) w).2)
        = (List.range' 1 m).flatMap (fun k => [none, some k]) ∧
      requestedWaits (effectsSince w
          (util.WithRetry ctx (maxAttempts : Int) (producerSendMessage env msg) w).2)
        = List.range' 1 m := by
    rw [withRetry_natCast]
    rcases hr : util.WithRetry.loop ctx (producerSendMessage env msg) maxAttempts 0 none w
      with ⟨res, w2⟩
    obtain ⟨l, htr, -, -, -, m, hm, hfw, hrw⟩ :=
      loop_send_shape env ctx msg maxAttempts 0 none w res w2 hr
    have heff : effectsSince w w2 = l := effectsSince_of_trace_eq w w2 l htr
    simp only
    rw [heff]
    exact ⟨m, hm, hfw, hrw⟩
  have hrun : ∃ m, m ≤ 3 ∧ requestedWaits (runEffects env ctx inp w) = List.range' 1 m := by
    cases hl : (env.GetEventByID w.lookups inp.EventID).2 with
    | some e =>
      rw [runEffects_of_lookup_error env ctx inp w e hl]
      exact ⟨0, by omega, by simp [requestedWaits]⟩
    | none =>
      cases hm : env.jsonMarshal (constructedEventLog env inp w) with
      | error me =>
        refine ⟨0, by omega, ?_⟩
        unfold runEffects
        rw [effectsSince_of_trace_eq w _ _
          (by rw [createEventLog_of_marshal_error env ctx inp w me hl hm])]
        simp [requestedWaits, constructionEffects]
      | ok jsonData =>
        obtain ⟨l, res, heff, -, -, -, -, -, m, hm3, -, hrw⟩ :=
          createEventLog_publish_effects env ctx inp w jsonData hl hm
        obtain ⟨-, -, t3⟩ := publishTail_quiet env inp w jsonData res
        refine ⟨m, hm3, ?_⟩
        rw [heff, requestedWaits_append, requestedWaits_append, t3]
        have hc : requestedWaits (constructionEffects env inp w) = [] := by
          simp [requestedWaits, constructionEffects]
        have hg : requestedWaits (.generate (env.Generate (w.ids + 1)) :: l)
            = requestedWaits l := by
          simp [requestedWaits]
        rw [hc, hg, hrw]
        simp
  refine ⟨hloop, hrun, ?_⟩
  obtain ⟨m, hm3, hrw⟩ := hrun
  rw [hrw]
  have hm4 : m = 0 ∨ m = 1 ∨ m = 2 ∨ m = 3 := by omega
  rcases hm4 with rfl | rfl | rfl | rfl <;> decide

/-- C15, at a concrete input: with the broker down the waits are 1, 2 and 3 seconds,
six seconds in all. -/
theorem retry_waits_count_up_from_one_witness :
    requestedWaits (runEffects brokerDownEnv background sampleInput (World.init Nat))
      = [1, 2, 3] ∧
    (requestedWaits (runEffects brokerDownEnv background sampleInput (World.init Nat))).sum
      ≤ 6 :=
  ⟨rfl, (retry_waits_count_up_from_one brokerDownEnv background sampleMessage 3 sampleInput
    (World.init Nat)).2.2⟩

/-! ## Claims on the HTTP layer -/

/-- C18: every route of `TenantRoutes.RegisterRoutes` lies under `/tenant` behind
`TenantAuthMiddleware`. The middleware hands the request to the rest of the chain
exactly when the `x-api-key` header is non-empty and `ValidateAPIKey` resolves it to
an application: the handler then runs on the context in which `tenant_application_id`
and `tenant_id` hold that application's ID and TenantID, the rest of the context
unchanged. In every other case the answer is 401 whatever the handler is, and the
world is untouched: the handler does not run. -/
theorem tenantAuthMiddleware_admits_iff_key_valid
    (ValidateAPIKey : String → Except GoError model.Application)
    (next : GinContext V → World V → Response V × World V) (c : GinContext V) (w : World V) :
    (∀ r ∈ TenantRoutes.RegisterRoutes,
      r.middlewares = [.TenantAuthMiddleware] ∧ (pathSegments r.path).take 2 = ["", "tenant"]) ∧
    (∀ application, c.Header "x-api-key" ≠ "" →
      ValidateAPIKey (c.Header "x-api-key") = .ok application →
      TenantAuthMiddleware ValidateAPIKey next c w =
          next ((c.Set TenantApplicationIDKey (.str application.ID)).Set TenantIDKey
            (.str application.TenantID)) w ∧
        ((c.Set TenantApplicationIDKey (.str application.ID)).Set TenantIDKey
            (.str application.TenantID)).GetString "tenant_application_id" = application.ID ∧
        ((c.Set TenantApplicationIDKey (.str application.ID)).Set TenantIDKey
            (.str application.TenantID)).GetString "tenant_id" = application.TenantID ∧
        ((c.Set TenantApplicationIDKey (.str application.ID)).Set TenantIDKey
            (.str application.TenantID)).Header = c.Header ∧
        ((c.Set TenantApplicationIDKey (.str application.ID)).Set TenantIDKey
            (.str application.TenantID)).Params = c.Params ∧
        ((c.Set TenantApplicationIDKey (.str application.ID)).Set TenantIDKey
            (.str application.TenantID)).body = c.body) ∧
    ((c.Header "x-api-key" = "" ∨ ∃ err, ValidateAPIKey (c.Header "x-api-key") = .error err) →
      TenantAuthMiddleware ValidateAPIKey next c w = (.json 401 .unauthorized, w)) ∧
    (TenantAuthMiddleware ValidateAPIKey next c w = (.json 401 .unauthorized, w) ∨
      ∃ application, c.Header "x-api-key" ≠ "" ∧
        ValidateAPIKey (c.Header "x-api-key") = .ok application ∧
        TenantAuthMiddleware ValidateAPIKey next c w =
          next ((c.Set TenantApplicationIDKey (.str application.ID)).Set TenantIDKey
            (.str application.TenantID)) w) := by
  have hpass : ∀ application, c.Header "x-api-key" ≠ "" →
      ValidateAPIKey (c.Header "x-api-key") = .ok application →
      TenantAuthMiddleware ValidateAPIKey next c w =
        next ((c.Set TenantApplicationIDKey (.str application.ID)).Set TenantIDKey
          (.str application.TenantID)) w := by
    intro application hkey hvalid
    simp only [TenantAuthMiddleware, hkey, if_false, hvalid]
  have hreject : (c.Header "x-api-key" = "" ∨
      ∃ err, ValidateAPIKey (c.Header "x-api-key") = .error err) →
      TenantAuthMiddleware ValidateAPIKey next c w = (.json 401 .unauthorized, w) := by
    rintro (hempty | ⟨err, herr⟩)
    · simp only [TenantAuthMiddleware, hempty, if_true]
    · by_cases hkey : c.Header "x-api-key" = ""
      · simp only [TenantAuthMiddleware, hkey, if_true]
      · simp only [TenantAuthMiddleware, hkey, if_false, herr]
  refine ⟨by decide, ?_, hreject, ?_⟩
  · intro application hkey hvalid
    refine ⟨hpass application hkey hvalid, getString_after_middleware c _ _, ?_, rfl, rfl, rfl⟩
    simp [GinContext.GetString, GinContext.Get, GinContext.Set, List.lookup, TenantIDKey]
  · by_cases hkey : c.Header "x-api-key" = ""
    · exact Or.inl (hreject (Or.inl hkey))
    · cases hvalid : ValidateAPIKey (c.Header "x-api-key") with
      | error err => exact Or.inl (hreject (Or.inr ⟨err, hvalid⟩))
      | ok application => exact Or.inr ⟨application, hkey, rfl, hpass application hkey hvalid⟩

/-- C18, at concrete requests: with the key `key-1` the handler runs and sees the ids of
the application; without a key, or with an unknown key, the answer is 401 and the
handler leaves no line in the log. -/
theorem tenantAuthMiddleware_admits_iff_key_valid_witness :
    TenantAuthMiddleware sampleValidateAPIKey markingHandler sampleContext (World.init Nat)
      = (.json 200 (.baseResponse true "app-1" none),
          logErrorf "handler ran" (.plain "tenant-1") (World.init Nat)) ∧
    TenantAuthMiddleware sampleValidateAPIKey markingHandler
        { sampleContext with Header := fun _ => "" } (World.init Nat)
      = (.json 401 .unauthorized, World.init Nat) ∧
    TenantAuthMiddleware sampleValidateAPIKey markingHandler
        { sampleContext with Header := fun _ => "key-2" } (World.init Nat)
      = (.json 401 .unauthorized, World.init Nat) :=
  ⟨by
    rw [((tenantAuthMiddleware_admits_iff_key_valid sampleValidateAPIKey markingHandler
      sampleContext (World.init Nat)).2.1 sampleApplication (by decide) rfl).1]
    rfl,
   (tenantAuthMiddleware_admits_iff_key_valid sampleValidateAPIKey markingHandler
      { sampleContext with Header := fun _ => "" } (World.init Nat)).2.2.1 (Or.inl rfl),
   (tenantAuthMiddleware_admits_iff_key_valid sampleValidateAPIKey markingHandler
      { sampleContext with Header := fun _ => "key-2" } (World.init Nat)).2.2.1
      (Or.inr ⟨.sentinel .gormErrRecordNotFound, rfl⟩)⟩

/-- C19: `BaseHandler.ErrorResponse` answers 404 for `ErrorNotFound`, 409 for
`ErrorDuplicateKey`, 400 for `ErrorInvalidRequest`, 401 for `ErrorUnauthorized`, 403
for `ErrorForbidden` and 500 for every other error; in every case the body has
success=false, the message of the error and no details. -/
theorem errorResponse_status_by_error (w : World V) :
    (BaseHandler.ErrorResponse (.sentinel .ErrorNotFound) w).1
      = (.json 404 (.errorResponseWithCode false "not found" none) : Response V) ∧
    (BaseHandler.ErrorResponse (.sentinel .ErrorDuplicateKey) w).1
      = (.json 409 (.errorResponseWithCode false "duplicate key" none) : Response V) ∧
    (BaseHandler.ErrorResponse (.sentinel .ErrorInvalidRequest) w).1
      = (.json 400 (.errorResponseWithCode false "invalid request" none) : Response V) ∧
    (BaseHandler.ErrorResponse (.sentinel .ErrorUnauthorized) w).1
      = (.json 401 (.errorResponseWithCode false "unauthorized" none) : Response V) ∧
    (BaseHandler.ErrorResponse (.sentinel .ErrorForbidden) w).1
      = (.json 403 (.errorResponseWithCode false "forbidden" none) : Response V) ∧
    (∀ cause : GoError,
      cause ≠ .sentinel .ErrorNotFound → cause ≠ .sentinel .ErrorDuplicateKey →
      cause ≠ .sentinel .ErrorInvalidRequest → cause ≠ .sentinel .ErrorUnauthorized →
      cause ≠ .sentinel .ErrorForbidden →
      (BaseHandler.ErrorResponse cause w).1
        = (.json 500 (.errorResponseWithCode false cause.Error none) : Response V)) ∧
    (∀ cause : GoError, ∃ status,
      (BaseHandler.ErrorResponse cause w).1
        = (.json status (.errorResponseWithCode false cause.Error none) : Response V)) := by
  have hother : ∀ cause : GoError,
      cause ≠ .sentinel .ErrorNotFound → cause ≠ .sentinel .ErrorDuplicateKey →
      cause ≠ .sentinel .ErrorInvalidRequest → cause ≠ .sentinel .ErrorUnauthorized →
      cause ≠ .sentinel .ErrorForbidden →
      (BaseHandler.ErrorResponse cause w).1
        = (.json 500 (.errorResponseWithCode false cause.Error none) : Response V) := by
    intro cause h1 h2 h3 h4 h5
    cases cause with
    | plain msg => rfl
    | wrap pre inner => rfl
    | sentinel s =>
      cases s
      case ErrorNotFound => exact absurd rfl h1
      case ErrorDuplicateKey => exact absurd rfl h2
      case ErrorInvalidRequest => exact absurd rfl h3
      case ErrorUnauthorized => exact absurd rfl h4
      case ErrorForbidden => exact absurd rfl h5
      all_goals rfl
  refine ⟨rfl, rfl, rfl, rfl, rfl, hother, ?_⟩
  intro cause
  cases cause with
  | plain msg => exact ⟨500, rfl⟩
  | wrap pre inner => exact ⟨500, rfl⟩
  | sentinel s =>
    cases s
    case ErrorNotFound => exact ⟨404, rfl⟩
    case ErrorDuplicateKey => exact ⟨409, rfl⟩
    case ErrorInvalidRequest => exact ⟨400, rfl⟩
    case ErrorUnauthorized => exact ⟨401, rfl⟩
    case ErrorForbidden => exact ⟨403, rfl⟩
    all_goals exact ⟨500, rfl⟩

/-- C19, at concrete errors: `ErrorInternalError` and a driver error are answered
with 500. -/
theorem errorResponse_status_by_error_witness :
    (BaseHandler.ErrorResponse (.sentinel .ErrorInternalError) (World.init Nat)).1
      = .json 500 (.errorResponseWithCode false "internal error" none) ∧
    (BaseHandler.ErrorResponse (.plain "dial tcp: connection refused") (World.init Nat)).1
      = .json 500 (.errorResponseWithCode false "dial tcp: connection refused" none) :=
  ⟨(errorResponse_status_by_error (World.init Nat)).2.2.2.2.2.1 (.sentinel .ErrorInternalError)
      (by decide) (by decide) (by decide) (by decide) (by decide),
   (errorResponse_status_by_error (World.init Nat)).2.2.2.2.2.1
      (.plain "dial tcp: connection refused")
      (by decide) (by decide) (by decide) (by decide) (by decide)⟩

/-- C20, the code at the documented route: `CreateEventLog` is registered once, for
POST on `/tenant/events/:event_id/logs`; a POST on the documented path
`/tenant/events/{event_id}/event_logs` matches no registered route, and the
documented pattern does not match the path the handler is served on. -/
theorem createEventLog_route_differs_from_documentation :
    (TenantRoutes.RegisterRoutes.filter (fun r => r.handler = .CreateEventLog)).map
        (fun r => (r.method, r.path))
      = [("POST", "/tenant/events/:event_id/logs")] ∧
    TenantHandler.CreateEventLog.documentedRoute
      = ("POST", "/tenant/events/{event_id}/event_logs") ∧
    (findRoute TenantRoutes.RegisterRoutes "POST" "/tenant/events/42/event_logs").map
        (fun r => r.handler) = none ∧
    (findRoute TenantRoutes.RegisterRoutes "POST" "/tenant/events/42/logs").map
        (fun r => r.handler) = some .CreateEventLog ∧
    segmentsMatch (pathSegments TenantHandler.CreateEventLog.documentedRoute.2)
        (pathSegments "/tenant/events/42/logs") = false := by
  refine ⟨by decide, rfl, by decide, by decide, by decide⟩

/-! ## Claims on the edges of `WithRetry` -/

/-- Twice the sum of `1, 2, ..., n`. -/
theorem two_mul_sum_range_one (n : Nat) : 2 * (List.range' 1 n).sum = n * (n + 1) := by
  induction n with
  | zero => simp
  | succ n ih =>
    rw [List.range'_concat, List.sum_append]
    simp only [List.sum_singleton, Nat.mul_add, ih]
    ring

/-- The retry loop around the publisher when all `n` sends fail and the context is
never cancelled: `n` sends, each followed by a wait, the waits asking for
`i + 1, ..., i + n` seconds. -/
theorem loop_send_all_fail_shape (env : Env V) (ctx : Context) (msg : ProducerMessage)
    (hctx : ∀ k d, ctx.doneDuring k d = none) :
    ∀ (n i : Nat) (err : Option GoError) (w : World V),
      (∀ k, k < n → env.SendMessage (w.sends + k) msg ≠ none) →
      ∃ l, (util.WithRetry.loop ctx (producerSendMessage env msg) n i err w).2.trace
            = w.trace ++ l ∧
        requestedWaits l = List.range' (i + 1) n ∧
        (sentMessages l).length = n ∧
        failuresAndWaits l = (List.range' (i + 1) n).flatMap (fun k => [none, some k]) ∧
        writtenRecords l = [] := by
  intro n
  induction n with
  | zero =>
    intro i err w _
    exact ⟨[], by simp [util.WithRetry.loop], by simp [requestedWaits],
      by simp [sentMessages], by simp [failuresAndWaits], by simp [writtenRecords]⟩
  | succ n ih =>
    intro i err w hfail
    have h0 := hfail 0 (by omega)
    rw [Nat.add_zero] at h0
    obtain ⟨e, he⟩ := Option.ne_none_iff_exists'.mp h0
    have hrest : ∀ k, k < n → env.SendMessage (w.sends + 1 + k) msg ≠ none := by
      intro k hk
      have := hfail (k + 1) (by omega)
      have harith : w.sends + (k + 1) = w.sends + 1 + k := by omega
      rw [harith] at this
      exact this
    obtain ⟨l, hl, hrw, hsm, hfw, hwr⟩ := ih (i + 1) (some e)
      { w with sends := w.sends + 1, waits := w.waits + 1,
               trace := w.trace ++ [.sendMessage msg (some e)] ++ [.wait (i + 1) none] }
      hrest
    refine ⟨.sendMessage msg (some e) :: .wait (i + 1) none :: l, ?_, ?_, ?_, ?_, ?_⟩
    · simp only [util.WithRetry.loop, producerSendMessage, selectDoneOrAfter, he, hctx]
      rw [hl]
      simp
    · have hsplit : requestedWaits (.sendMessage msg (some e) :: .wait (i + 1) none :: l)
          = (i + 1) :: requestedWaits l := by
        simp [requestedWaits]
      rw [hsplit, hrw]
      simp [List.range']
    · have hsplit : sentMessages (.sendMessage msg (some e) :: .wait (i + 1) none :: l)
          = msg :: sentMessages l := by
        simp [sentMessages]
      rw [hsplit, List.length_cons, hsm]
    · have hsplit : failuresAndWaits (.sendMessage msg (some e) :: .wait (i + 1) none :: l)
          = none :: some (i + 1) :: failuresAndWaits l := by
        simp [failuresAndWaits]
      rw [hsplit, hfw]
      simp [List.range', List.flatMap]
    · have hsplit : writtenRecords (.sendMessage msg (some e) :: .wait (i + 1) none :: l)
          = writtenRecords l := by
        simp [writtenRecords]
      rw [hsplit, hwr]

/-- C24: for every `maxRetries ≤ 0`, every context, every operation and every world,
`WithRetry` returns nil and leaves the world as it was: the result does not depend
on the operation, which is never called. -/
theorem withRetry_nonpositive_returns_nil (ctx : Context)
    (fn : World V → Option GoError × World V) (maxRetries : Int) (w : World V)
    (hmax : maxRetries ≤ 0) :
    util.WithRetry ctx maxRetries fn w = (none, w) := by
  have h0 : maxRetries.toNat = 0 := Int.toNat_eq_zero.mpr hmax
  simp [util.WithRetry, h0, util.WithRetry.loop]

/-- C24, at concrete inputs: zero and minus one retries around a broker that is down. -/
theorem withRetry_nonpositive_returns_nil_witness :
    util.WithRetry background 0 (producerSendMessage brokerDownEnv sampleMessage)
        (World.init Nat) = (none, World.init Nat) ∧
    util.WithRetry background (-1) (producerSendMessage brokerDownEnv sampleMessage)
        (World.init Nat) = (none, World.init Nat) :=
  ⟨withRetry_nonpositive_returns_nil background
      (producerSendMessage brokerDownEnv sampleMessage) 0 (World.init Nat) (by decide),
   withRetry_nonpositive_returns_nil background
      (producerSendMessage brokerDownEnv sampleMessage) (-1) (World.init Nat) (by decide)⟩

/-- C23: with a context that is never cancelled, when all `maxRetries` sends fail the
loop waits after every one of them, the last included: `maxRetries` waits of
`1, ..., maxRetries` seconds, `maxRetries * (maxRetries + 1) / 2` seconds in all. In
`CreateEventLog` with a broker that rejects all three sends the waits are 1, 2 and 3
seconds, 6 in all, and the fallback write comes after the third wait. -/
theorem withRetry_waits_after_last_failure (env : Env V) (ctx : Context)
    (msg : ProducerMessage) (maxRetries : Nat) (inp : datastructure.EventLog V) (w : World V)
    (jsonData : List UInt8) (hctx : ∀ k d, ctx.doneDuring k d = none) :
    ((∀ k, k < maxRetries → env.SendMessage (w.sends + k) msg ≠ none) →
      requestedWaits (effectsSince w
          (util.WithRetry ctx (maxRetries : Int) (producerSendMessage env msg) w).2)
        = List.range' 1 maxRetries ∧
      (requestedWaits (effectsSince w
          (util.WithRetry ctx (maxRetries : Int) (producerSendMessage env msg) w).2)).length
        = maxRetries ∧
      (sentMessages (effectsSince w
          (util.WithRetry ctx (maxRetries : Int) (producerSendMessage env msg) w).2)).length
        = maxRetries ∧
      (requestedWaits (effectsSince w
          (util.WithRetry ctx (maxRetries : Int) (producerSendMessage env msg) w).2)).sum
        = maxRetries * (maxRetries + 1) / 2 ∧
      failuresAndWaits (effectsSince w
          (util.WithRetry ctx (maxRetries : Int) (producerSendMessage env msg) w).2)
        = (List.range' 1 maxRetries).flatMap (fun k => [none, some k])) ∧
    ((env.GetEventByID w.lookups inp.EventID).2 = none →
      env.jsonMarshal (constructedEventLog env inp w) = .ok jsonData →
      (∀ k, k < 3 → env.SendMessage (w.sends + k) (publishedMessage env w jsonData) ≠ none) →
      requestedWaits (runEffects env ctx inp w) = [1, 2, 3] ∧
      (requestedWaits (runEffects env ctx inp w)).sum = 6 ∧
      ∃ e1 e2 e3, runEffects env ctx inp w =
        constructionEffects env inp w ++
          [.generate (env.Generate (w.ids + 1)),
           .sendMessage (publishedMessage env w jsonData) (some e1), .wait 1 none,
           .sendMessage (publishedMessage env w jsonData) (some e2), .wait 2 none,
           .sendMessage (publishedMessage env w jsonData) (some e3), .wait 3 none,
           .logErrorf "Failed to send message to kafka: %v" e3,
           .createEventLog (constructedEventLog env inp w)
             (env.CreateEventLog w.writes (constructedEventLog env inp w))] ++
          (match env.CreateEventLog w.writes (constructedEventLog env inp w) with
            | none => []
            | some we => [.logErrorf "Failed to create event log: %v" we])) := by
  constructor
  · intro hfail
    obtain ⟨l, htr, hrw, hsm, hfw, -⟩ :=
      loop_send_all_fail_shape env ctx msg hctx maxRetries 0 none w hfail
    rw [Nat.zero_add] at hrw hfw
    have heff : effectsSince w
        (util.WithRetry ctx (maxRetries : Int) (producerSendMessage env msg) w).2 = l := by
      apply effectsSince_of_trace_eq
      rw [withRetry_natCast]
      exact htr
    rw [heff, hrw]
    refine ⟨rfl, by simp, hsm, ?_, hfw⟩
    have h2 := two_mul_sum_range_one maxRetries
    omega
  · intro hl hm hfail
    obtain ⟨e1, h1⟩ := Option.ne_none_iff_exists'.mp (hfail 0 (by omega))
    obtain ⟨e2, h2⟩ := Option.ne_none_iff_exists'.mp (hfail 1 (by omega))
    obtain ⟨e3, h3⟩ := Option.ne_none_iff_exists'.mp (hfail 2 (by omega))
    rw [Nat.add_zero] at h1
    have hretry := withRetry_send_fail_fail_fail env ctx (publishedMessage env w jsonData)
      (worldBeforePublish env inp w) e1 e2 e3 h1 h2 h3 (hctx _ _) (hctx _ _) (hctx _ _)
    have hrun := createEventLog_of_marshal_ok env ctx inp w jsonData hl hm
    rw [hretry] at hrun
    have htrace : runEffects env ctx inp w =
        constructionEffects env inp w ++
          [.generate (env.Generate (w.ids + 1)),
           .sendMessage (publishedMessage env w jsonData) (some e1), .wait 1 none,
           .sendMessage (publishedMessage env w jsonData) (some e2), .wait 2 none,
           .sendMessage (publishedMessage env w jsonData) (some e3), .wait 3 none,
           .logErrorf "Failed to send message to kafka: %v" e3,
           .createEventLog (constructedEventLog env inp w)
             (env.CreateEventLog w.writes (constructedEventLog env inp w))] ++
          (match env.CreateEventLog w.writes (constructedEventLog env inp w) with
            | none => []
            | some we => [.logErrorf "Failed to create event log: %v" we]) := by
      unfold runEffects
      cases hw : env.CreateEventLog w.writes (constructedEventLog env inp w) with
      | none =>
        have hwb : env.CreateEventLog (worldBeforePublish env inp w).writes
            (constructedEventLog env inp w) = none := hw
        simp only [repoCreateEventLog, logErrorf, hwb] at hrun
        rw [effectsSince_of_trace_eq w _ _ (by rw [hrun]; simp [worldBeforePublish]; rfl)]
        simp
      | some we =>
        have hwb : env.CreateEventLog (worldBeforePublish env inp w).writes
            (constructedEventLog env inp w) = some we := hw
        simp only [repoCreateEventLog, logErrorf, hwb] at hrun
        rw [effectsSince_of_trace_eq w _ _ (by rw [hrun]; simp [worldBeforePublish]; rfl)]
        simp
    have hwaits : requestedWaits (runEffects env ctx inp w) = [1, 2, 3] := by
      rw [htrace]
      cases hw : env.CreateEventLog w.writes (constructedEventLog env inp w) <;>
        simp [requestedWaits, constructionEffects]
    refine ⟨hwaits, ?_, e1, e2, e3, htrace⟩
    rw [hwaits]
    rfl

/-- C23, at a concrete input: with the broker down `CreateEventLog` asks for waits of
1, 2 and 3 seconds. -/
theorem withRetry_waits_after_last_failure_witness :
    requestedWaits (runEffects brokerDownEnv background sampleInput (World.init Nat))
      = [1, 2, 3] ∧
    (requestedWaits (runEffects brokerDownEnv background sampleInput (World.init Nat))).sum
      = 6 :=
  have h := (withRetry_waits_after_last_failure brokerDownEnv background sampleMessage 3
    sampleInput (World.init Nat) [1, 2, 3] (fun _ _ => rfl)).2 rfl rfl
    (fun k _ => by simp [brokerDownEnv])
  ⟨h.1, h.2.1⟩

/-! ## `ChunkArray` -/

/-- An arithmetic result within the range of `int` is left as it is. -/
theorem wrapInt_of_inRange (x : Int) (hlo : -9223372036854775808 ≤ x)
    (hhi : x ≤ 9223372036854775807) : wrapInt x = x := by
  unfold wrapInt
  omega

/-- While `len(data) + chunkSize - 1` is within `int`, the loop of `ChunkArray`, given
one round more than there are elements left, returns its accumulator followed by
the chunks of what remains. -/
theorem chunkArray_loop_eq (data : List String) (k : Nat) (hk : 0 < k)
    (hrange : data.length + k ≤ 9223372036854775808) :
    ∀ (fuel start : Nat) (result : List (List String)),
      data.length - start ≤ fuel →
      util.ChunkArray.loop data (k : Int) (fuel + 1) (start : Int) result
        = .returns (result ++ chunksOfRest k fuel (data.drop start)) := by
  intro fuel
  induction fuel with
  | zero =>
    intro start result hfuel
    have hge : ¬ ((start : Int) < (data.length : Int)) := by omega
    simp [util.ChunkArray.loop, hge, chunksOfRest]
  | succ fuel ih =>
    intro start result hfuel
    by_cases hlt : start < data.length
    · have hlt2 : (start : Int) < (data.length : Int) := by exact_mod_cast hlt
      have hw : wrapInt ((start : Int) + (k : Int)) = ((start + k : Nat) : Int) := by
        rw [wrapInt_of_inRange _ (by omega) (by omega)]
        push_cast
        rfl
      have hne : data.drop start ≠ [] := by
        intro h
        have := congrArg List.length h
        simp at this
        omega
      have hlen : (data.drop start).length = data.length - start := by simp
      have hchunk : (data.drop start).take
            (util.min ((start + k : Nat) : Int) (data.length : Int) - (start : Int)).toNat
          = (data.drop start).take k := by
        unfold util.min
        split_ifs with hc
        · have hto : (((start + k : Nat) : Int) - (start : Int)).toNat = k := by
            push_cast
            omega
          rw [hto]
        · have hnot : ¬ (start + k < data.length) := by exact_mod_cast hc
          have hto : ((data.length : Int) - (start : Int)).toNat = data.length - start := by
            omega
          rw [hto, List.take_of_length_le (by rw [hlen]),
            List.take_of_length_le (by rw [hlen]; omega)]
      have hcheck : 0 ≤ (start : Int) ∧
          (start : Int) ≤ util.min ((start + k : Nat) : Int) (data.length : Int) := by
        refine ⟨by omega, ?_⟩
        unfold util.min
        split_ifs
        · push_cast
          omega
        · omega
      rw [util.ChunkArray.loop]
      simp only [hlt2, if_true, hw, hcheck, and_self, Int.toNat_ofNat, hchunk]
      rw [ih (start + k) _ (by omega)]
      simp only [chunksOfRest, hne, if_false, List.drop_drop, List.append_assoc,
        List.singleton_append]
    · have hnil : data.drop start = [] := by
        apply List.drop_eq_nil_of_le
        omega
      have hge : ¬ ((start : Int) < (data.length : Int)) := by omega
      simp [util.ChunkArray.loop, hge, chunksOfRest, hnil]

/-- With enough rounds the chunks of `rest` are empty only when `rest` is. -/
theorem chunksOfRest_eq_nil_iff (k : Nat) :
    ∀ (fuel : Nat) (rest : List String), rest.length ≤ fuel →
      (chunksOfRest k fuel rest = [] ↔ rest = []) := by
  intro fuel rest hfuel
  cases fuel with
  | zero =>
    have : rest = [] := List.length_eq_zero.mp (by omega)
    simp [chunksOfRest, this]
  | succ fuel =>
    by_cases hr : rest = []
    · simp [chunksOfRest, hr]
    · simp [chunksOfRest, hr]

/-- With enough rounds and a positive size, the chunks put together give the list
back, there are `⌈length / k⌉` of them, all but the last have `k` elements and the
last has between one and `k`. -/
theorem chunksOfRest_spec (k : Nat) (hk : 0 < k) :
    ∀ (fuel : Nat) (rest : List String), rest.length ≤ fuel →
      (chunksOfRest k fuel rest).flatten = rest ∧
      (chunksOfRest k fuel rest).length = (rest.length + k - 1) / k ∧
      (∀ c ∈ (chunksOfRest k fuel rest).dropLast, c.length = k) ∧
      (∀ c, (chunksOfRest k fuel rest).getLast? = some c → 1 ≤ c.length ∧ c.length ≤ k) := by
  intro fuel
  induction fuel with
  | zero =>
    intro rest hfuel
    have : rest = [] := List.length_eq_zero.mp (by omega)
    subst this
    refine ⟨by simp [chunksOfRest], ?_, by simp [chunksOfRest], by simp [chunksOfRest]⟩
    simp only [chunksOfRest, List.length_nil, Nat.zero_add]
    exact (Nat.div_eq_of_lt (by omega)).symm
  | succ fuel ih =>
    intro rest hfuel
    by_cases hr : rest = []
    · subst hr
      refine ⟨by simp [chunksOfRest], ?_, by simp [chunksOfRest], by simp [chunksOfRest]⟩
      simp only [chunksOfRest, if_true, List.length_nil, Nat.zero_add]
      exact (Nat.div_eq_of_lt (by omega)).symm
    · have hpos : 0 < rest.length := List.length_pos.mpr hr
      have hdrop : (rest.drop k).length ≤ fuel := by
        simp only [List.length_drop]
        omega
      obtain ⟨h1, h2, h3, h4⟩ := ih (rest.drop k) hdrop
      have hnil := chunksOfRest_eq_nil_iff k fuel (rest.drop k) hdrop
      simp only [chunksOfRest, hr, if_false]
      refine ⟨?_, ?_, ?_, ?_⟩
      · simp only [List.flatten_cons, h1, List.take_append_drop]
      · simp only [List.length_cons, h2, List.length_drop]
        by_cases hle : rest.length ≤ k
        · have e1 : rest.length - k + k - 1 = k - 1 := by omega
          have e2 : (k - 1) / k = 0 := Nat.div_eq_of_lt (by omega)
          have e3 : (rest.length + k - 1) / k = 1 := by
            have : rest.length + k - 1 = (rest.length - 1) + k := by omega
            rw [this, Nat.add_div_right _ hk, Nat.div_eq_of_lt (by omega)]
          rw [e1, e2, e3]
        · have e1 : rest.length + k - 1 = (rest.length - k + k - 1) + k := by omega
          rw [e1, Nat.add_div_right _ hk]
      · intro c hc
        by_cases hd : rest.drop k = []
        · rw [hnil.mpr hd] at hc
          simp at hc
        · have hne : chunksOfRest k fuel (rest.drop k) ≠ [] := fun h => hd (hnil.mp h)
          rw [List.dropLast_cons_of_ne_nil hne] at hc
          rcases List.mem_cons.mp hc with hc1 | hc1
          · rw [hc1, List.length_take]
            have : k < rest.length := by
              by_contra hcon
              exact hd (List.drop_eq_nil_of_le (by omega))
            omega
          · exact h3 c hc1
      · intro c hc
        by_cases hd : rest.drop k = []
        · rw [hnil.mpr hd] at hc
          simp only [List.getLast?_singleton, Option.some.injEq] at hc
          subst hc
          rw [List.length_take]
          omega
        · have hne : chunksOfRest k fuel (rest.drop k) ≠ [] := fun h => hd (hnil.mp h)
          obtain ⟨b, l, hbl⟩ := List.exists_cons_of_ne_nil hne
          rw [hbl, List.getLast?_cons_cons] at hc
          rw [hbl] at h4
          exact h4 c hc

/-- C22: `ChunkArray` does not split every slice for every positive chunk size. For a
slice of three elements and the chunk size `math.MaxInt64` the capacity
`(len(data)+chunkSize-1)/chunkSize` wraps around to `-1` and the call panics in
`make`, where a chunk size of three gives the one chunk of all three elements.
For a chunk size of `int` with `len(data) + chunkSize - 1` within `int`, the call
returns chunks that, put together in order, give `data` back; every chunk but the
last has exactly `chunkSize` elements; the last has between one and `chunkSize`;
there are `⌈len(data) / chunkSize⌉` chunks, none for empty data. For
`chunkSize ≤ 0` the result is empty. -/
theorem chunkArray_panics_when_capacity_wraps (data : List String) (chunkSize : Int) :
    (util.ChunkArray ["a", "b", "c"] maxInt = .panics "makeslice: cap out of range" ∧
      util.ChunkArray ["a", "b", "c"] 3 = .returns [["a", "b", "c"]]) ∧
    (chunkSize ≤ 0 → util.ChunkArray data chunkSize = .returns []) ∧
    (0 < chunkSize → chunkSize ≤ maxInt → (data.length : Int) + chunkSize - 1 ≤ maxInt →
      ∃ chunks, util.ChunkArray data chunkSize = .returns chunks ∧
        chunks.flatten = data ∧
        (∀ c ∈ chunks.dropLast, (c.length : Int) = chunkSize) ∧
        (∀ c, chunks.getLast? = some c → 1 ≤ c.length ∧ (c.length : Int) ≤ chunkSize) ∧
        chunks.length = (data.length + chunkSize.toNat - 1) / chunkSize.toNat ∧
        (data = [] → chunks = [])) := by
  refine ⟨⟨by decide, by decide⟩, ?_, ?_⟩
  · intro hle
    simp [util.ChunkArray, hle]
  · intro hpos _ hrange
    unfold maxInt at hrange
    have hk : 0 < chunkSize.toNat := by omega
    have hcast : (chunkSize.toNat : Int) = chunkSize := Int.toNat_of_nonneg (by omega)
    have hsum : data.length + chunkSize.toNat ≤ 9223372036854775808 := by omega
    have hcap : wrapInt (wrapInt ((data.length : Int) + chunkSize) - 1)
        = (data.length : Int) + chunkSize - 1 := by
      unfold wrapInt
      omega
    have hnonneg : ¬ ((wrapInt (wrapInt ((data.length : Int) + chunkSize) - 1)).tdiv chunkSize
        < 0) := by
      rw [hcap]
      exact not_lt.mpr (Int.tdiv_nonneg (by omega) (by omega))
    have hdef : util.ChunkArray data chunkSize
        = .returns (chunksOfRest chunkSize.toNat data.length data) := by
      have hnot : ¬ chunkSize ≤ 0 := by omega
      have hloop := chunkArray_loop_eq data chunkSize.toNat hk hsum data.length 0 []
        (by omega)
      rw [hcast] at hloop
      simp only [util.ChunkArray, hnot, if_false, hnonneg]
      simpa using hloop
    obtain ⟨h1, h2, h3, h4⟩ := chunksOfRest_spec chunkSize.toNat hk data.length data (le_refl _)
    refine ⟨_, hdef, h1, ?_, ?_, h2, ?_⟩
    · intro c hc
      rw [← hcast, h3 c hc]
    · intro c hc
      obtain ⟨ha, hb⟩ := h4 c hc
      refine ⟨ha, ?_⟩
      rw [← hcast]
      exact_mod_cast hb
    · intro hnil
      exact (chunksOfRest_eq_nil_iff chunkSize.toNat data.length data (le_refl _)).mpr hnil

/-- C22, at concrete inputs: five elements in chunks of two, and a chunk size of zero. -/
theorem chunkArray_panics_when_capacity_wraps_witness :
    util.ChunkArray ["a", "b", "c", "d", "e"] 2
      = .returns [["a", "b"], ["c", "d"], ["e"]] ∧
    (∃ chunks, util.ChunkArray ["a", "b", "c", "d", "e"] 2 = .returns chunks ∧
      chunks.flatten = ["a", "b", "c", "d", "e"]) ∧
    util.ChunkArray ["a", "b", "c", "d", "e"] 0 = .returns [] :=
  ⟨by decide,
   (let ⟨chunks, h, hflat, _⟩ :=
      (chunkArray_panics_when_capacity_wraps ["a", "b", "c", "d", "e"] 2).2.2
        (by decide) (by decide) (by decide)
    ⟨chunks, h, hflat⟩),
   (chunkArray_panics_when_capacity_wraps ["a", "b", "c", "d", "e"] 0).2.1 (by decide)⟩

/-! ## Claims on the application, session and field services -/

/-- C21: when the application and the platform are found, `CreateSession` returns no
session and `ErrorInvalidRequest`, and makes no repository write, if `StartedAt` does
not parse under the layout `2006-01-02 15:04:05`, or if `EndedAt` is present and
does not parse under it. When `StartedAt` parses and `EndedAt` is absent or parses,
the one write is `CreateSession` of a session whose `StartedAt` is the parsed time
and whose `EndedAt` is the parsed time, or absent when the request has none; that
session is the one returned when the write succeeds. -/
theorem createSession_times (repo : Repo) (inp : datastructure.Session)
    (hApplication : (repo.GetApplicationByID inp.ApplicationID).2 = none)
    (hPlatform : (repo.GetPlatformByID inp.PlatformID).2 = none) :
    ((∃ e, repo.timeParse "2006-01-02 15:04:05" inp.StartedAt = .error e) →
      (ApplicationService.CreateSession repo inp).1
          = (none, some (.sentinel .ErrorInvalidRequest)) ∧
        ∀ call ∈ (ApplicationService.CreateSession repo inp).2, call.isWrite = false) ∧
    (∀ ended, inp.EndedAt = some ended →
      (∃ e, repo.timeParse "2006-01-02 15:04:05" ended = .error e) →
      (ApplicationService.CreateSession repo inp).1
          = (none, some (.sentinel .ErrorInvalidRequest)) ∧
        ∀ call ∈ (ApplicationService.CreateSession repo inp).2, call.isWrite = false) ∧
    (∀ startedAt endedAt,
      repo.timeParse "2006-01-02 15:04:05" inp.StartedAt = .ok startedAt →
      (match inp.EndedAt with
        | none => endedAt = none
        | some ended => ∃ t, repo.timeParse "2006-01-02 15:04:05" ended = .ok t ∧
            endedAt = some t) →
      ∃ session : model.Session,
        session.StartedAt = startedAt ∧ session.EndedAt = endedAt ∧
        (ApplicationService.CreateSession repo inp).2
          = [.GetApplicationByID inp.ApplicationID, .GetPlatformByID inp.PlatformID,
             .CreateSession session] ∧
        (repo.CreateSession session = none →
          (ApplicationService.CreateSession repo inp).1 = (some session, none)) ∧
        (∀ returned, (ApplicationService.CreateSession repo inp).1.1 = some returned →
          returned = session)) := by
  rcases hA : repo.GetApplicationByID inp.ApplicationID with ⟨application, aerr⟩
  rcases hP : repo.GetPlatformByID inp.PlatformID with ⟨platform, perr⟩
  rw [hA] at hApplication
  rw [hP] at hPlatform
  simp only at hApplication hPlatform
  subst hApplication hPlatform
  refine ⟨?_, ?_, ?_⟩
  · rintro ⟨e, he⟩
    simp [ApplicationService.CreateSession, hA, hP, util.ParseTimeDefaultFormat, util.ParseTime,
      he, RepoCall.isWrite]
  · rintro ended hended ⟨e, he⟩
    cases hs : repo.timeParse "2006-01-02 15:04:05" inp.StartedAt with
    | error e0 =>
      simp [ApplicationService.CreateSession, hA, hP, util.ParseTimeDefaultFormat,
        util.ParseTime, hs, RepoCall.isWrite]
    | ok t0 =>
      simp [ApplicationService.CreateSession, hA, hP, util.ParseTimeDefaultFormat,
        util.ParseTime, hs, hended, he, RepoCall.isWrite]
  · intro startedAt endedAt hs hend
    cases hE : inp.EndedAt with
    | none =>
      rw [hE] at hend
      simp only at hend
      subst hend
      cases hw : repo.CreateSession
        { ID := repo.Generate 0, ApplicationID := application.ID, PlatformID := platform.ID,
          SessionKey := inp.SessionKey, UserID := inp.UserID, UserAgent := inp.UserAgent,
          IPAddress := inp.IPAddress, StartedAt := startedAt, EndedAt := none,
          CreatedAt := repo.Now 0, UpdatedAt := zeroTime, DeletedAt := none } with
      | none =>
        refine ⟨
          { ID := repo.Generate 0, ApplicationID := application.ID, PlatformID := platform.ID,
            SessionKey := inp.SessionKey, UserID := inp.UserID, UserAgent := inp.UserAgent,
            IPAddress := inp.IPAddress, StartedAt := startedAt, EndedAt := none,
            CreatedAt := repo.Now 0, UpdatedAt := zeroTime, DeletedAt := none },
          rfl, rfl, ?_, ?_, ?_⟩ <;>
          simp [ApplicationService.CreateSession, hA, hP, util.ParseTimeDefaultFormat,
            util.ParseTime, hs, hE, hw]
      | some we =>
        refine ⟨
          { ID := repo.Generate 0, ApplicationID := application.ID, PlatformID := platform.ID,
            SessionKey := inp.SessionKey, UserID := inp.UserID, UserAgent := inp.UserAgent,
            IPAddress := inp.IPAddress, StartedAt := startedAt, EndedAt := none,
            CreatedAt := repo.Now 0, UpdatedAt := zeroTime, DeletedAt := none },
          rfl, rfl, ?_, ?_, ?_⟩ <;>
          simp [ApplicationService.CreateSession, hA, hP, util.ParseTimeDefaultFormat,
            util.ParseTime, hs, hE, hw]
    | some ended =>
      rw [hE] at hend
      obtain ⟨t, ht, rfl⟩ := hend
      cases hw : repo.CreateSession
        { ID := repo.Generate 0, ApplicationID := application.ID, PlatformID := platform.ID,
          SessionKey := inp.SessionKey, UserID := inp.UserID, UserAgent := inp.UserAgent,
          IPAddress := inp.IPAddress, StartedAt := startedAt, EndedAt := some t,
          CreatedAt := repo.Now 0, UpdatedAt := zeroTime, DeletedAt := none } with
      | none =>
        refine ⟨
          { ID := repo.Generate 0, ApplicationID := application.ID, PlatformID := platform.ID,
            SessionKey := inp.SessionKey, UserID := inp.UserID, UserAgent := inp.UserAgent,
            IPAddress := inp.IPAddress, StartedAt := startedAt, EndedAt := some t,
            CreatedAt := repo.Now 0, UpdatedAt := zeroTime, DeletedAt := none },
          rfl, rfl, ?_, ?_, ?_⟩ <;>
          simp [ApplicationService.CreateSession, hA, hP, util.ParseTimeDefaultFormat,
            util.ParseTime, hs, hE, ht, hw]
      | some we =>
        refine ⟨
          { ID := repo.Generate 0, ApplicationID := application.ID, PlatformID := platform.ID,
            SessionKey := inp.SessionKey, UserID := inp.UserID, UserAgent := inp.UserAgent,
            IPAddress := inp.IPAddress, StartedAt := startedAt, EndedAt := some t,
            CreatedAt := repo.Now 0, UpdatedAt := zeroTime, DeletedAt := none },
          rfl, rfl, ?_, ?_, ?_⟩ <;>
          simp [ApplicationService.CreateSession, hA, hP, util.ParseTimeDefaultFormat,
            util.ParseTime, hs, hE, ht, hw]

/-- C21, at concrete inputs: a request whose times parse, and one whose start does
not. -/
theorem createSession_times_witness :
    (ApplicationService.CreateSession sampleRepo
        { sampleSessionInput with StartedAt := "yesterday" }).1
      = (none, some (.sentinel .ErrorInvalidRequest)) ∧
    (∃ session : model.Session,
      session.StartedAt = 1714557600000000000 ∧
      session.EndedAt = some 1714561200000000000 ∧
      (ApplicationService.CreateSession sampleRepo sampleSessionInput).1
        = (some session, none)) :=
  ⟨((createSession_times sampleRepo { sampleSessionInput with StartedAt := "yesterday" }
      rfl rfl).1 ⟨_, rfl⟩).1,
   by
    obtain ⟨session, h1, h2, _, h4, _⟩ :=
      (createSession_times sampleRepo sampleSessionInput rfl rfl).2.2
        1714557600000000000 (some 1714561200000000000) rfl ⟨_, rfl, rfl⟩
    exact ⟨session, h1, h2, h4 rfl⟩⟩

/-- C25: the tenant path that creates a field never looks at the caller's application.
The outcome of `TenantHandler.CreateEventField` is the same whatever the context
keys hold; `EventService.CreateEventField` looks the event up by id alone; and for
an event that exists the field handed to the repository has that event's ID,
whichever application owns the event. The variants `GetEventFieldByTenant`,
`UpdateEventFieldByTenant` and `DeleteEventFieldByTenant` return `ErrorNotFound`
after their first lookup when the event is not found under the caller's
application. -/
theorem createEventField_ignores_caller_application (repo : Repo)
    (c : RequestContext datastructure.CreateEventFieldRequest) :
    (∀ keys, TenantHandler.CreateEventField repo { c with Keys := keys }
        = TenantHandler.CreateEventField repo c) ∧
    (∀ inp, (EventService.CreateEventField repo inp).2.head? = some (.GetEventByID inp.EventID) ∧
      ∀ call ∈ (EventService.CreateEventField repo inp).2,
        ∀ applicationID id, call ≠ .GetEventByApplicationIDAndID applicationID id) ∧
    (∀ req event, c.ShouldBindJSON createEventFieldRequestFailures = .ok req →
      repo.GetEventByID (c.Param "event_id") = (event, none) →
      ∃ field : model.EventField,
        field.EventID = event.ID ∧ field.Name = req.Name ∧ field.DataType = req.DataType ∧
        (TenantHandler.CreateEventField repo c).2
          = [.GetEventByID (c.Param "event_id"), .CreateEventField field] ∧
        (repo.CreateEventField field = none →
          ∃ data : datastructure.EventField,
            (TenantHandler.CreateEventField repo c).1 = .Success data ∧
            data.EventID = event.ID ∧ data.ID = field.ID)) ∧
    (∀ applicationID eventID fieldID inp e,
      (repo.GetEventByApplicationIDAndID applicationID eventID).2 = some e →
      errorsIs e .gormErrRecordNotFound = true →
      EventService.GetEventFieldByTenant repo applicationID eventID fieldID
        = ((none, some (.sentinel .ErrorNotFound)),
            [.GetEventByApplicationIDAndID applicationID eventID]) ∧
      EventService.UpdateEventFieldByTenant repo applicationID eventID fieldID inp
        = (some (.sentinel .ErrorNotFound),
            [.GetEventByApplicationIDAndID applicationID eventID]) ∧
      EventService.DeleteEventFieldByTenant repo applicationID eventID fieldID
        = (some (.sentinel .ErrorNotFound),
            [.GetEventByApplicationIDAndID applicationID eventID])) := by
  refine ⟨fun keys => rfl, ?_, ?_, ?_⟩
  · intro inp
    rcases hlk : repo.GetEventByID inp.EventID with ⟨event, _ | e⟩
    · cases hw : repo.CreateEventField
        { ID := repo.Generate 0, EventID := event.ID, Name := inp.Name,
          DataType := inp.DataType, IsRequired := inp.IsRequired,
          Description := inp.Description, CreatedAt := repo.Now 0, UpdatedAt := zeroTime,
          DeletedAt := none } <;>
        simp [EventService.CreateEventField, hlk, hw]
    · simp [EventService.CreateEventField, hlk]
  · intro req event hbind hlk
    refine ⟨
      { ID := repo.Generate 0, EventID := event.ID, Name := req.Name,
        DataType := req.DataType, IsRequired := req.IsRequired,
        Description := req.Description, CreatedAt := repo.Now 0, UpdatedAt := zeroTime,
        DeletedAt := none },
      rfl, rfl, rfl, ?_, ?_⟩
    · cases hw : repo.CreateEventField
        { ID := repo.Generate 0, EventID := event.ID, Name := req.Name,
          DataType := req.DataType, IsRequired := req.IsRequired,
          Description := req.Description, CreatedAt := repo.Now 0, UpdatedAt := zeroTime,
          DeletedAt := none } <;>
      simp only [TenantHandler.CreateEventField, hbind, EventService.CreateEventField, hlk,
          hw, errdefs.WrapGormError]
      split_ifs <;> rfl
    · intro hw
      simp [TenantHandler.CreateEventField, hbind, EventService.CreateEventField, hlk, hw]
  · intro applicationID eventID fieldID inp e hl hnf
    rcases hlk : repo.GetEventByApplicationIDAndID applicationID eventID with ⟨event, lerr⟩
    rw [hlk] at hl
    simp only at hl
    subst hl
    simp [EventService.GetEventFieldByTenant, EventService.UpdateEventFieldByTenant,
      EventService.DeleteEventFieldByTenant, hlk, errdefs.WrapGormError, hnf]

/-- C25, at a concrete request: a caller authenticated as `app-1` adds a field to the
event `ev-1` of `app-2`, for which the lookup under `app-1` finds nothing. -/
theorem createEventField_ignores_caller_application_witness :
    sampleFieldContext.GetString "tenant_application_id" = "app-1" ∧
    (sampleRepo.GetEventByID "ev-1").1.ApplicationID = "app-2" ∧
    EventService.GetEventFieldByTenant sampleRepo "app-1" "ev-1" "f-1"
      = ((none, some (.sentinel .ErrorNotFound)),
          [.GetEventByApplicationIDAndID "app-1" "ev-1"]) ∧
    (∃ data : datastructure.EventField,
      (TenantHandler.CreateEventField sampleRepo sampleFieldContext).1 = .Success data ∧
      data.EventID = "ev-1") :=
  ⟨rfl, rfl,
   ((createEventField_ignores_caller_application sampleRepo sampleFieldContext).2.2.2
      "app-1" "ev-1" "f-1"
      { ID := "", EventID := "", Name := "", DataType := "", IsRequired := false,
        Description := "", CreatedAt := "", UpdatedAt := "", DeletedAt := "" }
      (.sentinel .gormErrRecordNotFound) rfl rfl).1,
   by
    obtain ⟨field, _, _, _, _, h5⟩ :=
      (createEventField_ignores_caller_application sampleRepo sampleFieldContext).2.2.1
        { EventID := "", Name := "coupon", DataType := "string", IsRequired := false,
          Description := "" } foreignEvent rfl rfl
    obtain ⟨data, hd1, hd2, _⟩ := h5 rfl
    exact ⟨data, hd1, hd2⟩⟩

/-- C26: `AdminHandler.CreateApp` hands `ApplicationService.CreateApplication` an input
whose TenantID is empty, whatever the bound request holds: the repository calls of
the handler are those of the service on that input, they start with the lookup of
the tenant `""`, and no other tenant is looked up. Two requests that differ only in
their (non-empty, as the binding requires) tenant_id have the same outcome and the
same repository calls; and when the tenant `""` is not found the answer is
`ErrorNotFound`. -/
theorem adminCreateApp_ignores_tenant_id (repo : Repo)
    (c : RequestContext datastructure.CreateApplicationRequest) :
    (∀ req, c.ShouldBindJSON createApplicationRequestFailures = .ok req →
      (AdminHandler.reqApp req).TenantID = "" ∧
      (AdminHandler.CreateApp repo c).2
        = (ApplicationService.CreateApplication repo (AdminHandler.reqApp req)).2 ∧
      (AdminHandler.CreateApp repo c).2.head? = some (.GetTenantByID "") ∧
      (∀ id, RepoCall.GetTenantByID id ∈ (AdminHandler.CreateApp repo c).2 → id = "")) ∧
    (∀ (req : datastructure.CreateApplicationRequest) (t1 t2 : String), t1 ≠ "" → t2 ≠ "" →
      AdminHandler.CreateApp repo { c with body := .ok { req with TenantID := t1 } }
        = AdminHandler.CreateApp repo { c with body := .ok { req with TenantID := t2 } }) ∧
    (∀ req e, c.ShouldBindJSON createApplicationRequestFailures = .ok req →
      (repo.GetTenantByID "").2 = some e → errorsIs e .gormErrRecordNotFound = true →
      AdminHandler.CreateApp repo c
        = (.ErrorResponse (.sentinel .ErrorNotFound), [.GetTenantByID ""])) := by
  have hcalls : ∀ req, c.ShouldBindJSON createApplicationRequestFailures = .ok req →
      (AdminHandler.CreateApp repo c).2
        = (ApplicationService.CreateApplication repo (AdminHandler.reqApp req)).2 := by
    intro req hbind
    simp only [AdminHandler.CreateApp, hbind]
    rcases ApplicationService.CreateApplication repo (AdminHandler.reqApp req) with
      ⟨⟨_ | app, _ | err⟩, calls⟩ <;> rfl
  have hshape : ∀ inp : datastructure.Application,
      (ApplicationService.CreateApplication repo inp).2.head? = some (.GetTenantByID inp.TenantID) ∧
      ∀ id, RepoCall.GetTenantByID id ∈ (ApplicationService.CreateApplication repo inp).2 →
        id = inp.TenantID := by
    intro inp
    simp only [ApplicationService.CreateApplication]
    rcases repo.GetTenantByID inp.TenantID with ⟨tenant, _ | e⟩
    · rcases repo.GenerateAPIKey 32 with gerr | apiKey
      · simp
      · simp only
        split <;> simp
    · simp
  refine ⟨?_, ?_, ?_⟩
  · intro req hbind
    refine ⟨rfl, hcalls req hbind, ?_, ?_⟩
    · rw [hcalls req hbind]
      exact (hshape (AdminHandler.reqApp req)).1
    · rw [hcalls req hbind]
      exact (hshape (AdminHandler.reqApp req)).2
  · intro req t1 t2 ht1 ht2
    have hf : createApplicationRequestFailures { req with TenantID := t1 }
        = createApplicationRequestFailures { req with TenantID := t2 } := by
      simp [createApplicationRequestFailures, ht1, ht2]
    simp only [AdminHandler.CreateApp, RequestContext.ShouldBindJSON, hf]
    cases createApplicationRequestFailures { req with TenantID := t2 } <;> rfl
  · intro req e hbind hl hnf
    rcases hlk : repo.GetTenantByID "" with ⟨tenant, lerr⟩
    rw [hlk] at hl
    simp only at hl
    subst hl
    simp [AdminHandler.CreateApp, hbind, ApplicationService.CreateApplication,
      AdminHandler.reqApp, hlk, errdefs.WrapGormError, hnf]

/-- C26, at a concrete request: the tenant `tenant-1` exists and is the one asked for,
yet the answer is `ErrorNotFound`, after a lookup of the tenant `""`; asking for
another tenant changes nothing. -/
theorem adminCreateApp_ignores_tenant_id_witness :
    (sampleRepo.GetTenantByID "tenant-1").2 = none ∧
    AdminHandler.CreateApp sampleRepo sampleAppContext
      = (.ErrorResponse (.sentinel .ErrorNotFound), [.GetTenantByID ""]) ∧
    AdminHandler.CreateApp sampleRepo
        { sampleAppContext with
          body := .ok { TenantID := "tenant-1", Name := "shop", Description := "web shop" } }
      = AdminHandler.CreateApp sampleRepo
        { sampleAppContext with
          body := .ok { TenantID := "tenant-2", Name := "shop", Description := "web shop" } } :=
  ⟨rfl,
   (adminCreateApp_ignores_tenant_id sampleRepo sampleAppContext).2.2
      { TenantID := "tenant-1", Name := "shop", Description := "web shop" }
      (.sentinel .gormErrRecordNotFound) rfl rfl rfl,
   (adminCreateApp_ignores_tenant_id sampleRepo sampleAppContext).2.1
      { TenantID := "", Name := "shop", Description := "web shop" }
      "tenant-1" "tenant-2" (by decide) (by decide)⟩

/-- C27: `ApplicationService.DeleteApplicationAPIKey` looks the key up by `apiKeyID`.
When the key is not found it returns `ErrorNotFound`, when the key found belongs to
another application it returns `ErrorInvalidRequest`, in both cases after the lookup
alone; when the key belongs to the given application the result is that of the
repository delete of that key. The repository delete is called exactly when the key
was found and belongs to the given application, and only on the key found. -/
theorem deleteApplicationAPIKey_checks_owner (repo : Repo) (applicationID apiKeyID : String) :
    (∀ e, (repo.GetApplicationKeyByID apiKeyID).2 = some e →
      errorsIs e .gormErrRecordNotFound = true →
      ApplicationService.DeleteApplicationAPIKey repo applicationID apiKeyID
        = (some (.sentinel .ErrorNotFound), [.GetApplicationKeyByID apiKeyID])) ∧
    ((repo.GetApplicationKeyByID apiKeyID).2 = none →
      (repo.GetApplicationKeyByID apiKeyID).1.ApplicationID ≠ applicationID →
      ApplicationService.DeleteApplicationAPIKey repo applicationID apiKeyID
        = (some (.sentinel .ErrorInvalidRequest), [.GetApplicationKeyByID apiKeyID])) ∧
    ((repo.GetApplicationKeyByID apiKeyID).2 = none →
      (repo.GetApplicationKeyByID apiKeyID).1.ApplicationID = applicationID →
      ApplicationService.DeleteApplicationAPIKey repo applicationID apiKeyID
        = (repo.DeleteApplicationAPIKey (repo.GetApplicationKeyByID apiKeyID).1,
            [.GetApplicationKeyByID apiKeyID,
             .DeleteApplicationAPIKey (repo.GetApplicationKeyByID apiKeyID).1])) ∧
    (∀ key, RepoCall.DeleteApplicationAPIKey key
        ∈ (ApplicationService.DeleteApplicationAPIKey repo applicationID apiKeyID).2 ↔
      ((repo.GetApplicationKeyByID apiKeyID).2 = none ∧
        (repo.GetApplicationKeyByID apiKeyID).1.ApplicationID = applicationID ∧
        key = (repo.GetApplicationKeyByID apiKeyID).1)) := by
  rcases hlk : repo.GetApplicationKeyByID apiKeyID with ⟨apiKey, _ | lerr⟩
  · refine ⟨?_, ?_, ?_, ?_⟩
    · intro e he
      simp at he
    · intro _ hne
      simp only at hne
      simp [ApplicationService.DeleteApplicationAPIKey, hlk, hne]
    · intro _ heq
      simp only at heq
      simp [ApplicationService.DeleteApplicationAPIKey, hlk, heq]
    · intro key
      by_cases heq : apiKey.ApplicationID = applicationID
      · simp [ApplicationService.DeleteApplicationAPIKey, hlk, heq]
      · simp [ApplicationService.DeleteApplicationAPIKey, hlk, heq]
  · refine ⟨?_, ?_, ?_, ?_⟩
    · intro e he hnf
      simp only [Option.some.injEq] at he
      subst he
      simp [ApplicationService.DeleteApplicationAPIKey, hlk, errdefs.WrapGormError, hnf]
    · intro h
      simp at h
    · intro h
      simp at h
    · intro key
      simp [ApplicationService.DeleteApplicationAPIKey, hlk]

/-- C27, at concrete keys: the key `key-id-1` of `app-1` asked to be deleted for
`app-2`, and a key that does not exist. -/
theorem deleteApplicationAPIKey_checks_owner_witness :
    ApplicationService.DeleteApplicationAPIKey sampleRepo "app-2" "key-id-1"
      = (some (.sentinel .ErrorInvalidRequest), [.GetApplicationKeyByID "key-id-1"]) ∧
    ApplicationService.DeleteApplicationAPIKey sampleRepo "app-1" "key-id-9"
      = (some (.sentinel .ErrorNotFound), [.GetApplicationKeyByID "key-id-9"]) ∧
    (ApplicationService.DeleteApplicationAPIKey sampleRepo "app-1" "key-id-1").1 = none :=
  ⟨(deleteApplicationAPIKey_checks_owner sampleRepo "app-2" "key-id-1").2.1 rfl (by decide),
   (deleteApplicationAPIKey_checks_owner sampleRepo "app-1" "key-id-9").1
      (.sentinel .gormErrRecordNotFound) rfl rfl,
   by
    rw [(deleteApplicationAPIKey_checks_owner sampleRepo "app-1" "key-id-1").2.2.1 rfl rfl]
    rfl⟩

/-- C28: every route of `AdminRoutes.RegisterRoutes` lies under `/admin` behind
`AdminAuthMiddleware`. The middleware hands the request to the rest of the chain
exactly when the `x-api-key` header is non-empty and equal to `config.AdminApiKey`;
in every other case it aborts with status 401 and the rest of the chain does not
run. When the configured admin key is empty no request is handed on. -/
theorem adminAuthMiddleware_admits_iff_key_matches {B R : Type} (config : Config)
    (next : RequestContext B → R) (c : RequestContext B) :
    (∀ r ∈ AdminRoutes.RegisterRoutes,
      r.middlewares = [.AdminAuthMiddleware] ∧ (pathSegments r.path).take 2 = ["", "admin"]) ∧
    ((AdminAuthMiddleware config next c).1 = .next (next c) ↔
      (c.Header "x-api-key" ≠ "" ∧ c.Header "x-api-key" = config.AdminApiKey)) ∧
    ((AdminAuthMiddleware config next c).1 = .abortUnauthorized 401 ↔
      ¬ (c.Header "x-api-key" ≠ "" ∧ c.Header "x-api-key" = config.AdminApiKey)) ∧
    ((∀ r, (AdminAuthMiddleware config next c).1 ≠ .next r) ↔
      ¬ (c.Header "x-api-key" ≠ "" ∧ c.Header "x-api-key" = config.AdminApiKey)) ∧
    (config.AdminApiKey = "" → (AdminAuthMiddleware config next c).1 = .abortUnauthorized 401) := by
  refine ⟨by decide, ?_, ?_, ?_, ?_⟩
  · by_cases hkey : c.Header "x-api-key" = ""
    · simp [AdminAuthMiddleware, hkey]
    · by_cases heq : c.Header "x-api-key" = config.AdminApiKey
      · have hcfg : ¬ config.AdminApiKey = "" := heq ▸ hkey
        simp [AdminAuthMiddleware, heq, hcfg]
      · simp [AdminAuthMiddleware, hkey, heq]
  · by_cases hkey : c.Header "x-api-key" = ""
    · simp [AdminAuthMiddleware, hkey]
    · by_cases heq : c.Header "x-api-key" = config.AdminApiKey
      · have hcfg : ¬ config.AdminApiKey = "" := heq ▸ hkey
        simp [AdminAuthMiddleware, heq, hcfg]
      · simp [AdminAuthMiddleware, hkey, heq]
  · by_cases hkey : c.Header "x-api-key" = ""
    · simp [AdminAuthMiddleware, hkey]
    · by_cases heq : c.Header "x-api-key" = config.AdminApiKey
      · have hcfg : ¬ config.AdminApiKey = "" := heq ▸ hkey
        simp [AdminAuthMiddleware, heq, hcfg]
      · simp [AdminAuthMiddleware, hkey, heq]
  · intro hcfg
    by_cases hkey : c.Header "x-api-key" = ""
    · simp [AdminAuthMiddleware, hkey]
    · have hne : c.Header "x-api-key" ≠ config.AdminApiKey := by
        rw [hcfg]
        exact hkey
      simp [AdminAuthMiddleware, hkey, hne]

/-- C28, at concrete requests: with an empty configured key a request that sends the
empty key is turned away, and so is one that sends a wrong key to a configuration
with a key. -/
theorem adminAuthMiddleware_admits_iff_key_matches_witness :
    (AdminAuthMiddleware { sampleConfig with AdminApiKey := "" } (fun _ => true)
        { sampleAppContext with Header := fun _ => "" }).1 = .abortUnauthorized 401 ∧
    (AdminAuthMiddleware sampleConfig (fun _ => true) sampleAppContext).1 = .next true ∧
    (AdminAuthMiddleware sampleConfig (fun _ => true)
        { sampleAppContext with Header := fun _ => "guess" }).1 = .abortUnauthorized 401 :=
  ⟨(adminAuthMiddleware_admits_iff_key_matches { sampleConfig with AdminApiKey := "" }
      (fun _ => true) { sampleAppContext with Header := fun _ => "" }).2.2.2.2 rfl,
   (adminAuthMiddleware_admits_iff_key_matches sampleConfig (fun _ => true)
      sampleAppContext).2.1.2 ⟨by decide, by decide⟩,
   (adminAuthMiddleware_admits_iff_key_matches sampleConfig (fun _ => true)
      { sampleAppContext with Header := fun _ => "guess" }).2.2.1.2 (by decide)⟩

end Tracking
